import Mathlib

/-! SchemeInterpreter: analysis and evaluation core.

A shallow embedding of `src/parser.cpp`, `src/evaluation.cpp` and the driver loop of
`src/main.cpp`, followed by theorems about it.

Conventions of the embedding.

* A C++ `int` is a Lean `Int`; every signed operation wraps modulo `2^32` (`wrap32`) and
  records in a flag whether the exact result was representable (`Arith`).
* A `Value` handle may be null (`Value.nullptr`), as a `find` that misses returns one.
* An `Assoc` is the immutable spine of an environment chain: the names it binds, innermost
  first, each with the address of its mutable value cell in the `State`.
* A C++ reference parameter `Assoc &env` is threaded: every analysis or evaluation step
  returns the environment handle the caller holds afterwards, also when it throws (`Out`).
-/

namespace Scheme

/-! ## Errors and machine integers -/

/-- The ways a computation of the interpreter stops without a value. -/
inductive Error where
  /-- the interpreter's own exception type, `RuntimeError(message)` -/
  | RuntimeError (message : String)
  /-- a C++ exception of another type, as thrown by `throw ("Wrong in IF")` -/
  | OtherException (what : String)
  /-- undefined behaviour that stops the process: a null handle dereferenced, an integer
  division by zero, a vector read outside its bounds -/
  | Crash (why : String)
  /-- the embedding's recursion budget is used up (the C++ program would still be running) -/
  | OutOfFuel
  /-- the outcome depends on something the embedding does not track (the identity of
  immutable objects compared by `eq?`) -/
  | Unmodelled (what : String)
  deriving DecidableEq

/-- Whether an error is the `RuntimeError` exception type. -/
def Error.isRuntimeError : Error → Bool
  | .RuntimeError _ => true
  | _ => false

/-- Two's complement reduction of an exact integer to a C++ `int`. -/
def wrap32 (x : Int) : Int := (x + 2147483648) % 4294967296 - 2147483648

/-- Whether an exact integer is representable as a C++ `int`, that is, lies in
`[INT_MIN, INT_MAX]`. -/
def fits32 (x : Int) : Bool := decide (-2147483648 ≤ x) && decide (x ≤ 2147483647)

/-- A stretch of C++ `int` arithmetic: its outcome, computed with wrap-around, and whether
every signed operation in it was exact (no signed overflow, which C++ leaves undefined). -/
structure Arith (α : Type) where
  val : Except Error α
  exact : Bool

/-- A finished computation. -/
def Arith.pure {α : Type} (a : α) : Arith α := ⟨.ok a, true⟩

/-- A thrown exception or a crash. -/
def Arith.fail {α : Type} (e : Error) : Arith α := ⟨.error e, true⟩

/-- Sequencing: the second part runs only when the first produced a value. -/
def Arith.bind {α β : Type} (x : Arith α) (f : α → Arith β) : Arith β :=
  match x.val with
  | .ok a => ⟨(f a).val, x.exact && (f a).exact⟩
  | .error e => ⟨.error e, x.exact⟩

instance : Monad Arith where
  pure := Arith.pure
  bind := Arith.bind

/-- The result of one signed operation whose exact value is `x`. -/
def iop (x : Int) : Arith Int := ⟨.ok (wrap32 x), fits32 x⟩

/-- The product `a * b` on `int`. -/
def imul (a b : Int) : Arith Int := iop (a * b)

/-- The sum `a + b` on `int`. -/
def iadd (a b : Int) : Arith Int := iop (a + b)

/-- The difference `a - b` on `int`. -/
def isub (a b : Int) : Arith Int := iop (a - b)

/-- The negation `-a` on `int`. -/
def ineg (a : Int) : Arith Int := iop (-a)

/-- The quotient `a / b` on `int`: truncating division; a zero divisor is a crash. -/
def idiv (a b : Int) : Arith Int :=
  if b = 0 then Arith.fail (.Crash "integer division by zero") else iop (Int.tdiv a b)

/-- The remainder `a % b` on `int`, that of truncating division; a zero divisor is a crash. The
remainder is always representable; the operation is undefined only when the quotient
is not (`INT_MIN % -1`). -/
def imod (a b : Int) : Arith Int :=
  if b = 0 then Arith.fail (.Crash "integer division by zero")
  else ⟨.ok (Int.tmod a b), fits32 (Int.tdiv a b)⟩

/-- The loop of `std::__gcd` (`bits/stl_algo.h`):
`while (n != 0) { t = m % n; m = n; n = t; } return m;`, with a bound on the number of
iterations (`std__gcd` supplies one that is never used up). -/
def gcd_loop : Nat → Int → Int → Arith Int
  | 0, m, n => if n = 0 then Arith.pure m else Arith.fail .OutOfFuel
  | fuel + 1, m, n =>
    if n = 0 then Arith.pure m
    else do
      let t ← imod m n
      gcd_loop fuel n t

/-- The library function `std::__gcd(m, n)`. The absolute value of `n` strictly decreases
with every iteration, so `|n| + 1` iterations always suffice. -/
def std__gcd (m n : Int) : Arith Int := gcd_loop (n.natAbs + 1) m n

/-! ## Data model -/

/-- The enumeration `ExprType` of `Def.hpp`, which is not among the sources: the enumerators
that the sources name, and `E_OTHER k` for any further one. -/
inductive ExprType where
  | E_VOID | E_EXIT | E_BOOLQ | E_INTQ | E_NULLQ | E_PAIRQ | E_PROCQ | E_SYMBOLQ | E_STRINGQ
  | E_DISPLAY | E_PLUS | E_MINUS | E_MUL | E_DIV | E_MODULO | E_EXPT | E_EQQ
  | E_BEGIN | E_QUOTE | E_IF | E_COND | E_LAMBDA | E_DEFINE | E_LET | E_LETREC | E_SET
  | E_LIST | E_LT | E_LE | E_EQ | E_GE | E_GT | E_AND | E_OR | E_NOT
  | E_CONS | E_CAR | E_CDR | E_LISTQ | E_SETCAR | E_SETCDR | E_APPLY
  | E_OTHER (k : Nat)
  deriving DecidableEq

/-- The generic syntax tree produced by the reader (`syntax.hpp`). -/
inductive Syntax where
  | Number (n : Int)
  | RationalSyntax (numerator denominator : Int)
  | StringSyntax (s : String)
  | TrueSyntax
  | FalseSyntax
  | SymbolSyntax (s : String)
  | List (stxs : List Syntax)

/-- The subclasses of `Unary` (one operand, semantics in `evalRator(rand)`). -/
inductive UnaryOp where
  | IsBoolean | IsFixnum | IsNull | IsPair | IsProcedure | IsSymbol | IsString
  | Display | Not | Car | Cdr | IsList
  deriving DecidableEq

/-- The subclasses of `Binary` (two operands, semantics in `evalRator(rand1, rand2)`). -/
inductive BinaryOp where
  | Plus | Minus | Mult | Div | Modulo | Expt
  | Less | LessEq | Equal | GreaterEq | Greater
  | Cons | SetCar | SetCdr | IsEq
  deriving DecidableEq

/-- The subclasses of `Variadic` (a vector of operands, semantics in `evalRator(args)`). -/
inductive VariadicOp where
  | PlusVar | MinusVar | MultVar | DivVar
  | LessVar | LessEqVar | EqualVar | GreaterEqVar | GreaterVar
  | ListFunc
  deriving DecidableEq

/-- The typed expression tree (`expr.hpp`): one constructor per node class, the fixed-arity
and variable-arity primitive nodes grouped under their base classes. `AndVar` and `OrVar`
define `eval` themselves and have no `evalRator`, so they are not `Variadic` nodes. -/
inductive Expr where
  | Fixnum (n : Int)
  | RationalNum (numerator denominator : Int)
  | StringExpr (s : String)
  | True
  | False
  | MakeVoid
  | Exit
  | Var (x : String)
  | Unary (op : UnaryOp) (rand : Expr)
  | Binary (op : BinaryOp) (rand1 rand2 : Expr)
  | Variadic (op : VariadicOp) (rands : List Expr)
  | AndVar (rands : List Expr)
  | OrVar (rands : List Expr)
  | Begin (es : List Expr)
  | Quote (s : Syntax)
  | If (cond conseq alter : Expr)
  | Cond (clauses : List (List Expr))
  | Lambda (x : List String) (e : Expr)
  | Apply (rator : Expr) (rand : List Expr)
  | Define (var : String) (e : Expr)
  | Let (bind : List (String × Expr)) (body : Expr)
  | Letrec (bind : List (String × Expr)) (body : Expr)
  | Set (var : String) (e : Expr)

/-- An environment handle: the bindings of the chain, innermost first, each a name and the
address of its value cell. The spine never changes once built; the cells do. -/
abbrev Assoc := List (String × Nat)

/-- A runtime value handle (`value.hpp`). `nullptr` is the null handle; a pair is the address
of its mutable car/cdr cell. -/
inductive Value where
  | nullptr
  | IntegerV (n : Int)
  | RationalV (numerator denominator : Int)
  | BooleanV (b : Bool)
  | StringV (s : String)
  | SymbolV (s : String)
  | VoidV
  | TerminateV
  | NullV
  | PairV (cell : Nat)
  | ProcedureV (parameters : List String) (e : Expr) (env : Assoc)

instance : Inhabited Value := ⟨Value.nullptr⟩

/-- The mutable memory of the interpreter. -/
structure State where
  /-- value cells of the environment bindings, by address -/
  cells : List Value
  /-- car and cdr of the allocated pairs, by address -/
  pairs : List (Value × Value)
  /-- the global map `primitives` (it can grow: `primitives[x]` inserts a missing key) -/
  primitives : List (String × ExprType)
  /-- the value-initialised `ExprType()`, that is the enumerator numbered 0; `Def.hpp` is
  not among the sources, so which enumerator that is stays a parameter -/
  zeroType : ExprType
  /-- what `display` has written so far, oldest first -/
  output : List Value

/-- Result of an analysis or evaluation step that was handed `Assoc &env`: the value or the
error, the environment handle the caller's variable holds afterwards, and the memory. -/
structure Out (α : Type) where
  res : Except Error α
  env : Assoc
  st : State

end Scheme


namespace Scheme

/-! ## Numeric primitives (`evaluation.cpp`, lines 178-597) -/

/-- The crash of reading through a null `Value` handle (`rand->v_type` with `rand` null). -/
def nullDeref : Error := .Crash "null Value handle dereferenced"

/-- The local accumulator `struct Rational_L { int denominator, numerator; }`. -/
structure Rational_L where
  denominator : Int
  numerator : Int

/-- The function `distribute(ans)`: reduce by `std::__gcd`, make the denominator positive,
return an `Integer` when the denominator is 1 and a `Rational` otherwise. -/
def distribute (ans : Rational_L) : Arith Value := do
  let temp ← std__gcd ans.denominator ans.numerator
  let d ← idiv ans.denominator temp
  let n ← idiv ans.numerator temp
  let r ← (if d < 0 then (do
      let d1 ← ineg d
      let n1 ← ineg n
      pure (Rational_L.mk d1 n1))
    else pure (Rational_L.mk d n))
  if r.denominator = 0 then Arith.fail (.RuntimeError "Unknown Error")
  else if r.denominator = 1 then pure (Value.IntegerV r.numerator)
  else pure (Value.RationalV r.numerator r.denominator)

/-- The function `IS_DIGIT(rand1)`, which reads `rand1->v_type`. -/
def IS_DIGIT (rand1 : Value) : Arith Bool :=
  match rand1 with
  | .nullptr => Arith.fail nullDeref
  | .IntegerV _ => pure true
  | .RationalV _ _ => pure true
  | _ => pure false

/-- The condition `IS_DIGIT(rand1) && IS_DIGIT(rand2)`; `&&` does not look at `rand2` when
`rand1` is not a number. -/
def IS_DIGIT_both (rand1 rand2 : Value) : Arith Bool := do
  if ← IS_DIGIT rand1 then IS_DIGIT rand2 else pure false

/-- The common opening of the arithmetic operators: the accumulator, initialised by the
caller, takes the first operand (an `Integer` sets only the numerator). -/
def loadFirst (acc : Rational_L) (rand1 : Value) : Rational_L :=
  match rand1 with
  | .IntegerV n => { acc with numerator := n }
  | .RationalV n d => { denominator := d, numerator := n }
  | _ => acc

/-- The method `Plus::evalRator(rand1, rand2)`. -/
def Plus_evalRator (rand1 rand2 : Value) : Arith Value := do
  if ← IS_DIGIT_both rand1 rand2 then
    let sum := loadFirst ⟨1, 1⟩ rand1
    match rand2 with
    | .IntegerV n2 =>
      let p ← imul n2 sum.denominator
      let num ← iadd sum.numerator p
      distribute ⟨sum.denominator, num⟩
    | .RationalV n2 d2 =>
      let g ← std__gcd d2 sum.denominator
      let p ← imul d2 sum.denominator
      let temp ← idiv p g
      let q ← idiv temp sum.denominator
      let num1 ← imul sum.numerator q
      let p2 ← imul n2 temp
      let q2 ← idiv p2 d2
      let num2 ← iadd num1 q2
      distribute ⟨temp, num2⟩
    | _ => distribute sum
  else Arith.fail (.RuntimeError "Wrong typename")

/-- The method `Minus::evalRator(rand1, rand2)`. -/
def Minus_evalRator (rand1 rand2 : Value) : Arith Value := do
  if ← IS_DIGIT_both rand1 rand2 then
    let difference := loadFirst ⟨1, 1⟩ rand1
    match rand2 with
    | .IntegerV n2 =>
      let p ← imul n2 difference.denominator
      let num ← isub difference.numerator p
      distribute ⟨difference.denominator, num⟩
    | .RationalV n2 d2 =>
      let g ← std__gcd d2 difference.denominator
      let p ← imul d2 difference.denominator
      let temp ← idiv p g
      let q ← idiv temp difference.denominator
      let num1 ← imul difference.numerator q
      let p2 ← imul n2 temp
      let q2 ← idiv p2 d2
      let num2 ← isub num1 q2
      distribute ⟨temp, num2⟩
    | _ => distribute difference
  else Arith.fail (.RuntimeError "Wrong typename")

/-- The method `Mult::evalRator(rand1, rand2)`. -/
def Mult_evalRator (rand1 rand2 : Value) : Arith Value := do
  if ← IS_DIGIT_both rand1 rand2 then
    let multi := loadFirst ⟨1, 1⟩ rand1
    match rand2 with
    | .IntegerV n2 =>
      let num ← imul multi.numerator n2
      distribute ⟨multi.denominator, num⟩
    | .RationalV n2 d2 =>
      let num ← imul multi.numerator n2
      let den ← imul multi.denominator d2
      distribute ⟨den, num⟩
    | _ => distribute multi
  else Arith.fail (.RuntimeError "Wrong typename")

/-- The method `Div::evalRator(rand1, rand2)`. -/
def Div_evalRator (rand1 rand2 : Value) : Arith Value := do
  if ← IS_DIGIT_both rand1 rand2 then
    let div := loadFirst ⟨1, 1⟩ rand1
    match rand2 with
    | .IntegerV n2 =>
      if n2 ≠ 0 then
        let den ← imul div.denominator n2
        distribute ⟨den, div.numerator⟩
      else Arith.fail (.RuntimeError "Division by zero")
    | .RationalV n2 d2 =>
      if n2 = 0 then Arith.fail (.RuntimeError "Division by zero")
      else
        let den ← imul div.denominator n2
        let num ← imul div.numerator d2
        distribute ⟨den, num⟩
    | _ => distribute div
  else Arith.fail (.RuntimeError "Wrong typename")

/-- The condition `rand1->v_type == V_INT && rand2->v_type == V_INT` of `Modulo` and
`Expt`, delivering the two `int`s when it holds. -/
def bothInt (rand1 rand2 : Value) : Arith (Option (Int × Int)) :=
  match rand1 with
  | .nullptr => Arith.fail nullDeref
  | .IntegerV a =>
    match rand2 with
    | .nullptr => Arith.fail nullDeref
    | .IntegerV b => pure (some (a, b))
    | _ => pure none
  | _ => pure none

/-- The method `Modulo::evalRator(rand1, rand2)`. -/
def Modulo_evalRator (rand1 rand2 : Value) : Arith Value := do
  match ← bothInt rand1 rand2 with
  | some (dividend, divisor) =>
    if divisor = 0 then Arith.fail (.RuntimeError "Division by zero")
    else
      let r ← imod dividend divisor
      pure (Value.IntegerV r)
  | none => Arith.fail (.RuntimeError "modulo is only defined for integers")

/-- The `while (exp > 0)` loop of `Expt::evalRator`. The two overflow tests compare an `int`
with `INT_MAX` and `INT_MIN`, after the multiplication has already wrapped. `exp` halves
in every iteration, so `exp` iterations always suffice. -/
def Expt_loop : Nat → Int → Int → Int → Arith Int
  | 0, result, _, exp => if exp > 0 then Arith.fail .OutOfFuel else pure result
  | fuel + 1, result, b, exp =>
    if exp > 0 then do
      let result1 ← (if Int.tmod exp 2 = 1 then imul result b else pure result)
      if Int.tmod exp 2 = 1 ∧ (result1 > 2147483647 ∨ result1 < -2147483648) then
        Arith.fail (.RuntimeError "Integer overflow in expt")
      else
        let b1 ← imul b b
        if (b1 > 2147483647 ∨ b1 < -2147483648) ∧ exp > 1 then
          Arith.fail (.RuntimeError "Integer overflow in expt")
        else Expt_loop fuel result1 b1 (Int.tdiv exp 2)
    else pure result

/-- The method `Expt::evalRator(rand1, rand2)`. -/
def Expt_evalRator (rand1 rand2 : Value) : Arith Value := do
  match ← bothInt rand1 rand2 with
  | some (base, exponent) =>
    if exponent < 0 then Arith.fail (.RuntimeError "Negative exponent not supported for integers")
    else if base = 0 ∧ exponent = 0 then Arith.fail (.RuntimeError "0^0 is undefined")
    else
      let result ← Expt_loop exponent.toNat 1 base exponent
      pure (Value.IntegerV result)
  | none => Arith.fail (.RuntimeError "Wrong typename")

/-- The three-way result `(left < right) ? -1 : (left > right) ? 1 : 0`. -/
def threeWay (left right : Int) : Int :=
  if left < right then -1 else if left > right then 1 else 0

/-- The function `compareNumericValues(v1, v2)`. -/
def compareNumericValues (v1 v2 : Value) : Arith Int :=
  match v1, v2 with
  | .nullptr, _ => Arith.fail nullDeref
  | .IntegerV n1, .IntegerV n2 => pure (threeWay n1 n2)
  | .RationalV num1 den1, .IntegerV n2 => do
    let right ← imul n2 den1
    pure (threeWay num1 right)
  | .IntegerV n1, .RationalV num2 den2 => do
    let left ← imul n1 den2
    pure (threeWay left num2)
  | .RationalV num1 den1, .RationalV num2 den2 => do
    let left ← imul num1 den2
    let right ← imul num2 den1
    pure (threeWay left right)
  | .IntegerV _, .nullptr => Arith.fail nullDeref
  | .RationalV _ _, .nullptr => Arith.fail nullDeref
  | _, _ => Arith.fail (.RuntimeError "Wrong typename in numeric comparison")

/-- The shared shape of `Less`, `LessEq`, `Equal`, `GreaterEq` and `Greater::evalRator`:
both operands must be numbers, then `test` is applied to the three-way comparison. -/
def compare_evalRator (test : Int → Bool) (rand1 rand2 : Value) : Arith Value := do
  if ← IS_DIGIT_both rand1 rand2 then
    let c ← compareNumericValues rand1 rand2
    pure (Value.BooleanV (test c))
  else Arith.fail (.RuntimeError "Wrong typename")

end Scheme


namespace Scheme

/-! ## Variable-arity numeric primitives (`evaluation.cpp`, lines 311-423, 541-597) -/

/-- The loop `for (i...) if (!IS_DIGIT(args[i])) throw ...`: whether every argument is a
number, stopping at the first that is not. -/
def allDigits : List Value → Arith Bool
  | [] => pure true
  | v :: vs => do
    if ← IS_DIGIT v then allDigits vs else pure false

/-- The read `dynamic_cast<Rational *>(args[0].get())->numerator` inside the loops of the
variadic operators: the cast is null unless the first argument is a `Rational`. -/
def firstNumerator (args0 : Value) : Arith Int :=
  match args0 with
  | .RationalV n _ => pure n
  | _ => Arith.fail nullDeref

/-- The loop `for (i = 1; ...)` of `PlusVar::evalRator`. -/
def PlusVar_loop (args0 : Value) : Rational_L → List Value → Arith Rational_L
  | sum, [] => pure sum
  | sum, .IntegerV n :: rest => do
    let p ← imul n sum.denominator
    let num ← iadd sum.numerator p
    PlusVar_loop args0 ⟨sum.denominator, num⟩ rest
  | sum, .RationalV _ d :: rest => do
    let n0 ← firstNumerator args0
    let g ← std__gcd d sum.denominator
    let p ← imul d sum.denominator
    let temp ← idiv p g
    let q ← idiv temp sum.denominator
    let num1 ← imul sum.numerator q
    let p2 ← imul n0 temp
    let q2 ← idiv p2 d
    let num2 ← iadd num1 q2
    let temp_gcd ← std__gcd num2 temp
    let num3 ← idiv num2 temp_gcd
    let den3 ← idiv temp temp_gcd
    PlusVar_loop args0 ⟨den3, num3⟩ rest
  | sum, _ :: rest => PlusVar_loop args0 sum rest

/-- The method `PlusVar::evalRator(args)`. -/
def PlusVar_evalRator (args : List Value) : Arith Value :=
  match args with
  | [] => Arith.fail (.RuntimeError "No parameter")
  | args0 :: rest => do
    if ← allDigits args then
      let r ← PlusVar_loop args0 (loadFirst ⟨1, 0⟩ args0) rest
      distribute r
    else Arith.fail (.RuntimeError "Wrong typename")

/-- The loop `for (i = 1; ...)` of `MinusVar::evalRator`. -/
def MinusVar_loop (args0 : Value) : Rational_L → List Value → Arith Rational_L
  | difference, [] => pure difference
  | difference, .IntegerV n :: rest => do
    let p ← imul n difference.denominator
    let num ← isub difference.numerator p
    MinusVar_loop args0 ⟨difference.denominator, num⟩ rest
  | difference, .RationalV _ d :: rest => do
    let n0 ← firstNumerator args0
    let g ← std__gcd d difference.denominator
    let p ← imul d difference.denominator
    let temp ← idiv p g
    let q ← idiv temp difference.denominator
    let num1 ← imul difference.numerator q
    let p2 ← imul n0 temp
    let q2 ← idiv p2 d
    let num2 ← isub num1 q2
    let temp_gcd ← std__gcd num2 temp
    let num3 ← idiv num2 temp_gcd
    let den3 ← idiv temp temp_gcd
    MinusVar_loop args0 ⟨den3, num3⟩ rest
  | difference, _ :: rest => MinusVar_loop args0 difference rest

/-- The method `MinusVar::evalRator(args)`. -/
def MinusVar_evalRator (args : List Value) : Arith Value :=
  match args with
  | [] => Arith.fail (.RuntimeError "No parameter")
  | args0 :: rest => do
    if ← allDigits args then
      let r ← MinusVar_loop args0 (loadFirst ⟨1, 0⟩ args0) rest
      distribute r
    else Arith.fail (.RuntimeError "Wrong typename")

/-- The loop `for (i = 1; ...)` of `MultVar::evalRator`. -/
def MultVar_loop (args0 : Value) : Rational_L → List Value → Arith Rational_L
  | mul, [] => pure mul
  | mul, .IntegerV n :: rest => do
    let num ← imul mul.numerator n
    MultVar_loop args0 ⟨mul.denominator, num⟩ rest
  | mul, .RationalV _ d :: rest => do
    let n0 ← firstNumerator args0
    let num1 ← imul mul.numerator n0
    let den1 ← imul mul.denominator d
    let temp_gcd ← std__gcd num1 den1
    let num2 ← idiv num1 temp_gcd
    let den2 ← idiv den1 temp_gcd
    MultVar_loop args0 ⟨den2, num2⟩ rest
  | mul, _ :: rest => MultVar_loop args0 mul rest

/-- The method `MultVar::evalRator(args)`. -/
def MultVar_evalRator (args : List Value) : Arith Value :=
  match args with
  | [] => Arith.fail (.RuntimeError "No parameter")
  | args0 :: rest => do
    if ← allDigits args then
      let r ← MultVar_loop args0 (loadFirst ⟨1, 0⟩ args0) rest
      distribute r
    else Arith.fail (.RuntimeError "Wrong typename")

/-- The loop `for (i = 1; ...)` of `DivVar::evalRator`. -/
def DivVar_loop (args0 : Value) : Rational_L → List Value → Arith Rational_L
  | div, [] => pure div
  | div, .IntegerV n :: rest => do
    let den ← imul div.denominator n
    DivVar_loop args0 ⟨den, div.numerator⟩ rest
  | div, .RationalV _ d :: rest => do
    let n0 ← firstNumerator args0
    let num1 ← imul div.numerator d
    let den1 ← imul div.denominator n0
    let temp_gcd ← std__gcd num1 den1
    let num2 ← idiv num1 temp_gcd
    let den2 ← idiv den1 temp_gcd
    DivVar_loop args0 ⟨den2, num2⟩ rest
  | div, _ :: rest => DivVar_loop args0 div rest

/-- The method `DivVar::evalRator(args)`. -/
def DivVar_evalRator (args : List Value) : Arith Value :=
  match args with
  | [] => Arith.fail (.RuntimeError "No parameter")
  | args0 :: rest => do
    if ← allDigits args then
      let r ← DivVar_loop args0 (loadFirst ⟨1, 0⟩ args0) rest
      distribute r
    else Arith.fail (.RuntimeError "Wrong typename")

/-- The loop `for (i = 1; ...) if (bad(compareNumericValues(args[i-1], args[i]))) return
BooleanV(false);` of the variadic comparisons; `prev` is `args[i-1]`. -/
def compareVar_loop (bad : Int → Bool) : Value → List Value → Arith Bool
  | _, [] => pure true
  | prev, v :: rest => do
    let c ← compareNumericValues prev v
    if bad c then pure false else compareVar_loop bad v rest

/-- The shared shape of `LessVar`, `LessEqVar`, `EqualVar`, `GreaterEqVar` and
`GreaterVar::evalRator`; `bad` is the test on the three-way comparison that ends the loop
with `#f`. -/
def compareVar_evalRator (bad : Int → Bool) (args : List Value) : Arith Value :=
  match args with
  | [] => Arith.fail (.RuntimeError "No parameter")
  | args0 :: rest => do
    if ← allDigits args then
      let r ← compareVar_loop bad args0 rest
      pure (Value.BooleanV r)
    else Arith.fail (.RuntimeError "Wrong typename")

end Scheme


namespace Scheme

/-! ## Name tables and environments -/

/-- Modelled from the spec: the initial contents of the global map `primitives` (defined in
`Def.cpp`, which is not among the sources). The enumerators are the ones `List::parse` and
`Var::eval` dispatch on; the names are the Scheme names the spec uses for them. -/
def primitives_init : List (String × ExprType) :=
  [("+", .E_PLUS), ("-", .E_MINUS), ("*", .E_MUL), ("/", .E_DIV), ("modulo", .E_MODULO),
   ("expt", .E_EXPT), ("<", .E_LT), ("<=", .E_LE), ("=", .E_EQ), (">=", .E_GE), (">", .E_GT),
   ("and", .E_AND), ("or", .E_OR), ("not", .E_NOT),
   ("cons", .E_CONS), ("car", .E_CAR), ("cdr", .E_CDR), ("list", .E_LIST),
   ("list?", .E_LISTQ), ("set-car!", .E_SETCAR), ("set-cdr!", .E_SETCDR),
   ("eq?", .E_EQQ), ("boolean?", .E_BOOLQ), ("number?", .E_INTQ), ("null?", .E_NULLQ),
   ("pair?", .E_PAIRQ), ("procedure?", .E_PROCQ), ("symbol?", .E_SYMBOLQ),
   ("string?", .E_STRINGQ), ("display", .E_DISPLAY), ("void", .E_VOID), ("exit", .E_EXIT)]

/-- Modelled from the spec: the global map `reserved_words` (defined in `Def.cpp`, which is
not among the sources): the nine special forms the spec lists. The sources only read it. -/
def reserved_words : List (String × ExprType) :=
  [("quote", .E_QUOTE), ("begin", .E_BEGIN), ("if", .E_IF), ("cond", .E_COND),
   ("lambda", .E_LAMBDA), ("define", .E_DEFINE), ("let", .E_LET), ("letrec", .E_LETREC),
   ("set!", .E_SET)]

/-- The memory at process start: nothing allocated, the primitive table as initialised;
`zero` is the enumerator numbered 0. -/
def State.init (zero : ExprType) : State :=
  { cells := [], pairs := [], primitives := primitives_init, zeroType := zero, output := [] }

/-- The read `primitives[x]` of `std::map`: the mapped enumerator; a missing key is first
inserted with the value-initialised enumerator. -/
def primitives_index (x : String) (s : State) : ExprType × State :=
  match s.primitives.lookup x with
  | some t => (t, s)
  | none => (s.zeroType, { s with primitives := s.primitives ++ [(x, s.zeroType)] })

/-- Modelled from the spec: `empty()`, the zero-frame chain (`value.cpp` is not among the
sources). -/
def empty : Assoc := []

/-- Modelled from the spec: `extend(name, value, env)` prepends one new binding with a
fresh value cell and returns the new chain head; the chain it extends is shared, not
changed (`value.cpp` is not among the sources). -/
def extend (x : String) (v : Value) (lst : Assoc) (s : State) : Assoc × State :=
  ((x, s.cells.length) :: lst, { s with cells := s.cells ++ [v] })

/-- Modelled from the spec: `find(name, env)` walks the chain innermost first and returns
the value in the first cell bound to the name, or the null handle as the not-found signal
(`value.cpp` is not among the sources). -/
def find (x : String) (l : Assoc) (s : State) : Value :=
  match l with
  | [] => .nullptr
  | (y, a) :: rest => if x = y then s.cells.getD a .nullptr else find x rest s

/-- Modelled from the spec: `modify(name, value, env)` walks the chain innermost first and
overwrites the first cell bound to the name, in place; a name bound nowhere in the chain
is an internal error, raised as a `RuntimeError` (`value.cpp` is not among the sources). -/
def modify (x : String) (v : Value) (lst : Assoc) (s : State) : Except Error State :=
  match lst with
  | [] => .error (.RuntimeError "modify: unbound name")
  | (y, a) :: rest =>
    if x = y then .ok { s with cells := s.cells.set a v } else modify x v rest s

/-- The constructor call `PairV(car, cdr)`: a fresh pair cell. -/
def allocPair (car cdr : Value) (s : State) : Value × State :=
  (.PairV s.pairs.length, { s with pairs := s.pairs ++ [(car, cdr)] })

/-! ## Primitives that read or change memory (`evaluation.cpp`, lines 599-716, 832-838,
954-964) -/

/-- The tags of `v_type`. -/
inductive ValueType where
  | V_INT | V_RATIONAL | V_BOOL | V_SYM | V_NULL | V_STRING | V_PAIR | V_PROC | V_VOID
  | V_TERMINATE
  deriving DecidableEq

/-- The read `v->v_type`; none for the null handle, where the read is a crash. -/
def Value.v_type : Value → Option ValueType
  | .nullptr => none
  | .IntegerV _ => some .V_INT
  | .RationalV _ _ => some .V_RATIONAL
  | .BooleanV _ => some .V_BOOL
  | .StringV _ => some .V_STRING
  | .SymbolV _ => some .V_SYM
  | .VoidV => some .V_VOID
  | .TerminateV => some .V_TERMINATE
  | .NullV => some .V_NULL
  | .PairV _ => some .V_PAIR
  | .ProcedureV _ _ _ => some .V_PROC

/-- A type predicate such as `BooleanV(rand->v_type == V_BOOL)`. -/
def typeTest (t : ValueType) (rand : Value) : Except Error Value :=
  match rand.v_type with
  | none => .error nullDeref
  | some t1 => .ok (.BooleanV (decide (t1 = t)))

/-- The method `IsList::evalRator(rand)`: `#t` exactly for a pair whose car or whose cdr
is itself a pair. -/
def IsList_evalRator (rand : Value) (s : State) : Except Error Value :=
  match rand with
  | .nullptr => .error nullDeref
  | .PairV c =>
    match s.pairs.get? c with
    | none => .error (.Crash "dangling pair")
    | some (car, cdr) =>
      match car.v_type with
      | none => .error nullDeref
      | some .V_PAIR => .ok (.BooleanV true)
      | some _ =>
        match cdr.v_type with
        | none => .error nullDeref
        | some .V_PAIR => .ok (.BooleanV true)
        | some _ => .ok (.BooleanV false)
  | _ => .ok (.BooleanV false)

/-- The method `Not::evalRator(rand)`. -/
def Not_evalRator (rand : Value) : Except Error Value :=
  match rand with
  | .nullptr => .error nullDeref
  | .BooleanV b => .ok (.BooleanV (!b))
  | _ => .ok (.BooleanV false)

/-- The `evalRator(rand)` of every `Unary` node. -/
def Unary_evalRator (op : UnaryOp) (rand : Value) (s : State) : Except Error Value × State :=
  match op with
  | .IsBoolean => (typeTest .V_BOOL rand, s)
  | .IsFixnum => (typeTest .V_INT rand, s)
  | .IsNull => (typeTest .V_NULL rand, s)
  | .IsPair => (typeTest .V_PAIR rand, s)
  | .IsProcedure => (typeTest .V_PROC rand, s)
  | .IsSymbol => (typeTest .V_SYM rand, s)
  | .IsString => (typeTest .V_STRING rand, s)
  | .Display =>
    match rand with
    | .nullptr => (.error nullDeref, s)
    | _ => (.ok .VoidV, { s with output := s.output ++ [rand] })
  | .Not => (Not_evalRator rand, s)
  | .Car =>
    match rand with
    | .nullptr => (.error nullDeref, s)
    | .PairV c =>
      match s.pairs.get? c with
      | none => (.error (.Crash "dangling pair"), s)
      | some (car, _) => (.ok car, s)
    | _ => (.error (.RuntimeError "Not a pair for Car"), s)
  | .Cdr =>
    match rand with
    | .nullptr => (.error nullDeref, s)
    | .PairV c =>
      match s.pairs.get? c with
      | none => (.error (.Crash "dangling pair"), s)
      | some (_, cdr) => (.ok cdr, s)
    | _ => (.error (.RuntimeError "Not a pair for Cdr"), s)
  | .IsList => (IsList_evalRator rand s, s)

/-- The method `IsEq::evalRator(rand1, rand2)`. Integers, Booleans and Symbols are compared
by content, `Null` and `Void` are equal to themselves; everything else is compared by
handle identity, which the embedding tracks for pairs only: for two strings, two
rationals, two procedures or two terminate values the outcome is left open (`none`). -/
def IsEq_evalRator (rand1 rand2 : Value) : Option (Except Error Value) :=
  match rand1, rand2 with
  | .nullptr, _ => some (.error nullDeref)
  | .IntegerV a, .IntegerV b => some (.ok (.BooleanV (decide (a = b))))
  | .IntegerV _, .nullptr => some (.error nullDeref)
  | .BooleanV a, .BooleanV b => some (.ok (.BooleanV (a == b)))
  | .BooleanV _, .nullptr => some (.error nullDeref)
  | .SymbolV a, .SymbolV b => some (.ok (.BooleanV (decide (a = b))))
  | .SymbolV _, .nullptr => some (.error nullDeref)
  | .NullV, .NullV => some (.ok (.BooleanV true))
  | .NullV, .nullptr => some (.error nullDeref)
  | .VoidV, .VoidV => some (.ok (.BooleanV true))
  | .VoidV, .nullptr => some (.error nullDeref)
  | .PairV a, .PairV b => some (.ok (.BooleanV (decide (a = b))))
  | .StringV _, .StringV _ => none
  | .RationalV _ _, .RationalV _ _ => none
  | .ProcedureV _ _ _, .ProcedureV _ _ _ => none
  | .TerminateV, .TerminateV => none
  | _, _ => some (.ok (.BooleanV false))

end Scheme


namespace Scheme

/-- The `evalRator(rand1, rand2)` of every `Binary` node. -/
def Binary_evalRator (op : BinaryOp) (rand1 rand2 : Value) (s : State) :
    Except Error Value × State :=
  match op with
  | .Plus => ((Plus_evalRator rand1 rand2).val, s)
  | .Minus => ((Minus_evalRator rand1 rand2).val, s)
  | .Mult => ((Mult_evalRator rand1 rand2).val, s)
  | .Div => ((Div_evalRator rand1 rand2).val, s)
  | .Modulo => ((Modulo_evalRator rand1 rand2).val, s)
  | .Expt => ((Expt_evalRator rand1 rand2).val, s)
  | .Less => ((compare_evalRator (fun c => c == -1) rand1 rand2).val, s)
  | .LessEq => ((compare_evalRator (fun c => c != 1) rand1 rand2).val, s)
  | .Equal => ((compare_evalRator (fun c => c == 0) rand1 rand2).val, s)
  | .GreaterEq => ((compare_evalRator (fun c => c != -1) rand1 rand2).val, s)
  | .Greater => ((compare_evalRator (fun c => c == 1) rand1 rand2).val, s)
  | .Cons => ((.ok (allocPair rand1 rand2 s).1), (allocPair rand1 rand2 s).2)
  | .SetCar =>
    match rand1 with
    | .nullptr => (.error nullDeref, s)
    | .PairV c =>
      match s.pairs.get? c with
      | none => (.error (.Crash "dangling pair"), s)
      | some (_, cdr) => (.ok .VoidV, { s with pairs := s.pairs.set c (rand2, cdr) })
    | _ => (.error (.RuntimeError "Not a Pair"), s)
  | .SetCdr =>
    match rand1 with
    | .nullptr => (.error nullDeref, s)
    | .PairV c =>
      match s.pairs.get? c with
      | none => (.error (.Crash "dangling pair"), s)
      | some (car, _) => (.ok .VoidV, { s with pairs := s.pairs.set c (car, rand2) })
    | _ => (.error (.RuntimeError "Not a Pair"), s)
  | .IsEq =>
    match IsEq_evalRator rand1 rand2 with
    | some r => (r, s)
    | none => (.error (.Unmodelled "identity of immutable objects"), s)

/-- The method `ListFunc::evalRator(args)`: the pairs are allocated from the last argument
backwards. -/
def ListFunc_evalRator (args : List Value) (s : State) : Value × State :=
  args.foldr (fun a acc => allocPair a acc.1 acc.2) (.NullV, s)

/-- The `evalRator(args)` of every `Variadic` node. -/
def Variadic_evalRator (op : VariadicOp) (args : List Value) (s : State) :
    Except Error Value × State :=
  match op with
  | .PlusVar => ((PlusVar_evalRator args).val, s)
  | .MinusVar => ((MinusVar_evalRator args).val, s)
  | .MultVar => ((MultVar_evalRator args).val, s)
  | .DivVar => ((DivVar_evalRator args).val, s)
  | .LessVar => ((compareVar_evalRator (fun c => c != -1) args).val, s)
  | .LessEqVar => ((compareVar_evalRator (fun c => c == 1) args).val, s)
  | .EqualVar => ((compareVar_evalRator (fun c => c != 0) args).val, s)
  | .GreaterEqVar => ((compareVar_evalRator (fun c => c == -1) args).val, s)
  | .GreaterVar => ((compareVar_evalRator (fun c => c != 1) args).val, s)
  | .ListFunc => (.ok (ListFunc_evalRator args s).1, (ListFunc_evalRator args s).2)

/-! ## `Quote` (`evaluation.cpp`, lines 727-806) -/

/-- The test used by the loops of `Syntaxtransit`: a symbol of size 1 whose character
is `.`. -/
def isDotMarker : Syntax → Bool
  | .SymbolSyntax s => s.data == ['.']
  | _ => false

/-- The test `dynamic_cast<List *>(s.get())`. -/
def isListSyntax : Syntax → Bool
  | .List _ => true
  | _ => false

mutual
/-- The function `Syntaxtransit(s, e)`: the value a quoted syntax tree stands for. The
environment argument is not used. -/
def Syntaxtransit (s : Syntax) (st : State) : Except Error Value × State :=
  match s with
  | .List stxs => if stxs.isEmpty then (.ok .NullV, st) else transitChain stxs st
  | .StringSyntax str => (.ok (.StringV str), st)
  | .RationalSyntax n d => (.ok (.RationalV n d), st)
  | .Number n => (.ok (.IntegerV n), st)
  | .FalseSyntax => (.ok (.BooleanV false), st)
  | .TrueSyntax => (.ok (.BooleanV true), st)
  | .SymbolSyntax str => (.ok (.SymbolV str), st)

/-- The three downward loops of `Syntaxtransit` on a non-empty list, as one recursion from
the front: the chain for `stxs[i+1..]` is built first, then `stxs[i]` is put in front of
it unless it is the `.` marker. What starts the chain is decided at the last two
elements: a last element that is a list is converted and used as the tail itself;
otherwise `stxs[size-2]` is inspected, which for a one-element list lies outside the
vector; when it is the `.` marker the converted last element is the tail, and otherwise
the tail is the pair of the converted last element and `Null`. -/
def transitChain (stxs : List Syntax) (st : State) : Except Error Value × State :=
  match stxs with
  | [] => (.ok .NullV, st)
  | [x] =>
    match x with
    | .List _ => Syntaxtransit x st
    | _ => (.error (.Crash "vector index out of range"), st)
  | [x, last] =>
    if isListSyntax last then
      match Syntaxtransit last st with
      | (.error e, st1) => (.error e, st1)
      | (.ok temp, st1) =>
        if isDotMarker x then (.ok temp, st1)
        else
          match Syntaxtransit x st1 with
          | (.error e, st2) => (.error e, st2)
          | (.ok v, st2) => (.ok (allocPair v temp st2).1, (allocPair v temp st2).2)
    else if isDotMarker x then Syntaxtransit last st
    else
      match Syntaxtransit last st with
      | (.error e, st1) => (.error e, st1)
      | (.ok vlast, st1) =>
        match Syntaxtransit x (allocPair vlast .NullV st1).2 with
        | (.error e, st2) => (.error e, st2)
        | (.ok v, st2) =>
          (.ok (allocPair v (allocPair vlast .NullV st1).1 st2).1,
            (allocPair v (allocPair vlast .NullV st1).1 st2).2)
  | x :: y :: z :: rest =>
    match transitChain (y :: z :: rest) st with
    | (.error e, st1) => (.error e, st1)
    | (.ok temp, st1) =>
      if isDotMarker x then (.ok temp, st1)
      else
        match Syntaxtransit x st1 with
        | (.error e, st2) => (.error e, st2)
        | (.ok v, st2) => (.ok (allocPair v temp st2).1, (allocPair v temp st2).2)
end

end Scheme


namespace Scheme

/-! ## The analyzer (`parser.cpp`) -/

/-- The test `v.get() == nullptr`. -/
def Value.isNull : Value → Bool
  | .nullptr => true
  | _ => false

/-- The arity specialisation of `List::parse` for a head found in `primitives`: the node
for the enumerator and the analysed operands, or the thrown error. `none` stands for
leaving the `if`/`else if` chain without a `return` or a `throw` (a comparison with fewer
than two operands, or an enumerator the chain does not test), after which `List::parse`
goes on to the reserved-word test. -/
def primitiveNode (op_type : ExprType) (parameters : List Expr) :
    Option (Except Error Expr) :=
  match op_type, parameters with
  | .E_PLUS, [] => some (.ok (.Binary .Plus (.Fixnum 0) (.Fixnum 0)))
  | .E_PLUS, [a] => some (.ok (.Binary .Plus (.Fixnum 0) a))
  | .E_PLUS, [a, b] => some (.ok (.Binary .Plus a b))
  | .E_PLUS, _ => some (.ok (.Variadic .PlusVar parameters))
  | .E_MINUS, [] => some (.error (.RuntimeError "RuntimeError"))
  | .E_MINUS, [a] => some (.ok (.Binary .Mult (.Fixnum (-1)) a))
  | .E_MINUS, [a, b] => some (.ok (.Binary .Minus a b))
  | .E_MINUS, _ => some (.ok (.Variadic .MinusVar parameters))
  | .E_MUL, [] => some (.ok (.Binary .Mult (.Fixnum 1) (.Fixnum 1)))
  | .E_MUL, [a] => some (.ok (.Binary .Mult (.Fixnum 1) a))
  | .E_MUL, [a, b] => some (.ok (.Binary .Mult a b))
  | .E_MUL, _ => some (.ok (.Variadic .MultVar parameters))
  | .E_DIV, [] => some (.error (.RuntimeError "RuntimeError"))
  | .E_DIV, [a] => some (.ok (.Binary .Div (.Fixnum 1) a))
  | .E_DIV, [a, b] => some (.ok (.Binary .Div a b))
  | .E_DIV, _ => some (.ok (.Variadic .DivVar parameters))
  | .E_MODULO, [a, b] => some (.ok (.Binary .Modulo a b))
  | .E_MODULO, _ => some (.error (.RuntimeError "Wrong number of arguments for modulo"))
  | .E_LIST, _ => some (.ok (.Variadic .ListFunc parameters))
  | .E_LT, [] => none
  | .E_LT, [_] => none
  | .E_LT, [a, b] => some (.ok (.Binary .Less a b))
  | .E_LT, _ => some (.ok (.Variadic .LessVar parameters))
  | .E_LE, [] => none
  | .E_LE, [_] => none
  | .E_LE, [a, b] => some (.ok (.Binary .LessEq a b))
  | .E_LE, _ => some (.ok (.Variadic .LessEqVar parameters))
  | .E_EQ, [] => none
  | .E_EQ, [_] => none
  | .E_EQ, [a, b] => some (.ok (.Binary .Equal a b))
  | .E_EQ, _ => some (.ok (.Variadic .EqualVar parameters))
  | .E_GE, [] => none
  | .E_GE, [_] => none
  | .E_GE, [a, b] => some (.ok (.Binary .GreaterEq a b))
  | .E_GE, _ => some (.ok (.Variadic .GreaterEqVar parameters))
  | .E_GT, [] => none
  | .E_GT, [_] => none
  | .E_GT, [a, b] => some (.ok (.Binary .Greater a b))
  | .E_GT, _ => some (.ok (.Variadic .GreaterVar parameters))
  | .E_AND, _ => some (.ok (.AndVar parameters))
  | .E_OR, _ => some (.ok (.OrVar parameters))
  | .E_NOT, [a] => some (.ok (.Unary .Not a))
  | .E_NOT, _ => some (.error (.RuntimeError "Wrong expr numbers in Not"))
  | .E_CONS, [a, b] => some (.ok (.Binary .Cons a b))
  | .E_CONS, _ => some (.error (.RuntimeError "Wrong parameter number"))
  | .E_CAR, [a] => some (.ok (.Unary .Car a))
  | .E_CAR, _ => some (.error (.RuntimeError "Wrong parameter number"))
  | .E_CDR, [a] => some (.ok (.Unary .Cdr a))
  | .E_CDR, _ => some (.error (.RuntimeError "Wrong parameter number"))
  | .E_LISTQ, [a] => some (.ok (.Unary .IsList a))
  | .E_LISTQ, _ => some (.error (.RuntimeError "Wrong parameter number"))
  | .E_SETCAR, [a, b] => some (.ok (.Binary .SetCar a b))
  | .E_SETCAR, _ => some (.error (.RuntimeError "Wrong parameter number"))
  | .E_SETCDR, [a, b] => some (.ok (.Binary .SetCdr a b))
  | .E_SETCDR, _ => some (.error (.RuntimeError "Wrong parameter number"))
  | .E_VOID, [] => some (.ok .MakeVoid)
  | .E_VOID, _ => some (.error (.RuntimeError "No parameters for void"))
  | .E_EXIT, [] => some (.ok .Exit)
  | .E_EXIT, _ => some (.error (.RuntimeError "Wrong parameter number"))
  | .E_EQQ, [a, b] => some (.ok (.Binary .IsEq a b))
  | .E_EQQ, _ => some (.error (.RuntimeError "Wrong parameter number"))
  | .E_BOOLQ, [a] => some (.ok (.Unary .IsBoolean a))
  | .E_BOOLQ, _ => some (.error (.RuntimeError "Wrong parameter number"))
  | .E_INTQ, [a] => some (.ok (.Unary .IsFixnum a))
  | .E_INTQ, _ => some (.error (.RuntimeError "Wrong parameter number"))
  | .E_NULLQ, [a] => some (.ok (.Unary .IsNull a))
  | .E_NULLQ, _ => some (.error (.RuntimeError "Wrong parameter number"))
  | .E_PAIRQ, [a] => some (.ok (.Unary .IsPair a))
  | .E_PAIRQ, _ => some (.error (.RuntimeError "Wrong parameter number"))
  | .E_PROCQ, [a] => some (.ok (.Unary .IsProcedure a))
  | .E_PROCQ, _ => some (.error (.RuntimeError "Wrong parameter number"))
  | .E_SYMBOLQ, [a] => some (.ok (.Unary .IsSymbol a))
  | .E_SYMBOLQ, _ => some (.error (.RuntimeError "Wrong parameter number"))
  | .E_STRINGQ, [a] => some (.ok (.Unary .IsString a))
  | .E_STRINGQ, _ => some (.error (.RuntimeError "Wrong parameter number"))
  | .E_DISPLAY, [a] => some (.ok (.Unary .Display a))
  | .E_DISPLAY, _ => some (.error (.RuntimeError "Wrong parameter number"))
  | _, _ => none

/-- The parameter loops of `lambda` and of the `define` shorthand: every element must be a
symbol; each is recorded and bound to `VoidV()` in the environment being extended. On a
non-symbol the loop throws with what it has extended so far. -/
def bindPlaceholders (message : String) :
    List Syntax → List String → Assoc → State → Except Error (List String) × Assoc × State
  | [], parameters, env, s => (.ok parameters, env, s)
  | .SymbolSyntax x :: rest, parameters, env, s =>
    bindPlaceholders message rest (parameters ++ [x]) (extend x .VoidV env s).1
      (extend x .VoidV env s).2
  | _ :: _, _, env, s => (.error (.RuntimeError message), env, s)

/-- The first loop of `case E_LETREC`: every binding must be a list of size 2 whose first
element is a symbol; each name is bound to `VoidV()` in `temp_env`. -/
def letrecPlaceholders : List Syntax → Assoc → State → Except Error Unit × Assoc × State
  | [], temp_env, s => (.ok (), temp_env, s)
  | .List [.SymbolSyntax name, _] :: rest, temp_env, s =>
    letrecPlaceholders rest (extend name .VoidV temp_env s).1 (extend name .VoidV temp_env s).2
  | .List [_, _] :: _, temp_env, s => (.error (.RuntimeError "Wrong in Letrec"), temp_env, s)
  | _ :: _, temp_env, s => (.error (.RuntimeError "Wrong in Letrec's parameters"), temp_env, s)

/-- A returned value, the caller's environment handle and the memory. -/
def Out.ok {α : Type} (a : α) (env : Assoc) (st : State) : Out α := ⟨.ok a, env, st⟩

/-- A thrown exception or a crash, with the caller's environment handle and the memory as
they are at that moment. -/
def Out.fail {α : Type} (e : Error) (env : Assoc) (st : State) : Out α := ⟨.error e, env, st⟩

/-- The head of the vector `stxs` as `List::parse` classifies it: `none` for the empty
vector, `some none` for a head that is no symbol, `some (some op)` for the symbol `op`. -/
def listHead : List Syntax → Option (Option String)
  | [] => none
  | .SymbolSyntax op :: _ => some (some op)
  | _ :: _ => some none

/-- The `case E_QUOTE` of `List::parse`. -/
def parseQuote (stxs : List Syntax) (env : Assoc) (s : State) : Out Expr :=
  match stxs with
  | [_, a] => Out.ok (.Quote a) env s
  | _ => Out.fail (.RuntimeError "Wrong expr numbers in Quote") env s

mutual
/-- The virtual method `parse(Assoc &env)` of the syntax nodes; for a `List` node this is
`List::parse` with its tiers: the empty list, a head that is no symbol, a lexically bound
head, the primitive table, the reserved words, and the generic application. The
primitive tier either returns, throws, or is left without a result (`primitiveNode`); in
the last case, and when the head is no primitive, the later tiers run with the environment
and memory as the primitive tier left them. The operands of a constructor call such as
`new If(a, b, c)` are analysed left to right (C++ leaves their order open). -/
def parse (stx : Syntax) (env : Assoc) (s : State) : Out Expr :=
  match stx with
  | .Number n => Out.ok (.Fixnum n) env s
  | .RationalSyntax n d => Out.ok (.RationalNum n d) env s
  | .SymbolSyntax x => Out.ok (.Var x) env s
  | .StringSyntax x => Out.ok (.StringExpr x) env s
  | .TrueSyntax => Out.ok .True env s
  | .FalseSyntax => Out.ok .False env s
  | .List stxs =>
    match listHead stxs with
    | none => Out.ok (.Quote (.List [])) env s
    | some none => parseApplication stxs env s
    | some (some op) =>
      if !(find op env s).isNull then
        match parseRest stxs env s with
        | ⟨.error e, env1, s1⟩ => Out.fail e env1 s1
        | ⟨.ok parameters, env1, s1⟩ => Out.ok (.Apply (.Var op) parameters) env1 s1
      else
        match (match s.primitives.lookup op with
            | some op_type =>
              match parseRest stxs env s with
              | ⟨.error e, env1, s1⟩ => (some (Out.fail e env1 s1), env1, s1)
              | ⟨.ok parameters, env1, s1⟩ =>
                match primitiveNode op_type parameters with
                | some (.ok e) => (some (Out.ok e env1 s1), env1, s1)
                | some (.error err) => (some (Out.fail err env1 s1), env1, s1)
                | none => (none, env1, s1)
            | none => ((none : Option (Out Expr)), env, s)) with
        | (some out, _, _) => out
        | (none, env1, s1) =>
          match reserved_words.lookup op with
          | some .E_QUOTE => parseQuote stxs env1 s1
          | some .E_BEGIN =>
            match parseRest stxs env1 s1 with
            | ⟨.error e, env2, s2⟩ => Out.fail e env2 s2
            | ⟨.ok temp, env2, s2⟩ => Out.ok (.Begin temp) env2 s2
          | some .E_IF => parseIf stxs env1 s1
          | some .E_COND => parseCond stxs env1 s1
          | some .E_LAMBDA => parseLambda stxs env1 s1
          | some .E_DEFINE => parseDefine stxs env1 s1
          | some .E_LET => parseLet stxs env1 s1
          | some .E_LETREC => parseLetrec stxs env1 s1
          | some .E_SET => parseSet stxs env1 s1
          | some _ => Out.fail (.RuntimeError ("Unknown reserved word: " ++ op)) env1 s1
          | none =>
            match parseRest stxs env1 s1 with
            | ⟨.error e, env2, s2⟩ => Out.fail e env2 s2
            | ⟨.ok parameters, env2, s2⟩ => Out.ok (.Apply (.Var op) parameters) env2 s2

/-- The loop `for (i = 1; ...) v.push_back(stxs[i]->parse(env))` over the operands. -/
def parseRest (stxs : List Syntax) (env : Assoc) (s : State) : Out (List Expr) :=
  match stxs with
  | [] => Out.ok [] env s
  | _ :: rest => parseSeq rest env s

/-- The branch of `List::parse` for a head that is no symbol: the head and then the
operands are analysed and wrapped in `Apply`. -/
def parseApplication (stxs : List Syntax) (env : Assoc) (s : State) : Out Expr :=
  match stxs with
  | [] => Out.fail (.RuntimeError "Unable to parse") env s
  | head :: rest =>
    match parse head env s with
    | ⟨.error e, env1, s1⟩ => Out.fail e env1 s1
    | ⟨.ok ex, env1, s1⟩ =>
      match parseSeq rest env1 s1 with
      | ⟨.error e, env2, s2⟩ => Out.fail e env2 s2
      | ⟨.ok listed, env2, s2⟩ => Out.ok (.Apply ex listed) env2 s2

/-- The `case E_IF` of `List::parse`; a wrong size throws a string literal, not a
`RuntimeError`. -/
def parseIf (stxs : List Syntax) (env : Assoc) (s : State) : Out Expr :=
  match stxs with
  | [_, a, b, c] =>
    match parse a env s with
    | ⟨.error e, env1, s1⟩ => Out.fail e env1 s1
    | ⟨.ok ea, env1, s1⟩ =>
      match parse b env1 s1 with
      | ⟨.error e, env2, s2⟩ => Out.fail e env2 s2
      | ⟨.ok eb, env2, s2⟩ =>
        match parse c env2 s2 with
        | ⟨.error e, env3, s3⟩ => Out.fail e env3 s3
        | ⟨.ok ec, env3, s3⟩ => Out.ok (.If ea eb ec) env3 s3
  | _ => Out.fail (.OtherException "Wrong in IF") env s

/-- The `case E_COND` of `List::parse`. -/
def parseCond (stxs : List Syntax) (env : Assoc) (s : State) : Out Expr :=
  match stxs with
  | [] => Out.ok (.Cond []) env s
  | _ :: rest =>
    match parseClauses rest env s with
    | ⟨.error e, env1, s1⟩ => Out.fail e env1 s1
    | ⟨.ok temp, env1, s1⟩ => Out.ok (.Cond temp) env1 s1

/-- The `case E_LAMBDA` of `List::parse`: the parameters are bound to placeholders in the
copy `temp_as`, in which the body is analysed; the caller's `env` is not extended. -/
def parseLambda (stxs : List Syntax) (env : Assoc) (s : State) : Out Expr :=
  match stxs with
  | _ :: .List ps :: b :: bs =>
    match bindPlaceholders "Wrong in Lambda" ps [] env s with
    | (.error e, _, s1) => Out.fail e env s1
    | (.ok parameters, temp_as, s1) =>
      match bs with
      | [] =>
        match parse b temp_as s1 with
        | ⟨.error e, _, s2⟩ => Out.fail e env s2
        | ⟨.ok e, _, s2⟩ => Out.ok (.Lambda parameters e) env s2
      | _ :: _ =>
        match parseSeq (b :: bs) temp_as s1 with
        | ⟨.error e, _, s2⟩ => Out.fail e env s2
        | ⟨.ok temp, _, s2⟩ => Out.ok (.Lambda parameters (.Begin temp)) env s2
  | _ => Out.fail (.RuntimeError "Wrong format in Lambada") env s

/-- The `case E_DEFINE` of `List::parse`: the name, and for the function shorthand also
every parameter, is bound to a placeholder in the caller's `env` itself. When `stxs[1]`
is neither a symbol nor a list, control falls through into `case E_LET`, which throws. -/
def parseDefine (stxs : List Syntax) (env : Assoc) (s : State) : Out Expr :=
  match stxs with
  | _ :: .SymbolSyntax name :: b :: bs =>
    match parse b (extend name .VoidV env s).1 (extend name .VoidV env s).2 with
    | ⟨.error e, env1, s1⟩ => Out.fail e env1 s1
    | ⟨.ok ex, env1, s1⟩ =>
      match bs with
      | [] => Out.ok (.Define name ex) env1 s1
      | _ :: _ =>
        Out.fail (.RuntimeError "Couldn't bind several procedures to a VAR identifier")
          env1 s1
  | _ :: .List [] :: _ :: _ => Out.fail (.Crash "vector index out of range") env s
  | _ :: .List (.SymbolSyntax name :: ps) :: b :: bs =>
    match bindPlaceholders "Wrong in Define a Procedure" ps []
        (extend name .VoidV env s).1 (extend name .VoidV env s).2 with
    | (.error e, env1, s1) => Out.fail e env1 s1
    | (.ok parameters, env1, s1) =>
      match bs with
      | [] =>
        match parse b env1 s1 with
        | ⟨.error e, env2, s2⟩ => Out.fail e env2 s2
        | ⟨.ok e, env2, s2⟩ => Out.ok (.Define name (.Lambda parameters e)) env2 s2
      | _ :: _ =>
        match parseSeq (b :: bs) env1 s1 with
        | ⟨.error e, env2, s2⟩ => Out.fail e env2 s2
        | ⟨.ok temp_ls, env2, s2⟩ =>
          Out.ok (.Define name (.Lambda parameters (.Begin temp_ls))) env2 s2
  | _ :: .List (_ :: _) :: _ :: _ =>
    Out.fail (.RuntimeError "Wrong in Define a Procedure") env s
  | _ :: _ :: _ :: _ => Out.fail (.RuntimeError "Wrong in Let") env s
  | _ => Out.fail (.RuntimeError "Wrong format in Define") env s

/-- The `case E_LET` of `List::parse`. -/
def parseLet (stxs : List Syntax) (env : Assoc) (s : State) : Out Expr :=
  match stxs with
  | _ :: .List binds :: b :: bs =>
    match parseLetBinds binds env env s with
    | (.error e, _, env1, s1) => Out.fail e env1 s1
    | (.ok parameters, temp_env, env1, s1) =>
      match bs with
      | [] =>
        match parse b temp_env s1 with
        | ⟨.error e, _, s2⟩ => Out.fail e env1 s2
        | ⟨.ok e, _, s2⟩ => Out.ok (.Let parameters e) env1 s2
      | _ :: _ =>
        match parseSeq (b :: bs) temp_env s1 with
        | ⟨.error e, _, s2⟩ => Out.fail e env1 s2
        | ⟨.ok temp, _, s2⟩ => Out.ok (.Let parameters (.Begin temp)) env1 s2
  | _ :: _ :: _ :: _ => Out.fail (.RuntimeError "Wrong in Let") env s
  | _ => Out.fail (.RuntimeError "Wrong format in Let") env s

/-- The `case E_LETREC` of `List::parse`. -/
def parseLetrec (stxs : List Syntax) (env : Assoc) (s : State) : Out Expr :=
  match stxs with
  | [_, .List binds, b] =>
    match letrecPlaceholders binds env s with
    | (.error e, _, s1) => Out.fail e env s1
    | (.ok _, temp_env, s1) =>
      match parseLetrecBinds binds temp_env s1 with
      | ⟨.error e, _, s2⟩ => Out.fail e env s2
      | ⟨.ok parameters, temp_env2, s2⟩ =>
        match parse b temp_env2 s2 with
        | ⟨.error e, _, s3⟩ => Out.fail e env s3
        | ⟨.ok e, _, s3⟩ => Out.ok (.Letrec parameters e) env s3
  | [_, _, _] => Out.fail (.RuntimeError "Wrong in Letrec") env s
  | _ => Out.fail (.RuntimeError "Wrong format in Letrec") env s

/-- The `case E_SET` of `List::parse`: the target must be bound at analysis time. -/
def parseSet (stxs : List Syntax) (env : Assoc) (s : State) : Out Expr :=
  match stxs with
  | [_, .SymbolSyntax name, e] =>
    if !(find name env s).isNull then
      match parse e env s with
      | ⟨.error err, env1, s1⟩ => Out.fail err env1 s1
      | ⟨.ok ex, env1, s1⟩ => Out.ok (.Set name ex) env1 s1
    else Out.fail (.RuntimeError "Undefined var") env s
  | [_, _, _] => Out.fail (.RuntimeError "Wrong in Set") env s
  | _ => Out.fail (.RuntimeError "Wrong format in Set") env s

/-- The loop `for (i...) v.push_back(stxs[i]->parse(env))`. -/
def parseSeq (stxs : List Syntax) (env : Assoc) (s : State) : Out (List Expr) :=
  match stxs with
  | [] => Out.ok [] env s
  | stx :: rest =>
    match parse stx env s with
    | ⟨.error e, env1, s1⟩ => Out.fail e env1 s1
    | ⟨.ok e, env1, s1⟩ =>
      match parseSeq rest env1 s1 with
      | ⟨.error err, env2, s2⟩ => Out.fail err env2 s2
      | ⟨.ok es, env2, s2⟩ => Out.ok (e :: es) env2 s2

/-- The loop of `case E_COND` over the clauses: each must be a list; its first element is
read without a size test; a first element that is the symbol `else` becomes `True`. -/
def parseClauses (stxs : List Syntax) (env : Assoc) (s : State) : Out (List (List Expr)) :=
  match stxs with
  | [] => Out.ok [] env s
  | .List [] :: _ => Out.fail (.Crash "vector index out of range") env s
  | .List (test :: body) :: rest =>
    match (match test with
        | .SymbolSyntax x => if x = "else" then Out.ok Expr.True env s else parse test env s
        | _ => parse test env s) with
    | ⟨.error e, env1, s1⟩ => Out.fail e env1 s1
    | ⟨.ok t, env1, s1⟩ =>
      match parseSeq body env1 s1 with
      | ⟨.error e, env2, s2⟩ => Out.fail e env2 s2
      | ⟨.ok tep, env2, s2⟩ =>
        match parseClauses rest env2 s2 with
        | ⟨.error e, env3, s3⟩ => Out.fail e env3 s3
        | ⟨.ok temp, env3, s3⟩ => Out.ok ((t :: tep) :: temp) env3 s3
  | _ :: _ => Out.fail (.RuntimeError "Wrong in Cond") env s

/-- The loop of `case E_LET` over the bindings: each must be a list of size 2 whose first
element is a symbol; the right-hand side is analysed in `env`, the environment outside the
`let`, and the name is bound to `VoidV()` in `temp_env`. Returns the bindings and
`temp_env`. -/
def parseLetBinds (stxs : List Syntax) (temp_env : Assoc) (env : Assoc) (s : State) :
    Except Error (List (String × Expr)) × Assoc × Assoc × State :=
  match stxs with
  | [] => (.ok [], temp_env, env, s)
  | .List [.SymbolSyntax x, rhs] :: rest =>
    match parse rhs env s with
    | ⟨.error e, env1, s1⟩ => (.error e, temp_env, env1, s1)
    | ⟨.ok e, env1, s1⟩ =>
      match parseLetBinds rest (extend x .VoidV temp_env s1).1 env1
          (extend x .VoidV temp_env s1).2 with
      | (.error err, temp_env2, env2, s2) => (.error err, temp_env2, env2, s2)
      | (.ok parameters, temp_env2, env2, s2) => (.ok ((x, e) :: parameters), temp_env2, env2, s2)
  | .List [_, _] :: _ => (.error (.RuntimeError "Wrong in Let"), temp_env, env, s)
  | _ :: _ => (.error (.RuntimeError "Wrong in Let's parameters"), temp_env, env, s)

/-- The second loop of `case E_LETREC`: every right-hand side is analysed in `temp_env`
(handed by reference, so the field `env` of the result is `temp_env` afterwards). The
first loop has checked the shape of every binding. -/
def parseLetrecBinds (stxs : List Syntax) (temp_env : Assoc) (s : State) :
    Out (List (String × Expr)) :=
  match stxs with
  | [] => Out.ok [] temp_env s
  | .List [.SymbolSyntax name, rhs] :: rest =>
    match parse rhs temp_env s with
    | ⟨.error e, temp_env1, s1⟩ => Out.fail e temp_env1 s1
    | ⟨.ok e, temp_env1, s1⟩ =>
      match parseLetrecBinds rest temp_env1 s1 with
      | ⟨.error err, temp_env2, s2⟩ => Out.fail err temp_env2 s2
      | ⟨.ok parameters, temp_env2, s2⟩ => Out.ok ((name, e) :: parameters) temp_env2 s2
  | _ :: _ => Out.fail (.Crash "null SymbolSyntax dereferenced") temp_env s
end

end Scheme


namespace Scheme

/-! ## The evaluator (`evaluation.cpp`) -/

/-- The loop of `try_parse_as_number`; the test is
`i == 0 && st[i] == '+' || st[i] == '-'`, in which `&&` binds tighter than `||`. -/
def try_parse_loop : Nat → List Char → Bool
  | _, [] => true
  | i, c :: cs =>
    if (i == 0 && c == '+') || c == '-' then try_parse_loop (i + 1) cs
    else if c.isDigit then try_parse_loop (i + 1) cs
    else false

/-- The function `try_parse_as_number(st)`. -/
def try_parse_as_number (st : String) : Bool :=
  if (st.data.head? == some '+' || st.data.head? == some '-') && st.data.length == 1 then false
  else try_parse_loop 0 st.data

/-- The loop `for (...) if (isdigit(x[i])) n = n * 10 + x[i] - '0';` of `Var::eval`. -/
def Var_digits : Int → List Char → Arith Int
  | n, [] => pure n
  | n, c :: cs =>
    if c.isDigit then do
      let a ← imul n 10
      let b ← iadd a (Int.ofNat c.toNat)
      let d ← isub b 48
      Var_digits d cs
    else Var_digits n cs

/-- The block of `Var::eval` that turns a token recognised as a number into an `Integer`. -/
def Var_number (x : String) : Arith Value :=
  match x.data with
  | '-' :: cs => do
    let n ← Var_digits 0 cs
    let m ← ineg n
    pure (Value.IntegerV m)
  | '+' :: cs => do
    let n ← Var_digits 0 cs
    pure (Value.IntegerV n)
  | cs => do
    let n ← Var_digits 0 cs
    pure (Value.IntegerV n)

/-- The static table `primitive_map` of `Var::eval`: body and parameter list of the
procedure synthesised for a primitive. -/
def primitive_map : ExprType → Option (Expr × List String)
  | .E_VOID => some (.MakeVoid, [])
  | .E_EXIT => some (.Exit, [])
  | .E_BOOLQ => some (.Unary .IsBoolean (.Var "parm"), ["parm"])
  | .E_INTQ => some (.Unary .IsFixnum (.Var "parm"), ["parm"])
  | .E_NULLQ => some (.Unary .IsNull (.Var "parm"), ["parm"])
  | .E_PAIRQ => some (.Unary .IsPair (.Var "parm"), ["parm"])
  | .E_PROCQ => some (.Unary .IsProcedure (.Var "parm"), ["parm"])
  | .E_SYMBOLQ => some (.Unary .IsSymbol (.Var "parm"), ["parm"])
  | .E_STRINGQ => some (.Unary .IsString (.Var "parm"), ["parm"])
  | .E_DISPLAY => some (.Unary .Display (.Var "parm"), ["parm"])
  | .E_PLUS => some (.Variadic .PlusVar [], [])
  | .E_MINUS => some (.Variadic .MinusVar [], [])
  | .E_MUL => some (.Variadic .MultVar [], [])
  | .E_DIV => some (.Variadic .DivVar [], [])
  | .E_MODULO => some (.Binary .Modulo (.Var "parm1") (.Var "parm2"), ["parm1", "parm2"])
  | .E_EXPT => some (.Binary .Expt (.Var "parm1") (.Var "parm2"), ["parm1", "parm2"])
  | .E_EQQ => some (.Variadic .EqualVar [], [])
  | _ => none

/-- The static table `reserved_map` of `Var::eval`. -/
def reserved_map : ExprType → Option (Expr × List String)
  | .E_BEGIN => some (.Begin [], [])
  | .E_QUOTE => some (.Quote (.List []), [])
  | .E_IF => some (.If (.Var "parm1") (.Var "parm2") (.Var "parm3"), ["parm1", "parm2", "parm3"])
  | .E_COND => some (.Cond [], [])
  | .E_LAMBDA => some (.Lambda [] (.Var "parm"), ["", "parm"])
  | .E_DEFINE => some (.Define "" (.Var "parm"), ["", "parm"])
  | .E_LET => some (.Let [] (.Var "parm"), ["", "parm"])
  | .E_LETREC => some (.Letrec [] (.Var "parm"), ["", "parm"])
  | .E_SET => some (.Set "" (.Var "parm"), ["", "parm"])
  | _ => none

/-- The part of `Var::eval` after the lookup missed (`matched_value` is null): the
primitive table, then the reserved-word table, whose lookup key is `primitives[x]`; when
neither yields a procedure the null `matched_value` is returned. -/
def Var_unbound (x : String) (e : Assoc) (s : State) : Value × State :=
  match (match s.primitives.lookup x with
      | some t => primitive_map t
      | none => none) with
  | some (body, parameters) => (.ProcedureV parameters body e, s)
  | none =>
    match reserved_words.lookup x with
    | some _ =>
      match reserved_map (primitives_index x s).1 with
      | some (body, parameters) => (.ProcedureV parameters body e, (primitives_index x s).2)
      | none => (.nullptr, (primitives_index x s).2)
    | none => (.nullptr, s)

/-- The method `Var::eval(e)`. -/
def Var_eval (x : String) (e : Assoc) (s : State) : Except Error Value × State :=
  match x.data with
  | [] => (.error (.RuntimeError "Invalid variable name"), s)
  | c :: _ =>
    if c == '.' || c == '@' then (.error (.RuntimeError "Invalid variable name"), s)
    else if c.isDigit then (.error (.RuntimeError "Invalid variable name"), s)
    else if try_parse_as_number x then ((Var_number x).val, s)
    else if x.data.contains '#' || x.data.contains (Char.ofNat 39)
        || x.data.contains (Char.ofNat 34) || x.data.contains (Char.ofNat 96) then
      (.error (.RuntimeError "Invalid variable name"), s)
    else if (find x e s).isNull then (.ok (Var_unbound x e s).1, (Var_unbound x e s).2)
    else (.ok (find x e s), s)

/-- The loop `for (Expr i : es) v.push_back(i->eval(e))`: the sub-expressions are evaluated
in order with the same `Assoc &e`. -/
def evalSeq (ev : Expr → Assoc → State → Out Value) :
    List Expr → Assoc → State → Out (List Value)
  | [], env, s => Out.ok [] env s
  | e :: es, env, s =>
    match ev e env s with
    | ⟨.error err, env1, s1⟩ => Out.fail err env1 s1
    | ⟨.ok v, env1, s1⟩ =>
      match evalSeq ev es env1 s1 with
      | ⟨.error err, env2, s2⟩ => Out.fail err env2 s2
      | ⟨.ok vs, env2, s2⟩ => Out.ok (v :: vs) env2 s2

/-- The loop of `AndVar::eval`; `temp` is the value of the previous operand. -/
def evalAnd (ev : Expr → Assoc → State → Out Value) :
    Value → List Expr → Assoc → State → Out Value
  | temp, [], env, s => Out.ok temp env s
  | _, ex :: rest, env, s =>
    match ev ex env s with
    | ⟨.error err, env1, s1⟩ => Out.fail err env1 s1
    | ⟨.ok .nullptr, env1, s1⟩ => Out.fail nullDeref env1 s1
    | ⟨.ok (.BooleanV false), env1, s1⟩ => Out.ok (.BooleanV false) env1 s1
    | ⟨.ok v, env1, s1⟩ => evalAnd ev v rest env1 s1

/-- The loop of `OrVar::eval`; `temp` is the value of the previous operand. -/
def evalOr (ev : Expr → Assoc → State → Out Value) :
    Value → List Expr → Assoc → State → Out Value
  | temp, [], env, s => Out.ok temp env s
  | _, ex :: rest, env, s =>
    match ev ex env s with
    | ⟨.error err, env1, s1⟩ => Out.fail err env1 s1
    | ⟨.ok .nullptr, env1, s1⟩ => Out.fail nullDeref env1 s1
    | ⟨.ok (.BooleanV false), env1, s1⟩ => evalOr ev (.BooleanV false) rest env1 s1
    | ⟨.ok (.BooleanV true), env1, s1⟩ => Out.ok (.BooleanV true) env1 s1
    | ⟨.ok v, env1, s1⟩ => Out.ok v env1 s1

/-- The loop `for (j = 1; j < size - 1; j++) clauses[i][0]->eval(env);` of `Cond::eval`:
`n` further evaluations of the test, the values dropped. -/
def evalRepeat (ev : Expr → Assoc → State → Out Value) (test : Expr) :
    Nat → Assoc → State → Out Unit
  | 0, env, s => Out.ok () env s
  | n + 1, env, s =>
    match ev test env s with
    | ⟨.error err, env1, s1⟩ => Out.fail err env1 s1
    | ⟨.ok _, env1, s1⟩ => evalRepeat ev test n env1 s1

/-- The condition of `Cond::eval` on the test of one clause,
`t->eval(env)->v_type != V_BOOL || t->eval(env)->v_type == V_BOOL &&
dynamic_cast<Boolean *>(t->eval(env).get())->b == true`, which evaluates the test up to
three times. -/
def evalCondTest (ev : Expr → Assoc → State → Out Value) (test : Expr) (env : Assoc)
    (s : State) : Out Bool :=
  match ev test env s with
  | ⟨.error err, env1, s1⟩ => Out.fail err env1 s1
  | ⟨.ok .nullptr, env1, s1⟩ => Out.fail nullDeref env1 s1
  | ⟨.ok (.BooleanV _), env1, s1⟩ =>
    match ev test env1 s1 with
    | ⟨.error err, env2, s2⟩ => Out.fail err env2 s2
    | ⟨.ok .nullptr, env2, s2⟩ => Out.fail nullDeref env2 s2
    | ⟨.ok (.BooleanV _), env2, s2⟩ =>
      match ev test env2 s2 with
      | ⟨.error err, env3, s3⟩ => Out.fail err env3 s3
      | ⟨.ok (.BooleanV b), env3, s3⟩ => Out.ok b env3 s3
      | ⟨.ok _, env3, s3⟩ => Out.fail nullDeref env3 s3
    | ⟨.ok _, env2, s2⟩ => Out.ok false env2 s2
  | ⟨.ok _, env1, s1⟩ => Out.ok true env1 s1

/-- The loop of `Cond::eval` over the clauses. -/
def evalClauses (ev : Expr → Assoc → State → Out Value) :
    List (List Expr) → Assoc → State → Out Value
  | [], env, s => Out.fail (.RuntimeError "Wrong in Cond") env s
  | [] :: _, env, s => Out.fail (.RuntimeError "No predict?") env s
  | (test :: body) :: rest, env, s =>
    match evalCondTest ev test env s with
    | ⟨.error err, env1, s1⟩ => Out.fail err env1 s1
    | ⟨.ok false, env1, s1⟩ => evalClauses ev rest env1 s1
    | ⟨.ok true, env1, s1⟩ =>
      match evalRepeat ev test (body.length - 1) env1 s1 with
      | ⟨.error err, env2, s2⟩ => Out.fail err env2 s2
      | ⟨.ok _, env2, s2⟩ => ev ((test :: body).getLast (List.cons_ne_nil _ _)) env2 s2

/-- The loop of `Apply::eval` that binds the parameters: one `extend` per parameter, in
order, on top of the closure's environment. -/
def bindArgs : List String → List Value → Assoc → State → Assoc × State
  | p :: ps, a :: as, param_env, s =>
    bindArgs ps as (extend p a param_env s).1 (extend p a param_env s).2
  | _, _, param_env, s => (param_env, s)

/-- The branch `args.size() != clos_ptr->parameters.size()` of `Apply::eval`: the body of
the procedure is tested with `dynamic_cast` for `Variadic`, `Binary` and `Unary`, and its
`evalRator` is called on the argument values. -/
def applyMismatch (body : Expr) (args : List Value) (s : State) : Except Error Value × State :=
  match body, args with
  | .Variadic op _, _ => Variadic_evalRator op args s
  | .Binary op _ _, [a, b] => Binary_evalRator op a b s
  | .Unary op _, [a] => Unary_evalRator op a s
  | _, _ => (.error (.RuntimeError "Wrong number of arguments"), s)

/-- The first loop of `Letrec::eval`: every name bound to `NullV()`. -/
def letrecExtend : List (String × Expr) → Assoc → State → Assoc × State
  | [], e, s => (e, s)
  | (x, _) :: rest, e, s => letrecExtend rest (extend x .NullV e s).1 (extend x .NullV e s).2

/-- The second loop of `Letrec::eval`: each right-hand side is evaluated in `e` and
written into the cell of its name with `modify`. -/
def letrecFill (ev : Expr → Assoc → State → Out Value) :
    List (String × Expr) → Assoc → State → Out Unit
  | [], e, s => Out.ok () e s
  | (x, rhs) :: rest, e, s =>
    match ev rhs e s with
    | ⟨.error err, e1, s1⟩ => Out.fail err e1 s1
    | ⟨.ok v, e1, s1⟩ =>
      match modify x v e1 s1 with
      | .error err => Out.fail err e1 s1
      | .ok s2 => letrecFill ev rest e1 s2

/-- The loop of `Let::eval`: each right-hand side is evaluated in `env`, the environment
outside the `let`, and bound in `param_env`. Returns `param_env`; the field `env` of the
result is the caller's handle. -/
def letBind (ev : Expr → Assoc → State → Out Value) :
    List (String × Expr) → Assoc → Assoc → State → Out Assoc
  | [], param_env, env, s => Out.ok param_env env s
  | (x, rhs) :: rest, param_env, env, s =>
    match ev rhs env s with
    | ⟨.error err, env1, s1⟩ => Out.fail err env1 s1
    | ⟨.ok v, env1, s1⟩ =>
      letBind ev rest (extend x v param_env s1).1 env1 (extend x v param_env s1).2

/-- The virtual method `eval(Assoc &env)` of the expression nodes. `fuel` bounds the depth
of nested `eval` calls. The two operands of a `Binary` node are evaluated left to right
(C++ leaves their order open). -/
def eval : Nat → Expr → Assoc → State → Out Value
  | 0, _, env, s => Out.fail .OutOfFuel env s
  | fuel + 1, expr, env, s =>
    match expr with
    | .Fixnum n => Out.ok (.IntegerV n) env s
    | .RationalNum n d => Out.ok (.RationalV n d) env s
    | .StringExpr str => Out.ok (.StringV str) env s
    | .True => Out.ok (.BooleanV true) env s
    | .False => Out.ok (.BooleanV false) env s
    | .MakeVoid => Out.ok .VoidV env s
    | .Exit => Out.ok .TerminateV env s
    | .Var x => ⟨(Var_eval x env s).1, env, (Var_eval x env s).2⟩
    | .Unary op rand =>
      match eval fuel rand env s with
      | ⟨.error err, env1, s1⟩ => Out.fail err env1 s1
      | ⟨.ok v, env1, s1⟩ => ⟨(Unary_evalRator op v s1).1, env1, (Unary_evalRator op v s1).2⟩
    | .Binary op rand1 rand2 =>
      match eval fuel rand1 env s with
      | ⟨.error err, env1, s1⟩ => Out.fail err env1 s1
      | ⟨.ok v1, env1, s1⟩ =>
        match eval fuel rand2 env1 s1 with
        | ⟨.error err, env2, s2⟩ => Out.fail err env2 s2
        | ⟨.ok v2, env2, s2⟩ =>
          ⟨(Binary_evalRator op v1 v2 s2).1, env2, (Binary_evalRator op v1 v2 s2).2⟩
    | .Variadic op rands =>
      match evalSeq (eval fuel) rands env s with
      | ⟨.error err, env1, s1⟩ => Out.fail err env1 s1
      | ⟨.ok temp, env1, s1⟩ =>
        ⟨(Variadic_evalRator op temp s1).1, env1, (Variadic_evalRator op temp s1).2⟩
    | .AndVar rands => evalAnd (eval fuel) (.BooleanV true) rands env s
    | .OrVar rands => evalOr (eval fuel) (.BooleanV false) rands env s
    | .Begin es =>
      match evalSeq (eval fuel) es env s with
      | ⟨.error err, env1, s1⟩ => Out.fail err env1 s1
      | ⟨.ok vs, env1, s1⟩ => Out.ok (vs.getLastD .nullptr) env1 s1
    | .Quote stx => ⟨(Syntaxtransit stx s).1, env, (Syntaxtransit stx s).2⟩
    | .If cond conseq alter =>
      match eval fuel cond env s with
      | ⟨.error err, env1, s1⟩ => Out.fail err env1 s1
      | ⟨.ok .nullptr, env1, s1⟩ => Out.fail nullDeref env1 s1
      | ⟨.ok (.BooleanV _), env1, s1⟩ =>
        match eval fuel cond env1 s1 with
        | ⟨.error err, env2, s2⟩ => Out.fail err env2 s2
        | ⟨.ok (.BooleanV true), env2, s2⟩ => eval fuel conseq env2 s2
        | ⟨.ok (.BooleanV false), env2, s2⟩ => eval fuel alter env2 s2
        | ⟨.ok _, env2, s2⟩ => Out.fail nullDeref env2 s2
      | ⟨.ok _, env1, s1⟩ => eval fuel conseq env1 s1
    | .Cond clauses => evalClauses (eval fuel) clauses env s
    | .Lambda x e => Out.ok (.ProcedureV x e env) env s
    | .Apply rator rand =>
      match eval fuel rator env s with
      | ⟨.error err, env1, s1⟩ => Out.fail err env1 s1
      | ⟨.ok (.ProcedureV parameters body clos_env), env1, s1⟩ =>
        match evalSeq (eval fuel) rand env1 s1 with
        | ⟨.error err, env2, s2⟩ => Out.fail err env2 s2
        | ⟨.ok args, env2, s2⟩ =>
          if args.length ≠ parameters.length then
            ⟨(applyMismatch body args s2).1, env2, (applyMismatch body args s2).2⟩
          else
            ⟨(eval fuel body (bindArgs parameters args clos_env s2).1
                (bindArgs parameters args clos_env s2).2).res, env2,
              (eval fuel body (bindArgs parameters args clos_env s2).1
                (bindArgs parameters args clos_env s2).2).st⟩
      | ⟨.ok _, env1, s1⟩ => Out.fail (.RuntimeError "Attempt to apply a non-procedure") env1 s1
    | .Define var e =>
      match e with
      | .Lambda _ _ =>
        match eval fuel e (extend var .NullV env s).1 (extend var .NullV env s).2 with
        | ⟨.error err, env1, s1⟩ => Out.fail err env1 s1
        | ⟨.ok v, env1, s1⟩ =>
          match modify var v env1 s1 with
          | .error err => Out.fail err env1 s1
          | .ok s2 => Out.ok .VoidV env1 s2
      | _ =>
        match eval fuel e env s with
        | ⟨.error err, env1, s1⟩ => Out.fail err env1 s1
        | ⟨.ok v, env1, s1⟩ => Out.ok .VoidV (extend var v env1 s1).1 (extend var v env1 s1).2
    | .Let bind body =>
      match letBind (eval fuel) bind env env s with
      | ⟨.error err, env1, s1⟩ => Out.fail err env1 s1
      | ⟨.ok param_env, env1, s1⟩ =>
        ⟨(eval fuel body param_env s1).res, env1, (eval fuel body param_env s1).st⟩
    | .Letrec bind body =>
      match letrecFill (eval fuel) bind (letrecExtend bind env s).1 (letrecExtend bind env s).2 with
      | ⟨.error err, _, s1⟩ => Out.fail err env s1
      | ⟨.ok _, e1, s1⟩ => ⟨(eval fuel body e1 s1).res, env, (eval fuel body e1 s1).st⟩
    | .Set var e =>
      match eval fuel e env s with
      | ⟨.error err, env1, s1⟩ => Out.fail err env1 s1
      | ⟨.ok temp, env1, s1⟩ =>
        match modify var temp env1 s1 with
        | .error err => Out.fail err env1 s1
        | .ok s2 => Out.ok .VoidV env1 s2

end Scheme


namespace Scheme

/-! ## The driver loop (`main.cpp`, `REPL`) -/

/-- The variables of `REPL` that live across iterations: the global environment handle (used
both for analysis and for evaluation), the deferred top-level defines, and the memory. -/
structure ReplState where
  global_env : Assoc
  defines : List (String × Expr)
  st : State

/-- What one iteration of the loop does with the form it reads. Whether and how a value is
printed (`show`) is outside the embedding. -/
inductive ReplEvent where
  /-- the form was a `define`: recorded, nothing evaluated, nothing printed -/
  | deferred
  /-- the form was evaluated to this value -/
  | value (v : Value)
  /-- the value was the terminate signal: the loop ends -/
  | terminate
  /-- a `RuntimeError` reached the `catch`: "RuntimeError" is printed, the loop goes on -/
  | runtimeError (message : String)
  /-- something the `catch` does not handle: the process ends (or, for `OutOfFuel`, the
  embedding stopped following it) -/
  | abort (e : Error)

/-- The state at process start. -/
def ReplState.init (zero : ExprType) : ReplState :=
  { global_env := empty, defines := [], st := State.init zero }

/-- The event for an exception that leaves the `try` block. -/
def ReplEvent.ofError : Error → ReplEvent
  | .RuntimeError m => .runtimeError m
  | e => .abort e

/-- What the driver makes of the outcome of `val = expr->eval(global_env)`: an exception
goes to the `catch` or ends the process; the test `val->v_type == V_TERMINATE` reads through
the handle, so a null value is a crash. -/
def replEvent : Except Error Value → ReplEvent
  | .error err => ReplEvent.ofError err
  | .ok .nullptr => .abort nullDeref
  | .ok .TerminateV => .terminate
  | .ok v => .value v

/-- The tail of an iteration: `val = expr->eval(global_env)` and what follows from it. -/
def replEval (fuel : Nat) (expr : Expr) (defines : List (String × Expr)) (env : Assoc)
    (s : State) : ReplEvent × ReplState :=
  (replEvent (eval fuel expr env s).res,
    ⟨(eval fuel expr env s).env, defines, (eval fuel expr env s).st⟩)

/-- One iteration of the `while (1)` loop of `REPL` on the form `stx`. A `define` is
deferred. Any other form first flushes the deferred defines: every name is bound to
`NullV()`, then every right-hand side is evaluated and written with `modify`, and only
after both loops `defines.clear()` runs; then the form itself is evaluated. -/
def replStep (fuel : Nat) (stx : Syntax) (r : ReplState) : ReplEvent × ReplState :=
  match parse stx r.global_env r.st with
  | ⟨.error err, env1, s1⟩ => (ReplEvent.ofError err, ⟨env1, r.defines, s1⟩)
  | ⟨.ok (.Define var e), env1, s1⟩ => (.deferred, ⟨env1, r.defines ++ [(var, e)], s1⟩)
  | ⟨.ok expr, env1, s1⟩ =>
    match r.defines with
    | [] => replEval fuel expr [] env1 s1
    | _ :: _ =>
      match letrecFill (eval fuel) r.defines (letrecExtend r.defines env1 s1).1
          (letrecExtend r.defines env1 s1).2 with
      | ⟨.error err, env2, s2⟩ => (ReplEvent.ofError err, ⟨env2, r.defines, s2⟩)
      | ⟨.ok _, env2, s2⟩ => replEval fuel expr [] env2 s2

/-- The loop on a sequence of forms, until the input ends or the loop is left. -/
def replRun (fuel : Nat) : List Syntax → ReplState → List ReplEvent × ReplState
  | [], r => ([], r)
  | stx :: rest, r =>
    match replStep fuel stx r with
    | (.terminate, r1) => ([.terminate], r1)
    | (.abort e, r1) => ([.abort e], r1)
    | (ev, r1) => (ev :: (replRun fuel rest r1).1, (replRun fuel rest r1).2)

end Scheme


namespace Scheme

/-! ## Vocabulary of the statements -/

/-- Total correctness of a stretch of `int` arithmetic under exactness: when no signed
operation in `x` overflowed, `x` produced a value, and the value satisfies `P`. -/
def Arith.Good {α : Type} (x : Arith α) (P : α → Prop) : Prop :=
  x.exact = true → ∃ a, x.val = .ok a ∧ P a

/-- A numeric operand as the data model admits it: an `Integer`, or a `Rational` whose
denominator is positive. -/
def numericOperand : Value → Prop
  | .IntegerV _ => True
  | .RationalV _ d => 0 < d
  | _ => False

/-- The normal form of an arithmetic result: an `Integer`, or a `Rational` in lowest terms
whose denominator is greater than 1. -/
def normalNumber : Value → Prop
  | .IntegerV _ => True
  | .RationalV n d => 1 < d ∧ Int.gcd n d = 1
  | _ => False

/-- The rational number a numeric value denotes (`Integer n` read as `n/1`). -/
def denote : Value → ℚ
  | .IntegerV n => (n : ℚ)
  | .RationalV n d => (n : ℚ) / (d : ℚ)
  | _ => 0

/-- Whether a value denotes zero as a divisor: `Integer 0`, or a `Rational` with numerator 0. -/
def denotesZero : Value → Prop
  | .IntegerV n => n = 0
  | .RationalV n _ => n = 0
  | _ => False

/-- A name counts as bound for the analyzer and for `Var::eval` when `find` returns a
non-null handle. -/
def bound (x : String) (env : Assoc) (s : State) : Prop := (find x env s).isNull = false

/-- The syntax node of a symbol. -/
def sym (x : String) : Syntax := .SymbolSyntax x

/-- The form `(let ((+ 10)) (+ 1 2))`. -/
def shadowedPlusForm : Syntax :=
  .List [sym "let", .List [.List [sym "+", .Number 10]], .List [sym "+", .Number 1, .Number 2]]

/-- The form `(define (make-adder n) (lambda (x) (+ x n)))`. -/
def makeAdderDefine : Syntax :=
  .List [sym "define", .List [sym "make-adder", sym "n"],
    .List [sym "lambda", .List [sym "x"], .List [sym "+", sym "x", sym "n"]]]

/-- The form `((make-adder a) b)`. -/
def makeAdderCall (a b : Int) : Syntax :=
  .List [.List [sym "make-adder", .Number a], .Number b]

/-- The form `(let ((x v0)) (let ((f (lambda () x))) (begin (set! x v1) (f))))`. -/
def setAfterCaptureForm (v0 v1 : Int) : Syntax :=
  .List [sym "let", .List [.List [sym "x", .Number v0]],
    .List [sym "let", .List [.List [sym "f", .List [sym "lambda", .List [], sym "x"]]],
      .List [sym "begin", .List [sym "set!", sym "x", .Number v1], .List [sym "f"]]]]

/-- The form `(lambda (n) (if (= n 0) base (other (- n 1))))`. -/
def parityLambda (base : Syntax) (other : String) : Syntax :=
  .List [sym "lambda", .List [sym "n"],
    .List [sym "if", .List [sym "=", sym "n", .Number 0], base,
      .List [sym other, .List [sym "-", sym "n", .Number 1]]]]

/-- The form `(letrec ((even? (lambda (n) (if (= n 0) #t (odd? (- n 1)))))
(odd? (lambda (n) (if (= n 0) #f (even? (- n 1)))))) (q n))`, where `q` is `even?` or
`odd?`. -/
def evenOddForm (q : String) (n : Int) : Syntax :=
  .List [sym "letrec",
    .List [.List [sym "even?", parityLambda .TrueSyntax "odd?"],
           .List [sym "odd?", parityLambda .FalseSyntax "even?"]],
    .List [sym q, .Number n]]

/-- The form `((lambda (x) (+ x 1)) 1 2)`. -/
def arityMismatchForm : Syntax :=
  .List [.List [sym "lambda", .List [sym "x"], .List [sym "+", sym "x", .Number 1]],
    .Number 1, .Number 2]

/-- A valid variable name in the sense of the checks at the head of `Var::eval`: not
empty, not starting with `.`, `@` or a digit, not recognised as a number, and free of the
characters `#`, apostrophe, double quote and backquote. -/
def validVariableName (x : String) : Bool :=
  match x.data with
  | [] => false
  | c :: _ =>
    !(c == '.' || c == '@') && !c.isDigit && !try_parse_as_number x &&
      !(x.data.contains '#' || x.data.contains (Char.ofNat 39)
        || x.data.contains (Char.ofNat 34) || x.data.contains (Char.ofNat 96))

/-- The memory of a fresh process in which only environment cells have been allocated. -/
def cellsOnly (zero : ExprType) (cells : List Value) : State :=
  { State.init zero with cells := cells }

/-- The analysed body of `parityLambda`: `(if (= n 0) base (other (- n 1)))`. -/
def parityBody (base : Expr) (other : String) : Expr :=
  .If (.Binary .Equal (.Var "n") (.Fixnum 0)) base
    (.Apply (.Var other) [.Binary .Minus (.Var "n") (.Fixnum 1)])

/-- The environment `Letrec::eval` builds for `evenOddForm` typed at a fresh prompt: the
two names, bound to the cells 4 and 5 (the analysis has used the cells 0 to 3 for its
placeholders). -/
def parityEnv : Assoc := [("odd?", 5), ("even?", 4)]

/-- The closure bound to `even?`. -/
def evenClosure : Value := .ProcedureV ["n"] (parityBody .True "odd?") parityEnv

/-- The closure bound to `odd?`. -/
def oddClosure : Value := .ProcedureV ["n"] (parityBody .False "even?") parityEnv

/-- The memory during the recursion of `even?` and `odd?`: the cells 4 and 5 hold the two
closures. -/
def parityInv (s : State) : Prop :=
  6 ≤ s.cells.length ∧ s.cells.getD 4 .nullptr = evenClosure ∧
    s.cells.getD 5 .nullptr = oddClosure

end Scheme


namespace Scheme

/-! ## Vocabulary for quoted data and for the branching forms -/

/-- The structure of a quoted value: what is reachable from it through car and cdr, with
the pair cells themselves left out. -/
inductive Datum where
  | int (n : Int)
  | rat (numerator denominator : Int)
  | bool (b : Bool)
  | str (s : String)
  | sym (s : String)
  | null
  | pair (car cdr : Datum)
  deriving DecidableEq

/-- Whether the value `v`, in the memory `s`, has the structure `d`: the same atom, or a
pair cell whose car and cdr have the structure of the two parts. Two values are
structurally equal when they have the same structure. -/
def reads (s : State) : Value → Datum → Bool
  | .IntegerV n, .int m => decide (n = m)
  | .RationalV n d, .rat m e => decide (n = m) && decide (d = e)
  | .BooleanV b, .bool c => b == c
  | .StringV x, .str y => decide (x = y)
  | .SymbolV x, .sym y => decide (x = y)
  | .NullV, .null => true
  | .PairV c, .pair a b =>
    match s.pairs.get? c with
    | some (x, y) => reads s x a && reads s y b
    | none => false
  | _, _ => false

/-- The proper list of the given elements: `Pair(d1, Pair(d2, ... Pair(dn, Null)))`. -/
def Datum.list (ds : List Datum) : Datum := ds.foldr Datum.pair Datum.null

/-- The memory `s1` is `s` after some pair cells were allocated and nothing else happened:
the pair cells of `s` are there unchanged, and the environment cells, the primitive table
and the output are the same. -/
def State.grown (s s1 : State) : Prop :=
  (∃ fresh, s1.pairs = s.pairs ++ fresh) ∧ s1.cells = s.cells ∧
    s1.primitives = s.primitives ∧ s1.zeroType = s.zeroType ∧ s1.output = s.output

/-- A conversion step `f` yields the structure `d`: from every memory it returns a value
that has the structure `d` in the memory it leaves, and that memory is the one it started
from with pair cells added. -/
def Yields (f : State → Except Error Value × State) (d : Datum) : Prop :=
  ∀ st : State, ∃ v st1, f st = (.ok v, st1) ∧ reads st1 v d = true ∧ st.grown st1

/-- A conversion step `f` stops with the error `e`, from every memory. -/
def Stops (f : State → Except Error Value × State) (e : Error) : Prop :=
  ∀ st : State, (f st).1 = .error e

/-- The outcome of a conversion step does not depend on the memory it starts from: it
yields one and the same structure from every memory, or it stops with one and the same
error from every memory. -/
def Decided (f : State → Except Error Value × State) : Prop :=
  (∃ d, Yields f d) ∨ (∃ e, Stops f e)

/-- The conversion `Syntaxtransit` of the syntax `stx` yields the structure `d`. -/
def Converts (stx : Syntax) (d : Datum) : Prop := Yields (Syntaxtransit stx) d

/-- One round of the downward loops of `Syntaxtransit` for an element that is not the `.`
marker, `temp = PairV(Syntaxtransit(stxs[i], e), temp)`, after the step `g` that produced
`temp`. -/
def consStep (x : Syntax) (g : State → Except Error Value × State) (st : State) :
    Except Error Value × State :=
  match g st with
  | (.error e, st1) => (.error e, st1)
  | (.ok temp, st1) =>
    match Syntaxtransit x st1 with
    | (.error e, st2) => (.error e, st2)
    | (.ok v, st2) => (.ok (allocPair v temp st2).1, (allocPair v temp st2).2)

/-- The start `temp = PairV(Syntaxtransit(last, e), NullV())` of a chain whose last element
is not a list and does not follow a `.` marker. -/
def nullStep (g : State → Except Error Value × State) (st : State) :
    Except Error Value × State :=
  match g st with
  | (.error e, st1) => (.error e, st1)
  | (.ok vlast, st1) => (.ok (allocPair vlast .NullV st1).1, (allocPair vlast .NullV st1).2)

/-- The lone `.` of a dotted list. -/
def dot : Syntax := .SymbolSyntax "."

/-- The form `(quote (1 (2 3)))`. -/
def quoteNestedForm : Syntax :=
  .List [sym "quote", .List [.Number 1, .List [.Number 2, .Number 3]]]

/-- The form `(let ((x 0)) (cond (#t (set! x 5) x)))`. -/
def condBodyForm : Syntax :=
  .List [sym "let", .List [.List [sym "x", .Number 0]],
    .List [sym "cond", .List [.TrueSyntax, .List [sym "set!", sym "x", .Number 5], sym "x"]]]

/-- The form `(let ((x 0)) (begin (set! x 5) x))`. -/
def beginBodyForm : Syntax :=
  .List [sym "let", .List [.List [sym "x", .Number 0]],
    .List [sym "begin", .List [sym "set!", sym "x", .Number 5], sym "x"]]

/-- Whether an exact integer is an `int` other than `INT_MIN`, so that its negation is an
`int` too. -/
def negFits (x : Int) : Prop := -2147483647 ≤ x ∧ x ≤ 2147483647

/-- A numeric value held in `int` fields, a `Rational` with a positive denominator, whose
negation does not overflow: the `Integer`, or the numerator, is not `INT_MIN`. -/
def negatable : Value → Prop
  | .IntegerV n => negFits n
  | .RationalV n d => negFits n ∧ 0 < d ∧ d ≤ 2147483647
  | _ => False

/-- Exactness of a stretch of `int` arithmetic: no signed operation in `x` overflowed, and
when `x` produced a value, the value satisfies `P`. -/
def Arith.Exact {α : Type} (x : Arith α) (P : α → Prop) : Prop :=
  x.exact = true ∧ ∀ a, x.val = .ok a → P a

/-- The form `(- 1/2 2/3 0)`. -/
def minusVarForm : Syntax :=
  .List [sym "-", .RationalSyntax 1 2, .RationalSyntax 2 3, .Number 0]

/-- The form `(- n)` for an integer literal `n`. -/
def negateForm (n : Int) : Syntax := .List [sym "-", .Number n]

end Scheme


namespace Scheme

/-! ## Vocabulary for the numeric primitives and the binding forms -/

/-- Whether a value is a number: an `Integer` or a `Rational`. -/
def isNumeric : Value → Bool
  | .IntegerV _ => true
  | .RationalV _ _ => true
  | _ => false

/-- The two-operand numeric primitive nodes: `+ - * /`, `modulo`, `expt` and the five
comparisons. -/
def numericBinary : List BinaryOp :=
  [.Plus, .Minus, .Mult, .Div, .Modulo, .Expt, .Less, .LessEq, .Equal, .GreaterEq, .Greater]

/-- The variable-arity numeric primitive nodes: `+ - * /` and the five comparisons. -/
def numericVariadic : List VariadicOp :=
  [.PlusVar, .MinusVar, .MultVar, .DivVar, .LessVar, .LessEqVar, .EqualVar, .GreaterEqVar,
    .GreaterVar]

/-- The form `(/ 0 5 0)`. -/
def divVarZeroForm : Syntax := .List [sym "/", .Number 0, .Number 5, .Number 0]

/-- The form `(expt b e)` for integer literals. -/
def exptForm (b e : Int) : Syntax := .List [sym "expt", .Number b, .Number e]

/-- The form `(if operand ...)`. -/
def ifForm (operands : List Syntax) : Syntax := .List (sym "if" :: operands)

/-- The form `(set! x e)`. -/
def setForm (x : String) (e : Syntax) : Syntax := .List [sym "set!", sym x, e]

/-- The form `(define (f car) 1)`. -/
def defineShorthandForm : Syntax :=
  .List [sym "define", .List [sym "f", sym "car"], .Number 1]

/-- The form `(define f (lambda (car) 1))`. -/
def defineLambdaForm : Syntax :=
  .List [sym "define", sym "f", .List [sym "lambda", .List [sym "car"], .Number 1]]

/-- The form `(car (quote (1 2)))`. -/
def carOfListForm : Syntax :=
  .List [sym "car", .List [sym "quote", .List [.Number 1, .Number 2]]]

/-- The memory `s` with the values `c` stored in newly allocated environment cells. -/
def State.withCells (s : State) (c : List Value) : State := { s with cells := s.cells ++ c }

end Scheme


namespace Scheme

/-! ## Vocabulary for the driver loop, the sequencing forms and first-class primitives -/

/-- The form `(define x (car 1))`. -/
def defineCarForm : Syntax := .List [sym "define", sym "x", .List [sym "car", .Number 1]]

/-- The form `(define x n)` for an integer literal. -/
def defineNumberForm (n : Int) : Syntax := .List [sym "define", sym "x", .Number n]

/-- The form `(define x 1 2)`. -/
def defineExtraForm : Syntax := .List [sym "define", sym "x", .Number 1, .Number 2]

/-- The form `(begin set! 1)`, which evaluates the bare name `set!` and returns 1. -/
def bareSetForm : Syntax := .List [sym "begin", sym "set!", .Number 1]

/-- The form `(begin)`. -/
def beginEmptyForm : Syntax := .List [sym "begin"]

/-- The form `(begin (set! x (+ x 1)) result)`: a test with the value of `result` that
counts its evaluations in `x`. -/
def bumpTest (result : Syntax) : Syntax :=
  .List [sym "begin", .List [sym "set!", sym "x", .List [sym "+", sym "x", .Number 1]],
    result]

/-- The form `(cond ((begin (set! x (+ x 1)) result) x))`. -/
def condBumpForm (result : Syntax) : Syntax :=
  .List [sym "cond", .List [bumpTest result, sym "x"]]

/-- The form `(if (begin (set! x (+ x 1)) result) x x)`. -/
def ifBumpForm (result : Syntax) : Syntax :=
  .List [sym "if", bumpTest result, sym "x", sym "x"]

/-- The form `(quote a)` for a symbol. -/
def quoteSymbol (a : String) : Syntax := .List [sym "quote", sym a]

/-- The form `((lambda (f) (f operand ...)) p)`: the value of the name `p` applied to the
operands. -/
def applyNamedForm (p : String) (operands : List Syntax) : Syntax :=
  .List [.List [sym "lambda", .List [sym "f"], .List (sym "f" :: operands)], sym p]

/-- The form `(p operand ...)`. -/
def directForm (p : String) (operands : List Syntax) : Syntax := .List (sym p :: operands)

/-- The form `(quote ())`. -/
def quoteNilForm : Syntax := .List [sym "quote", .List []]

/-- The form `(cons a b)`. -/
def consForm (a b : Syntax) : Syntax := .List [sym "cons", a, b]

/-- The form `(list? e)`. -/
def listqForm (e : Syntax) : Syntax := .List [sym "list?", e]

/-- The form `(quote (a))`. -/
def quoteSingleForm : Syntax := .List [sym "quote", .List [sym "a"]]

/-- The form `(< (/ 1 65536) 65536 65537)`. -/
def lessChainForm : Syntax :=
  .List [sym "<", .List [sym "/", .Number 1, .Number 65536], .Number 65536, .Number 65537]

/-- The index expression `stxs.size() - k` in `size_t` arithmetic (64 bits): below `k` the
difference wraps around. -/
def sizeMinus (size k : Nat) : Nat := (size + 18446744073709551616 - k) % 18446744073709551616

/-- The positions visited by a loop `for (int i = first; i >= 0; i--)`, in order. -/
def downFrom (first : Int) : List Nat := (List.range (first + 1).toNat).reverse

/-- The positions of `temp_sy->stxs` that one call of `Syntaxtransit` on a list reads with
`operator[]`, in order: the test of the last element for being a list; when it is not
one, the test of `stxs[size - 2]` for being the `.` marker, whatever the size; then the
rounds of the downward loop. (The conversion of the last element reads position
`size - 1` once more.) Nothing is listed after a read outside the vector. -/
def transitReads (stxs : List Syntax) : List Nat :=
  if stxs.isEmpty then []
  else
    match stxs.get? (sizeMinus stxs.length 1) with
    | some (.List _) =>
      sizeMinus stxs.length 1 :: downFrom ((stxs.length : Int) - 2)
    | _ =>
      match stxs.get? (sizeMinus stxs.length 2) with
      | none => [sizeMinus stxs.length 1, sizeMinus stxs.length 2]
      | some x =>
        if isDotMarker x then
          [sizeMinus stxs.length 1, sizeMinus stxs.length 2] ++
            downFrom ((stxs.length : Int) - 3)
        else
          [sizeMinus stxs.length 1, sizeMinus stxs.length 2] ++
            downFrom ((stxs.length : Int) - 2)

mutual
/-- Whether no list inside the syntax tree has the symbol `define` as its head. -/
def defineFree : Syntax → Bool
  | .List stxs => !(listHead stxs == some (some "define")) && defineFreeList stxs
  | _ => true

/-- Whether every tree of the list is `defineFree`. -/
def defineFreeList : List Syntax → Bool
  | [] => true
  | stx :: rest => defineFree stx && defineFreeList rest
end

/-- How an analysis step that was handed `env` left the caller's environment handle, `env1`:
it is `env` with zero or more new bindings in front, and `env` itself when `free` holds. -/
def EnvKept (free : Prop) (env env1 : Assoc) : Prop :=
  (∃ ext : Assoc, env1 = ext ++ env) ∧ (free → env1 = env)

/-- The statement about `parse` for every tree below a size bound: it leaves the environment
handle extended, and unchanged when the tree is `defineFree`. -/
def ParseKeeps (N : Nat) : Prop :=
  ∀ x : Syntax, sizeOf x < N → ∀ (env : Assoc) (s : State),
    EnvKept (defineFree x = true) env (parse x env s).env

end Scheme


namespace Scheme

/-! ## Vocabulary for the cells an evaluation can reach -/

/-- Every cell address bound in the environment satisfies `P`. -/
def envWithin (P : Nat → Prop) (env : Assoc) : Prop := ∀ p ∈ env, P p.2

/-- Every cell address that the value carries satisfies `P`: a procedure carries the
addresses of its captured environment, any other value carries none. -/
def valueWithin (P : Nat → Prop) : Value → Prop
  | .ProcedureV _ _ env => envWithin P env
  | _ => True

/-- Every cell address carried by a value stored in the memory, in an environment cell or
in a pair, satisfies `P`. -/
def stateWithin (P : Nat → Prop) (s : State) : Prop :=
  (∀ v ∈ s.cells, valueWithin P v) ∧ ∀ p ∈ s.pairs, valueWithin P p.1 ∧ valueWithin P p.2

/-- Every cell address reachable from the environment or from the memory satisfies `P`. -/
def Stored (P : Nat → Prop) (env : Assoc) (s : State) : Prop :=
  envWithin P env ∧ stateWithin P s

/-- The addresses that satisfy `P` or were allocated while the number of cells grew from `n`
to `m`. -/
def grownBy (P : Nat → Prop) (n m : Nat) (a : Nat) : Prop := P a ∨ (n ≤ a ∧ a < m)

/-- What a step that started from the memory `s`, where every reachable address satisfied
`P`, has left in `env1` and `s1`: cells were only added; every address reachable now
satisfies `P` or is new; and no cell of `s` outside `P` has changed. -/
def FrameTo (P : Nat → Prop) (s : State) (env1 : Assoc) (s1 : State) : Prop :=
  s.cells.length ≤ s1.cells.length ∧
    Stored (grownBy P s.cells.length s1.cells.length) env1 s1 ∧
    ∀ a, a < s.cells.length → ¬ P a → s1.cells.getD a .nullptr = s.cells.getD a .nullptr

/-- The frame property of a step with a result: `FrameTo` for the environment handle and
the memory it leaves, and `ok` for the result when there is one. -/
def Framed {α : Type} (ok : (Nat → Prop) → α → Prop) (P : Nat → Prop) (s : State)
    (o : Out α) : Prop :=
  FrameTo P s o.env o.st ∧
    ∀ a, o.res = .ok a → ok (grownBy P s.cells.length o.st.cells.length) a

/-- Every value of the list is within `P`. -/
def valuesWithin (P : Nat → Prop) (vs : List Value) : Prop := ∀ v ∈ vs, valueWithin P v

/-- What a primitive that allocates no environment cell has left: the cells are the same,
every address carried by a stored value or by the result satisfies `P`. -/
def PrimOk (P : Nat → Prop) (s : State) (r : Except Error Value × State) : Prop :=
  r.2.cells = s.cells ∧ stateWithin P r.2 ∧ ∀ v, r.1 = .ok v → valueWithin P v

/-- A conversion step allocates no environment cell, and every address carried by a value it
stores or returns was carried by a stored value before. -/
def StepOk (g : State → Except Error Value × State) : Prop :=
  ∀ (P : Nat → Prop) (st : State), stateWithin P st → PrimOk P st (g st)

/-- The value of a stretch of arithmetic, when there is one, carries no cell address. -/
def Arith.Plain (x : Arith Value) : Prop :=
  ∀ (P : Nat → Prop) (v : Value), x.val = .ok v → valueWithin P v

end Scheme


namespace Scheme

/-! ## Machine integers -/

theorem fits32_iff (x : Int) : fits32 x = true ↔ -2147483648 ≤ x ∧ x ≤ 2147483647 := by
  simp [fits32]

theorem wrap32_of_fits {x : Int} (h : fits32 x = true) : wrap32 x = x := by
  rw [fits32_iff] at h
  unfold wrap32
  omega

theorem Arith.bind_val {α β : Type} (x : Arith α) (f : α → Arith β) :
    (x >>= f).val = (match x.val with | .ok a => (f a).val | .error e => .error e) := by
  show (Arith.bind x f).val = _
  unfold Arith.bind
  cases x.val <;> rfl

theorem Arith.bind_exact_left {α β : Type} (x : Arith α) (f : α → Arith β)
    (h : (x >>= f).exact = true) : x.exact = true := by
  change (Arith.bind x f).exact = true at h
  unfold Arith.bind at h
  cases hx : x.val <;> simp [hx] at h
  · exact h
  · exact h.1

theorem Arith.bind_exact_right {α β : Type} (x : Arith α) (f : α → Arith β) (a : α)
    (hx : x.val = .ok a) (h : (x >>= f).exact = true) : (f a).exact = true := by
  change (Arith.bind x f).exact = true at h
  unfold Arith.bind at h
  simp [hx] at h
  exact h.2

theorem Arith.Good.bind {α β : Type} {x : Arith α} {f : α → Arith β} {P : α → Prop}
    {Q : β → Prop} (hx : x.Good P) (hf : ∀ a, P a → (f a).Good Q) : (x >>= f).Good Q := by
  intro h
  obtain ⟨a, ha, hP⟩ := hx (Arith.bind_exact_left x f h)
  obtain ⟨b, hb, hQ⟩ := hf a hP (Arith.bind_exact_right x f a ha h)
  exact ⟨b, by rw [Arith.bind_val, ha]; exact hb, hQ⟩

theorem Arith.Good.pure {α : Type} {P : α → Prop} (a : α) (h : P a) :
    (Pure.pure a : Arith α).Good P := by
  intro _
  exact ⟨a, rfl, h⟩

theorem Arith.Good.mono {α : Type} {x : Arith α} {P Q : α → Prop} (hx : x.Good P)
    (h : ∀ a, P a → Q a) : x.Good Q := by
  intro he
  obtain ⟨a, ha, hP⟩ := hx he
  exact ⟨a, ha, h a hP⟩

theorem Good_iop (x : Int) : (iop x).Good (fun r => r = x) := by
  intro h
  exact ⟨wrap32 x, rfl, wrap32_of_fits h⟩

theorem Good_imul (a b : Int) : (imul a b).Good (fun r => r = a * b) := Good_iop _
theorem Good_iadd (a b : Int) : (iadd a b).Good (fun r => r = a + b) := Good_iop _
theorem Good_isub (a b : Int) : (isub a b).Good (fun r => r = a - b) := Good_iop _
theorem Good_ineg (a : Int) : (ineg a).Good (fun r => r = -a) := Good_iop _

theorem Good_idiv (a b : Int) (hb : b ≠ 0) : (idiv a b).Good (fun r => r = Int.tdiv a b) := by
  unfold idiv
  rw [if_neg hb]
  exact Good_iop _

theorem Good_imod (a b : Int) (hb : b ≠ 0) : (imod a b).Good (fun r => r = Int.tmod a b) := by
  unfold imod
  rw [if_neg hb]
  intro _
  exact ⟨_, rfl, rfl⟩

theorem natAbs_tmod (m n : Int) : (Int.tmod m n).natAbs = m.natAbs % n.natAbs := by
  cases m <;> cases n <;> simp [Int.tmod, Int.natAbs_neg] <;> rfl

theorem gcd_tmod (m n : Int) : Int.gcd n (Int.tmod m n) = Int.gcd m n := by
  rw [Int.gcd_eq_natAbs, Int.gcd_eq_natAbs, natAbs_tmod, Nat.gcd_comm m.natAbs,
    Nat.gcd_rec n.natAbs m.natAbs, Nat.gcd_comm]

theorem Good_gcd_loop : ∀ (fuel : Nat) (m n : Int), n.natAbs < fuel →
    (gcd_loop fuel m n).Good (fun g => g.natAbs = Int.gcd m n)
  | 0, _, _, h => absurd h (Nat.not_lt_zero _)
  | fuel + 1, m, n, h => by
    unfold gcd_loop
    by_cases hn : n = 0
    · rw [if_pos hn]
      subst hn
      exact Arith.Good.pure m (by simp)
    · rw [if_neg hn]
      refine (Good_imod m n hn).bind ?_
      intro t ht
      subst ht
      have hlt : (Int.tmod m n).natAbs < fuel := by
        rw [natAbs_tmod]
        have := Nat.mod_lt m.natAbs (Int.natAbs_pos.mpr hn)
        omega
      refine (Good_gcd_loop fuel n (Int.tmod m n) hlt).mono ?_
      intro g hg
      rw [hg, gcd_tmod]

theorem Good_std__gcd (m n : Int) : (std__gcd m n).Good (fun g => g.natAbs = Int.gcd m n) :=
  Good_gcd_loop _ m n (Nat.lt_succ_self _)

/-! ## `distribute` -/

theorem gcd_facts {d0 n0 g : Int} (hd0 : d0 ≠ 0) (hg : g.natAbs = Int.gcd d0 n0) :
    g ≠ 0 ∧ Int.tdiv d0 g * g = d0 ∧ Int.tdiv n0 g * g = n0 ∧
      Int.gcd (Int.tdiv n0 g) (Int.tdiv d0 g) = 1 := by
  have hg0 : g ≠ 0 := by
    intro h
    rw [h] at hg
    have : Int.gcd d0 n0 = 0 := by simpa using hg.symm
    rw [Int.gcd_eq_zero_iff] at this
    exact hd0 this.1
  have hgd : g ∣ d0 := by
    rw [← Int.natAbs_dvd_natAbs, hg]
    exact Int.natCast_dvd_natCast.mp (by simpa using Int.gcd_dvd_left)
  have hgn : g ∣ n0 := by
    rw [← Int.natAbs_dvd_natAbs, hg]
    exact Int.natCast_dvd_natCast.mp (by simpa using Int.gcd_dvd_right)
  have h1 := Int.tdiv_mul_cancel hgd
  have h2 := Int.tdiv_mul_cancel hgn
  refine ⟨hg0, h1, h2, ?_⟩
  have h3 : Int.gcd d0 n0 = Int.gcd (Int.tdiv d0 g) (Int.tdiv n0 g) * g.natAbs := by
    conv_lhs => rw [← h1, ← h2]
    exact Int.gcd_mul_right _ _ _
  rw [← hg] at h3
  have hpos : 0 < g.natAbs := Int.natAbs_pos.mpr hg0
  have h4 : Int.gcd (Int.tdiv d0 g) (Int.tdiv n0 g) = 1 := by
    have : 1 * g.natAbs = Int.gcd (Int.tdiv d0 g) (Int.tdiv n0 g) * g.natAbs := by
      rw [one_mul]; exact h3
    exact (Nat.eq_of_mul_eq_mul_right hpos this).symm
  rw [Int.gcd_comm]
  exact h4

theorem Good_distribute (n0 d0 : Int) (hd0 : d0 ≠ 0) :
    (distribute ⟨d0, n0⟩).Good
      (fun v => normalNumber v ∧ denote v = (n0 : ℚ) / (d0 : ℚ)) := by
  unfold distribute
  refine (Good_std__gcd d0 n0).bind ?_
  intro g hg
  obtain ⟨hg0, h1, h2, hcop⟩ := gcd_facts hd0 hg
  refine (Good_idiv d0 g hg0).bind ?_
  intro d hd
  refine (Good_idiv n0 g hg0).bind ?_
  intro n hn
  subst hd hn
  have hdne : Int.tdiv d0 g ≠ 0 := by
    intro h
    rw [h] at h1
    simp at h1
    exact hd0 h1.symm
  have hq : (n0 : ℚ) / (d0 : ℚ) = ((Int.tdiv n0 g : Int) : ℚ) / ((Int.tdiv d0 g : Int) : ℚ) := by
    have hgq : (g : ℚ) ≠ 0 := by exact_mod_cast hg0
    have hdq : ((Int.tdiv d0 g : Int) : ℚ) ≠ 0 := by exact_mod_cast hdne
    have e1 : (d0 : ℚ) = ((Int.tdiv d0 g : Int) : ℚ) * (g : ℚ) := by exact_mod_cast h1.symm
    have e2 : (n0 : ℚ) = ((Int.tdiv n0 g : Int) : ℚ) * (g : ℚ) := by exact_mod_cast h2.symm
    rw [e1, e2]
    field_simp
    ring
  generalize Int.tdiv d0 g = d at hdne hcop hq
  generalize Int.tdiv n0 g = n at hcop hq
  have key : ∀ (r : Rational_L), 0 < r.denominator → Int.gcd r.numerator r.denominator = 1 →
      (r.numerator : ℚ) / (r.denominator : ℚ) = (n : ℚ) / (d : ℚ) →
      (if r.denominator = 0 then (Arith.fail (.RuntimeError "Unknown Error") : Arith Value)
        else if r.denominator = 1 then pure (Value.IntegerV r.numerator)
        else pure (Value.RationalV r.numerator r.denominator)).Good
        (fun v => normalNumber v ∧ denote v = (n0 : ℚ) / (d0 : ℚ)) := by
    intro r hpos hc hv
    rw [if_neg (by omega)]
    by_cases h1 : r.denominator = 1
    · rw [if_pos h1]
      refine Arith.Good.pure _ ⟨trivial, ?_⟩
      rw [hq, ← hv, h1]
      simp [denote]
    · rw [if_neg h1]
      refine Arith.Good.pure _ ⟨⟨by omega, hc⟩, ?_⟩
      rw [hq, ← hv]
      simp [denote]
  by_cases hneg : d < 0
  · rw [if_pos hneg]
    refine Arith.Good.bind (show Arith.Good _ (fun r => r = Rational_L.mk (-d) (-n)) from ?_) ?_
    · refine (Good_ineg d).bind ?_
      intro d1 hd1
      refine (Good_ineg n).bind ?_
      intro n1 hn1
      subst hd1 hn1
      exact Arith.Good.pure _ rfl
    · intro r hr
      subst hr
      refine key _ (by simp; omega) (by simpa using hcop) ?_
      simp [neg_div_neg_eq]
  · rw [if_neg hneg]
    refine Arith.Good.bind
      (show Arith.Good _ (fun r => r = Rational_L.mk d n) from Arith.Good.pure _ rfl) ?_
    intro r hr
    subst hr
    exact key _ (by simp; omega) hcop rfl

/-! ## The four arithmetic operators -/

theorem Arith.pure_bind {α β : Type} (a : α) (f : α → Arith β) :
    (Pure.pure a >>= f : Arith β) = f a := by
  show Arith.bind (Arith.pure a) f = f a
  unfold Arith.bind Arith.pure
  cases h : f a
  simp [h]

theorem Plus_first_int (n : Int) (b : Value) :
    Plus_evalRator (.IntegerV n) b = Plus_evalRator (.RationalV n 1) b := rfl

theorem Good_Plus_rat_int (n1 d1 n2 : Int) (hd1 : d1 ≠ 0) :
    (Plus_evalRator (.RationalV n1 d1) (.IntegerV n2)).Good
      (fun v => normalNumber v ∧ denote v = (n1 : ℚ) / (d1 : ℚ) + (n2 : ℚ)) := by
  unfold Plus_evalRator
  simp only [IS_DIGIT_both, IS_DIGIT, loadFirst, Arith.pure_bind, if_true]
  refine (Good_imul _ _).bind ?_
  intro p hp
  refine (Good_iadd _ _).bind ?_
  intro num hnum
  subst hp hnum
  refine (Good_distribute _ _ hd1).mono ?_
  rintro v ⟨hv1, hv2⟩
  refine ⟨hv1, ?_⟩
  rw [hv2]
  have : (d1 : ℚ) ≠ 0 := by exact_mod_cast hd1
  push_cast
  field_simp

theorem lcm_facts {d1 d2 g : Int} (hd1 : d1 ≠ 0) (hd2 : d2 ≠ 0)
    (hg : g.natAbs = Int.gcd d2 d1) :
    g ≠ 0 ∧ Int.tdiv (d2 * d1) g ≠ 0 ∧
      Int.tdiv (Int.tdiv (d2 * d1) g) d1 * d1 = Int.tdiv (d2 * d1) g ∧
      ∀ n2 : Int, Int.tdiv (n2 * Int.tdiv (d2 * d1) g) d2 * d2 = n2 * Int.tdiv (d2 * d1) g := by
  obtain ⟨hg0, h1, h2, -⟩ := gcd_facts hd2 hg
  have e : d2 * d1 = (Int.tdiv d2 g * d1) * g := by
    conv_lhs => rw [← h1]
    ring
  have ht : Int.tdiv (d2 * d1) g = Int.tdiv d2 g * d1 := by
    rw [e]
    exact Int.mul_tdiv_cancel _ hg0
  have hk : Int.tdiv d2 g ≠ 0 := by
    intro h
    rw [h] at h1
    simp at h1
    exact hd2 h1.symm
  refine ⟨hg0, ?_, ?_, ?_⟩
  · rw [ht]
    exact mul_ne_zero hk hd1
  · exact Int.tdiv_mul_cancel (by rw [ht]; exact Dvd.intro_left _ rfl)
  · intro n2
    refine Int.tdiv_mul_cancel ?_
    rw [ht]
    refine Dvd.dvd.mul_left ?_ n2
    refine ⟨Int.tdiv d1 g, ?_⟩
    conv_rhs => rw [← h1]
    conv_lhs => rw [← h2]
    ring

theorem lcm_value {n1 d1 n2 d2 t q r : Int} (hd1 : d1 ≠ 0) (hd2 : d2 ≠ 0) (ht : t ≠ 0)
    (hq : q * d1 = t) (hr : r * d2 = n2 * t) :
    ((n1 * q + r : Int) : ℚ) / (t : ℚ) = (n1 : ℚ) / (d1 : ℚ) + (n2 : ℚ) / (d2 : ℚ) ∧
    ((n1 * q - r : Int) : ℚ) / (t : ℚ) = (n1 : ℚ) / (d1 : ℚ) - (n2 : ℚ) / (d2 : ℚ) := by
  have h1 : (d1 : ℚ) ≠ 0 := by exact_mod_cast hd1
  have h2 : (d2 : ℚ) ≠ 0 := by exact_mod_cast hd2
  have h3 : (t : ℚ) ≠ 0 := by exact_mod_cast ht
  have eq : (q : ℚ) = (t : ℚ) / (d1 : ℚ) := by
    rw [eq_div_iff h1]
    exact_mod_cast hq
  have er : (r : ℚ) = (n2 : ℚ) * (t : ℚ) / (d2 : ℚ) := by
    rw [eq_div_iff h2]
    exact_mod_cast hr
  push_cast
  rw [eq, er]
  constructor <;> field_simp <;> ring

theorem Good_Plus_rat_rat (n1 d1 n2 d2 : Int) (hd1 : d1 ≠ 0) (hd2 : d2 ≠ 0) :
    (Plus_evalRator (.RationalV n1 d1) (.RationalV n2 d2)).Good
      (fun v => normalNumber v ∧ denote v = (n1 : ℚ) / (d1 : ℚ) + (n2 : ℚ) / (d2 : ℚ)) := by
  unfold Plus_evalRator
  simp only [IS_DIGIT_both, IS_DIGIT, loadFirst, Arith.pure_bind, if_true]
  refine (Good_std__gcd _ _).bind ?_
  intro g hg
  obtain ⟨hg0, ht0, hq, hr⟩ := lcm_facts hd1 hd2 hg
  refine (Good_imul _ _).bind ?_
  intro p hp
  refine (Good_idiv _ _ hg0).bind ?_
  intro temp htemp
  refine (Good_idiv _ _ hd1).bind ?_
  intro q hq1
  refine (Good_imul _ _).bind ?_
  intro num1 hnum1
  refine (Good_imul _ _).bind ?_
  intro p2 hp2
  refine (Good_idiv _ _ hd2).bind ?_
  intro q2 hq2
  refine (Good_iadd _ _).bind ?_
  intro num2 hnum2
  subst hp htemp hq1 hnum1 hp2 hq2 hnum2
  refine (Good_distribute _ _ ht0).mono ?_
  rintro v ⟨hv1, hv2⟩
  exact ⟨hv1, hv2.trans (lcm_value hd1 hd2 ht0 hq (hr n2)).1⟩

theorem Minus_first_int (n : Int) (b : Value) :
    Minus_evalRator (.IntegerV n) b = Minus_evalRator (.RationalV n 1) b := rfl

theorem Good_Minus_rat_int (n1 d1 n2 : Int) (hd1 : d1 ≠ 0) :
    (Minus_evalRator (.RationalV n1 d1) (.IntegerV n2)).Good
      (fun v => normalNumber v ∧ denote v = (n1 : ℚ) / (d1 : ℚ) - (n2 : ℚ)) := by
  unfold Minus_evalRator
  simp only [IS_DIGIT_both, IS_DIGIT, loadFirst, Arith.pure_bind, if_true]
  refine (Good_imul _ _).bind ?_
  intro p hp
  refine (Good_isub _ _).bind ?_
  intro num hnum
  subst hp hnum
  refine (Good_distribute _ _ hd1).mono ?_
  rintro v ⟨hv1, hv2⟩
  refine ⟨hv1, ?_⟩
  rw [hv2]
  have : (d1 : ℚ) ≠ 0 := by exact_mod_cast hd1
  push_cast
  field_simp
  ring

theorem Good_Minus_rat_rat (n1 d1 n2 d2 : Int) (hd1 : d1 ≠ 0) (hd2 : d2 ≠ 0) :
    (Minus_evalRator (.RationalV n1 d1) (.RationalV n2 d2)).Good
      (fun v => normalNumber v ∧ denote v = (n1 : ℚ) / (d1 : ℚ) - (n2 : ℚ) / (d2 : ℚ)) := by
  unfold Minus_evalRator
  simp only [IS_DIGIT_both, IS_DIGIT, loadFirst, Arith.pure_bind, if_true]
  refine (Good_std__gcd _ _).bind ?_
  intro g hg
  obtain ⟨hg0, ht0, hq, hr⟩ := lcm_facts hd1 hd2 hg
  refine (Good_imul _ _).bind ?_
  intro p hp
  refine (Good_idiv _ _ hg0).bind ?_
  intro temp htemp
  refine (Good_idiv _ _ hd1).bind ?_
  intro q hq1
  refine (Good_imul _ _).bind ?_
  intro num1 hnum1
  refine (Good_imul _ _).bind ?_
  intro p2 hp2
  refine (Good_idiv _ _ hd2).bind ?_
  intro q2 hq2
  refine (Good_isub _ _).bind ?_
  intro num2 hnum2
  subst hp htemp hq1 hnum1 hp2 hq2 hnum2
  refine (Good_distribute _ _ ht0).mono ?_
  rintro v ⟨hv1, hv2⟩
  exact ⟨hv1, hv2.trans (lcm_value hd1 hd2 ht0 hq (hr n2)).2⟩

theorem Mult_first_int (n : Int) (b : Value) :
    Mult_evalRator (.IntegerV n) b = Mult_evalRator (.RationalV n 1) b := rfl

theorem Good_Mult_rat_int (n1 d1 n2 : Int) (hd1 : d1 ≠ 0) :
    (Mult_evalRator (.RationalV n1 d1) (.IntegerV n2)).Good
      (fun v => normalNumber v ∧ denote v = (n1 : ℚ) / (d1 : ℚ) * (n2 : ℚ)) := by
  unfold Mult_evalRator
  simp only [IS_DIGIT_both, IS_DIGIT, loadFirst, Arith.pure_bind, if_true]
  refine (Good_imul _ _).bind ?_
  intro num hnum
  subst hnum
  refine (Good_distribute _ _ hd1).mono ?_
  rintro v ⟨hv1, hv2⟩
  refine ⟨hv1, ?_⟩
  rw [hv2]
  have : (d1 : ℚ) ≠ 0 := by exact_mod_cast hd1
  push_cast
  field_simp

theorem Good_Mult_rat_rat (n1 d1 n2 d2 : Int) (hd1 : d1 ≠ 0) (hd2 : d2 ≠ 0) :
    (Mult_evalRator (.RationalV n1 d1) (.RationalV n2 d2)).Good
      (fun v => normalNumber v ∧ denote v = (n1 : ℚ) / (d1 : ℚ) * ((n2 : ℚ) / (d2 : ℚ))) := by
  unfold Mult_evalRator
  simp only [IS_DIGIT_both, IS_DIGIT, loadFirst, Arith.pure_bind, if_true]
  refine (Good_imul _ _).bind ?_
  intro num hnum
  refine (Good_imul _ _).bind ?_
  intro den hden
  subst hnum hden
  refine (Good_distribute _ _ (mul_ne_zero hd1 hd2)).mono ?_
  rintro v ⟨hv1, hv2⟩
  refine ⟨hv1, ?_⟩
  rw [hv2]
  have : (d1 : ℚ) ≠ 0 := by exact_mod_cast hd1
  have : (d2 : ℚ) ≠ 0 := by exact_mod_cast hd2
  push_cast
  field_simp

theorem Div_first_int (n : Int) (b : Value) :
    Div_evalRator (.IntegerV n) b = Div_evalRator (.RationalV n 1) b := rfl

theorem Good_Div_rat_int (n1 d1 n2 : Int) (hd1 : d1 ≠ 0) (hn2 : n2 ≠ 0) :
    (Div_evalRator (.RationalV n1 d1) (.IntegerV n2)).Good
      (fun v => normalNumber v ∧ denote v = (n1 : ℚ) / (d1 : ℚ) / (n2 : ℚ)) := by
  unfold Div_evalRator
  simp only [IS_DIGIT_both, IS_DIGIT, loadFirst, Arith.pure_bind, if_true, ne_eq, hn2,
    not_false_eq_true]
  refine (Good_imul _ _).bind ?_
  intro den hden
  subst hden
  refine (Good_distribute _ _ (mul_ne_zero hd1 hn2)).mono ?_
  rintro v ⟨hv1, hv2⟩
  refine ⟨hv1, ?_⟩
  rw [hv2]
  have : (d1 : ℚ) ≠ 0 := by exact_mod_cast hd1
  have : (n2 : ℚ) ≠ 0 := by exact_mod_cast hn2
  push_cast
  field_simp

theorem Good_Div_rat_rat (n1 d1 n2 d2 : Int) (hd1 : d1 ≠ 0) (hd2 : d2 ≠ 0) (hn2 : n2 ≠ 0) :
    (Div_evalRator (.RationalV n1 d1) (.RationalV n2 d2)).Good
      (fun v => normalNumber v ∧ denote v = (n1 : ℚ) / (d1 : ℚ) / ((n2 : ℚ) / (d2 : ℚ))) := by
  unfold Div_evalRator
  simp only [IS_DIGIT_both, IS_DIGIT, loadFirst, Arith.pure_bind, if_true, hn2, if_false]
  refine (Good_imul _ _).bind ?_
  intro den hden
  refine (Good_imul _ _).bind ?_
  intro num hnum
  subst hnum hden
  refine (Good_distribute _ _ (mul_ne_zero hd1 hn2)).mono ?_
  rintro v ⟨hv1, hv2⟩
  refine ⟨hv1, ?_⟩
  rw [hv2]
  have : (d1 : ℚ) ≠ 0 := by exact_mod_cast hd1
  have : (d2 : ℚ) ≠ 0 := by exact_mod_cast hd2
  have : (n2 : ℚ) ≠ 0 := by exact_mod_cast hn2
  push_cast
  field_simp

/-! ## Integer operands -/

theorem Arith.ok_bind {α β : Type} (a : α) (f : α → Arith β) :
    ((⟨.ok a, true⟩ : Arith α) >>= f) = f a := Arith.pure_bind a f

theorem iop_of_fits {x : Int} (h : fits32 x = true) : iop x = ⟨.ok x, true⟩ := by
  unfold iop
  rw [wrap32_of_fits h, h]

theorem gcd_loop_zero_right (fuel : Nat) (m : Int) : gcd_loop fuel m 0 = Arith.pure m := by
  cases fuel <;> simp [gcd_loop]

theorem gcd_loop_succ (fuel : Nat) (m n : Int) (hn : n ≠ 0) :
    gcd_loop (fuel + 1) m n = (imod m n >>= fun t => gcd_loop fuel n t) := by
  rw [gcd_loop]
  simp only [hn, if_false]

theorem std__gcd_one_left {m : Int} (h2 : 2 ≤ m.natAbs) (hm : fits32 m = true) :
    std__gcd 1 m = ⟨.ok 1, true⟩ := by
  obtain ⟨k, hk⟩ : ∃ k, m.natAbs = k + 2 := ⟨m.natAbs - 2, by omega⟩
  have hm0 : m ≠ 0 := by
    intro h
    rw [h] at hk
    simp at hk
  have ht : Int.tmod 1 m = 1 := by
    have : (Int.tmod 1 m).natAbs = 1 := by
      rw [natAbs_tmod, hk]
      simp
    have hnn : 0 ≤ Int.tmod 1 m := Int.tmod_nonneg m (by decide)
    omega
  have hd : Int.tdiv 1 m = 0 := by
    have : (Int.tdiv 1 m).natAbs = 0 := by
      rw [Int.natAbs_tdiv, hk]
      show 1 / (k + 2) = 0
      exact Nat.div_eq_of_lt (by omega)
    omega
  have e1 : imod 1 m = ⟨.ok 1, true⟩ := by
    unfold imod
    rw [if_neg hm0, ht, hd]
    rfl
  have e2 : imod m 1 = ⟨.ok 0, true⟩ := by
    unfold imod
    rw [if_neg one_ne_zero, Int.tmod_one, Int.tdiv_one, hm]
  unfold std__gcd
  rw [hk, gcd_loop_succ _ _ _ hm0, e1, Arith.ok_bind, gcd_loop_succ _ _ _ one_ne_zero, e2,
    Arith.ok_bind, gcd_loop_zero_right]
  rfl

theorem distribute_den_one (m : Int) (hm : fits32 m = true) :
    distribute ⟨1, m⟩ = ⟨.ok (.IntegerV m), true⟩ := by
  by_cases h2 : 2 ≤ m.natAbs
  · unfold distribute
    simp only [std__gcd_one_left h2 hm, Arith.ok_bind, idiv, one_ne_zero, if_false,
      Int.tdiv_one, iop_of_fits hm]
    rfl
  · have : m = 0 ∨ m = 1 ∨ m = -1 := by omega
    rcases this with rfl | rfl | rfl <;> rfl

theorem wrap32_add_wrap32 (a b : Int) : wrap32 (a + wrap32 b) = wrap32 (a + b) := by
  unfold wrap32
  omega

theorem iop_bind_val {β : Type} (x : Int) (f : Int → Arith β) :
    (iop x >>= f).val = (f (wrap32 x)).val := rfl

/-- The sum of two `Integer`s is the `Integer` of the exact sum as soon as the exact sum is
an `int`, whatever the operands. -/
theorem Plus_int_int_val (n1 n2 : Int) (h : fits32 (n1 + n2) = true) :
    (Plus_evalRator (.IntegerV n1) (.IntegerV n2)).val = .ok (.IntegerV (n1 + n2)) := by
  unfold Plus_evalRator
  simp only [IS_DIGIT_both, IS_DIGIT, loadFirst, Arith.pure_bind, if_true, imul, iadd, mul_one]
  rw [iop_bind_val, iop_bind_val, wrap32_add_wrap32, wrap32_of_fits h,
    distribute_den_one _ h]

theorem Minus_int_int (n1 n2 : Int) (h2 : fits32 n2 = true) (h : fits32 (n1 - n2) = true) :
    Minus_evalRator (.IntegerV n1) (.IntegerV n2) = ⟨.ok (.IntegerV (n1 - n2)), true⟩ := by
  unfold Minus_evalRator
  simp only [IS_DIGIT_both, IS_DIGIT, loadFirst, Arith.pure_bind, if_true, imul, isub, mul_one,
    iop_of_fits h2, iop_of_fits h, Arith.ok_bind]
  exact distribute_den_one _ h

theorem Equal_int_int (n1 n2 : Int) :
    compare_evalRator (fun c => c == 0) (.IntegerV n1) (.IntegerV n2) =
      ⟨.ok (.BooleanV (decide (n1 = n2))), true⟩ := by
  unfold compare_evalRator
  simp only [IS_DIGIT_both, IS_DIGIT, Arith.pure_bind, if_true, compareNumericValues]
  have : (threeWay n1 n2 == 0) = decide (n1 = n2) := by
    unfold threeWay
    by_cases h1 : n1 < n2
    · simp [h1]; omega
    · by_cases h3 : n1 > n2
      · simp [h1, h3]; omega
      · simp [h1, h3]; omega
  rw [this]
  rfl

end Scheme


namespace Scheme

/-! ## Evaluation steps -/

theorem Var_eval_valid (x : String) (e : Assoc) (s : State) (hx : validVariableName x = true) :
    Var_eval x e s =
      if (find x e s).isNull then (.ok (Var_unbound x e s).1, (Var_unbound x e s).2)
      else (.ok (find x e s), s) := by
  revert hx
  unfold validVariableName Var_eval
  cases x.data with
  | nil => intro hx; simp at hx
  | cons c cs =>
    intro hx
    simp only [Bool.and_eq_true, Bool.not_eq_true'] at hx
    obtain ⟨⟨⟨h1, h3⟩, h4⟩, h5⟩ := hx
    simp only [h1, h3, h4, h5, Bool.false_eq_true, if_false]

theorem Var_eval_bound (x : String) (e : Assoc) (s : State) (hx : validVariableName x = true)
    (hb : bound x e s) : Var_eval x e s = (.ok (find x e s), s) := by
  rw [Var_eval_valid x e s hx]
  unfold bound at hb
  simp [hb]

theorem eval_Var_bound (f : Nat) (x : String) (env : Assoc) (s : State)
    (hx : validVariableName x = true) (hb : bound x env s) :
    eval (f + 1) (.Var x) env s = ⟨.ok (find x env s), env, s⟩ := by
  simp only [eval, Var_eval_bound x env s hx hb]

theorem eval_Binary_of (f : Nat) (op : BinaryOp) (r1 r2 : Expr) (env : Assoc) (s : State)
    (v1 v2 : Value) (env1 env2 : Assoc) (s1 s2 : State)
    (h1 : eval f r1 env s = ⟨.ok v1, env1, s1⟩) (h2 : eval f r2 env1 s1 = ⟨.ok v2, env2, s2⟩) :
    eval (f + 1) (.Binary op r1 r2) env s =
      ⟨(Binary_evalRator op v1 v2 s2).1, env2, (Binary_evalRator op v1 v2 s2).2⟩ := by
  simp only [eval, h1, h2]

theorem eval_Apply_of (f : Nat) (rator : Expr) (rand : List Expr) (env : Assoc) (s : State)
    (parameters : List String) (body : Expr) (clos_env : Assoc) (args : List Value)
    (env1 env2 : Assoc) (s1 s2 : State)
    (h1 : eval f rator env s = ⟨.ok (.ProcedureV parameters body clos_env), env1, s1⟩)
    (h2 : evalSeq (eval f) rand env1 s1 = ⟨.ok args, env2, s2⟩)
    (hlen : args.length = parameters.length) :
    eval (f + 1) (.Apply rator rand) env s =
      ⟨(eval f body (bindArgs parameters args clos_env s2).1
          (bindArgs parameters args clos_env s2).2).res, env2,
        (eval f body (bindArgs parameters args clos_env s2).1
          (bindArgs parameters args clos_env s2).2).st⟩ := by
  simp only [eval, h1, h2, hlen, ne_eq, not_true_eq_false, if_false]

theorem eval_Apply_res (f : Nat) (rator : Expr) (rand : List Expr) (env : Assoc) (s : State)
    (parameters : List String) (body : Expr) (clos_env : Assoc) (args : List Value)
    (env1 env2 : Assoc) (s1 s2 : State)
    (h1 : eval f rator env s = ⟨.ok (.ProcedureV parameters body clos_env), env1, s1⟩)
    (h2 : evalSeq (eval f) rand env1 s1 = ⟨.ok args, env2, s2⟩)
    (hlen : args.length = parameters.length) :
    (eval (f + 1) (.Apply rator rand) env s).res =
      (eval f body (bindArgs parameters args clos_env s2).1
          (bindArgs parameters args clos_env s2).2).res := by
  rw [eval_Apply_of f rator rand env s parameters body clos_env args env1 env2 s1 s2 h1 h2 hlen]

theorem evalSeq_single (ev : Expr → Assoc → State → Out Value) (e : Expr) (env : Assoc)
    (s : State) (v : Value) (env1 : Assoc) (s1 : State) (h : ev e env s = ⟨.ok v, env1, s1⟩) :
    evalSeq ev [e] env s = ⟨.ok [v], env1, s1⟩ := by
  simp only [evalSeq, h, Out.ok]

/-! ## Environments -/

theorem bindArgs_cells : ∀ (ps : List String) (as : List Value) (cenv : Assoc) (s : State),
    ps.length = as.length →
    (bindArgs ps as cenv s).2 = { s with cells := s.cells ++ as } ∧
    (bindArgs ps as cenv s).1 =
      (ps.zip (List.range' s.cells.length ps.length)).reverse ++ cenv
  | [], [], cenv, s, _ => by simp [bindArgs]
  | [], _ :: _, _, _, h => by simp at h
  | _ :: _, [], _, _, h => by simp at h
  | p :: ps, a :: as, cenv, s, h => by
    have hlen : ps.length = as.length := by simpa using h
    obtain ⟨h1, h2⟩ := bindArgs_cells ps as (extend p a cenv s).1 (extend p a cenv s).2 hlen
    unfold bindArgs
    rw [h1, h2]
    constructor
    · simp [extend]
    · simp [extend, List.range'_succ, List.reverse_cons]

theorem find_append_cells (x : String) (v : List Value) :
    ∀ (env : Assoc) (s : State), (∀ p ∈ env, p.2 < s.cells.length) →
      find x env { s with cells := s.cells ++ v } = find x env s
  | [], _, _ => rfl
  | (y, a) :: rest, s, h => by
    unfold find
    have ha : a < s.cells.length := h (y, a) (List.mem_cons_self _ _)
    have hrest := find_append_cells x v rest s (fun p hp => h p (List.mem_cons_of_mem _ hp))
    by_cases hxy : x = y
    · simp only [hxy, if_true]
      rw [List.getD_eq_getElem?_getD, List.getD_eq_getElem?_getD,
        List.getElem?_append_left ha]
    · simp only [hxy, if_false]
      exact hrest

theorem find_zip_not_mem (x : String) (s : State) (cenv : Assoc) :
    ∀ (l : List (String × Nat)), (∀ p ∈ l, p.1 ≠ x) → find x (l ++ cenv) s = find x cenv s
  | [], _ => rfl
  | (y, a) :: rest, h => by
    have hy : x ≠ y := fun e => h (y, a) (List.mem_cons_self _ _) e.symm
    show find x ((y, a) :: (rest ++ cenv)) s = _
    rw [find, if_neg hy]
    exact find_zip_not_mem x s cenv rest (fun p hp => h p (List.mem_cons_of_mem _ hp))

theorem find_bindArgs_other (y : String) (ps : List String) (as : List Value) (cenv : Assoc)
    (s : State) (hlen : ps.length = as.length) (hy : y ∉ ps)
    (hwf : ∀ p ∈ cenv, p.2 < s.cells.length) :
    find y (bindArgs ps as cenv s).1 (bindArgs ps as cenv s).2 = find y cenv s := by
  obtain ⟨h1, h2⟩ := bindArgs_cells ps as cenv s hlen
  rw [h1, h2, find_zip_not_mem, find_append_cells y as cenv s hwf]
  intro p hp hpe
  rw [List.mem_reverse] at hp
  have := List.of_mem_zip hp
  exact hy (hpe ▸ this.1)

/-! ## Driver steps -/

theorem replStep_no_defines (fuel : Nat) (stx : Syntax) (r : ReplState) (expr : Expr)
    (env1 : Assoc) (s1 : State) (hd : r.defines = [])
    (hp : parse stx r.global_env r.st = ⟨.ok expr, env1, s1⟩)
    (hnd : ∀ var e, expr ≠ .Define var e) :
    (replStep fuel stx r).1 = replEvent (eval fuel expr env1 s1).res := by
  unfold replStep
  rw [hp, hd]
  cases expr <;> first | rfl | exact absurd rfl (hnd _ _)

theorem replStep_flush (fuel : Nat) (stx : Syntax) (r : ReplState) (expr : Expr)
    (env1 env2 : Assoc) (s1 s2 : State) (d : String × Expr) (ds : List (String × Expr))
    (hd : r.defines = d :: ds)
    (hp : parse stx r.global_env r.st = ⟨.ok expr, env1, s1⟩)
    (hnd : ∀ var e, expr ≠ .Define var e)
    (hf : letrecFill (eval fuel) r.defines (letrecExtend r.defines env1 s1).1
      (letrecExtend r.defines env1 s1).2 = ⟨.ok (), env2, s2⟩) :
    (replStep fuel stx r).1 = replEvent (eval fuel expr env2 s2).res := by
  unfold replStep
  rw [hp]
  rw [hd] at hf
  rw [hd]
  cases expr <;> first | (simp only [hf]; rfl) | exact absurd rfl (hnd _ _)

end Scheme


namespace Scheme

/-! ## Mutual recursion through `letrec` -/

theorem eval_If_bool (f : Nat) (c t e : Expr) (env : Assoc) (s : State) (b : Bool)
    (hc : eval f c env s = ⟨.ok (.BooleanV b), env, s⟩) :
    eval (f + 1) (.If c t e) env s = if b then eval f t env s else eval f e env s := by
  simp only [eval, hc]
  cases b <;> rfl

theorem eval_Letrec_res (f : Nat) (bind : List (String × Expr)) (body : Expr) (env : Assoc)
    (s : State) (e1 : Assoc) (s1 : State)
    (h : letrecFill (eval f) bind (letrecExtend bind env s).1 (letrecExtend bind env s).2 =
      ⟨.ok (), e1, s1⟩) :
    (eval (f + 1) (.Letrec bind body) env s).res = (eval f body e1 s1).res := by
  simp only [eval, h]

theorem eval_compare_n (f : Nat) (op : BinaryOp) (c : Int) (env : Assoc) (s : State)
    (v : Value) (hn : find "n" env s = v) (hv : v.isNull = false) :
    eval (f + 2) (.Binary op (.Var "n") (.Fixnum c)) env s =
      ⟨(Binary_evalRator op v (.IntegerV c) s).1, env,
        (Binary_evalRator op v (.IntegerV c) s).2⟩ := by
  have h1 : eval (f + 1) (.Var "n") env s = ⟨.ok v, env, s⟩ := by
    rw [eval_Var_bound f "n" env s rfl (by rw [bound, hn]; exact hv), hn]
  exact eval_Binary_of (f + 1) op _ _ env s v (.IntegerV c) env env s s h1 rfl

theorem parity_bool (j : Nat) :
    decide (j % 2 = 1) = decide ((j + 1) % 2 = 0) ∧
      decide (j % 2 = 0) = decide ((j + 1) % 2 = 1) := by
  rcases Nat.mod_two_eq_zero_or_one j with h | h <;>
    · have h' : (j + 1) % 2 = (j % 2 + 1) % 2 := by omega
      rw [h', h]
      simp

theorem parity_find_n (k : Int) (a : Nat) (s : State)
    (hn : s.cells.getD a .nullptr = .IntegerV k) :
    find "n" (("n", a) :: parityEnv) s = .IntegerV k := by
  simp only [find, if_true]
  exact hn

theorem parity_cond (k : Int) (f a : Nat) (s : State)
    (hn : s.cells.getD a .nullptr = .IntegerV k) :
    eval (f + 2) (.Binary .Equal (.Var "n") (.Fixnum 0)) (("n", a) :: parityEnv) s =
      ⟨.ok (.BooleanV (decide (k = 0))), ("n", a) :: parityEnv, s⟩ := by
  rw [eval_compare_n f .Equal 0 _ s _ (parity_find_n k a s hn) rfl]
  show (⟨(compare_evalRator (fun c => c == 0) (.IntegerV k) (.IntegerV 0)).val, _, s⟩ :
    Out Value) = _
  rw [Equal_int_int]

theorem parity_zero (base : Expr) (other : String) (f a : Nat) (s : State)
    (hn : s.cells.getD a .nullptr = .IntegerV 0) :
    eval (f + 3) (parityBody base other) (("n", a) :: parityEnv) s =
      eval (f + 2) base (("n", a) :: parityEnv) s := by
  unfold parityBody
  rw [eval_If_bool (f + 2) _ _ _ _ s _ (parity_cond 0 f a s hn)]
  rfl

theorem parity_succ (base : Expr) (other : String) (obody : Expr)
    (hother : validVariableName other = true)
    (k : Int) (hk1 : 1 ≤ k) (hk : k ≤ 2147483647) (f a : Nat) (s : State)
    (hn : s.cells.getD a .nullptr = .IntegerV k)
    (ho : find other (("n", a) :: parityEnv) s = .ProcedureV ["n"] obody parityEnv) :
    (eval (f + 4) (parityBody base other) (("n", a) :: parityEnv) s).res =
      (eval (f + 2) obody (("n", s.cells.length) :: parityEnv)
        { s with cells := s.cells ++ [.IntegerV (k - 1)] }).res := by
  have hk0 : ¬ (k = 0) := by omega
  unfold parityBody
  rw [eval_If_bool (f + 3) _ _ _ _ s _ (parity_cond k (f + 1) a s hn)]
  simp only [hk0, decide_False, if_false, Bool.false_eq_true]
  have hfits : fits32 (k - 1) = true := by
    rw [fits32_iff]
    omega
  have harg : eval (f + 2) (.Binary .Minus (.Var "n") (.Fixnum 1)) (("n", a) :: parityEnv) s =
      ⟨.ok (.IntegerV (k - 1)), ("n", a) :: parityEnv, s⟩ := by
    rw [eval_compare_n f .Minus 1 _ s _ (parity_find_n k a s hn) rfl]
    show (⟨(Minus_evalRator (.IntegerV k) (.IntegerV 1)).val, _, s⟩ : Out Value) = _
    rw [Minus_int_int k 1 rfl hfits]
  have hrator : eval (f + 2) (.Var other) (("n", a) :: parityEnv) s =
      ⟨.ok (.ProcedureV ["n"] obody parityEnv), ("n", a) :: parityEnv, s⟩ := by
    rw [eval_Var_bound (f + 1) other _ s hother (by rw [bound, ho]; rfl), ho]
  rw [eval_Apply_res (f + 2) _ _ _ s ["n"] obody parityEnv [.IntegerV (k - 1)] _ _ s s hrator
    (evalSeq_single _ _ _ s _ _ s harg) rfl]
  rfl

theorem parityInv_append (s : State) (v : Value) (h : parityInv s) :
    parityInv { s with cells := s.cells ++ [v] } ∧
      ({ s with cells := s.cells ++ [v] } : State).cells.getD s.cells.length .nullptr = v := by
  obtain ⟨h6, h4, h5⟩ := h
  refine ⟨⟨?_, ?_, ?_⟩, ?_⟩
  · simp only [List.length_append, List.length_singleton]
    omega
  · show (s.cells ++ [v]).getD 4 .nullptr = _
    rw [List.getD_append _ _ _ _ (by omega)]
    exact h4
  · show (s.cells ++ [v]).getD 5 .nullptr = _
    rw [List.getD_append _ _ _ _ (by omega)]
    exact h5
  · show (s.cells ++ [v]).getD s.cells.length .nullptr = _
    rw [List.getD_append_right _ _ _ _ (le_refl _)]
    simp

theorem parity_find_closures (a : Nat) (s : State) (h : parityInv s) :
    find "odd?" (("n", a) :: parityEnv) s = oddClosure ∧
      find "even?" (("n", a) :: parityEnv) s = evenClosure := by
  obtain ⟨-, h4, h5⟩ := h
  constructor
  · have e1 : ¬ ("odd?" = "n") := by decide
    simp only [find, parityEnv, e1, if_false, if_true]
    exact h5
  · have e1 : ¬ ("even?" = "n") := by decide
    have e2 : ¬ ("even?" = "odd?") := by decide
    simp only [find, parityEnv, e1, e2, if_false, if_true]
    exact h4

theorem parity_rec : ∀ (k : Nat), (k : Int) ≤ 2147483647 → ∀ (f a : Nat) (s : State),
    parityInv s → s.cells.getD a .nullptr = .IntegerV (k : Int) →
    (eval (f + 2 * k + 3) (parityBody .True "odd?") (("n", a) :: parityEnv) s).res =
        .ok (.BooleanV (decide (k % 2 = 0))) ∧
      (eval (f + 2 * k + 3) (parityBody .False "even?") (("n", a) :: parityEnv) s).res =
        .ok (.BooleanV (decide (k % 2 = 1)))
  | 0, _, f, a, s, _, hcell => by
    constructor
    · rw [parity_zero .True "odd?" f a s hcell]
      rfl
    · rw [parity_zero .False "even?" f a s hcell]
      rfl
  | j + 1, hk, f, a, s, hinv, hcell => by
    have hj : (j : Int) ≤ 2147483647 := by omega
    have hfuel : f + 2 * (j + 1) + 3 = (f + 2 * j + 1) + 4 := by ring
    have hpred : (((j + 1 : Nat) : Int)) - 1 = (j : Int) := by
      push_cast
      ring
    obtain ⟨hodd, heven⟩ := parity_find_closures a s hinv
    obtain ⟨hinv', hcell'⟩ := parityInv_append s (.IntegerV (j : Int)) hinv
    obtain ⟨ihE, ihO⟩ := parity_rec j hj f s.cells.length _ hinv' hcell'
    obtain ⟨hb1, hb2⟩ := parity_bool j
    constructor
    · rw [hfuel, parity_succ .True "odd?" (parityBody .False "even?") rfl _ (by omega) hk
        (f + 2 * j + 1) a s hcell hodd, hpred, ← hb1]
      exact ihO
    · rw [hfuel, parity_succ .False "even?" (parityBody .True "odd?") rfl _ (by omega) hk
        (f + 2 * j + 1) a s hcell heven, hpred, ← hb2]
      exact ihE

theorem evenOdd_run (q : String) (hq : validVariableName q = true) (qclos : Value)
    (qbody : Expr) (hqclos : qclos = .ProcedureV ["n"] qbody parityEnv)
    (n : Int) (g : Nat) (zero : ExprType)
    (hbound : find q parityEnv
      (cellsOnly zero [.VoidV, .VoidV, .VoidV, .VoidV, evenClosure, oddClosure]) = qclos)
    (hparse : parse (evenOddForm q n) [] (State.init zero) =
      ⟨.ok (.Letrec [("even?", .Lambda ["n"] (parityBody .True "odd?")),
          ("odd?", .Lambda ["n"] (parityBody .False "even?"))] (.Apply (.Var q) [.Fixnum n])),
        [], cellsOnly zero [.VoidV, .VoidV, .VoidV, .VoidV]⟩) :
    (replStep (g + 3) (evenOddForm q n) (ReplState.init zero)).1 =
      replEvent (eval (g + 1) qbody (("n", 6) :: parityEnv)
        (cellsOnly zero [.VoidV, .VoidV, .VoidV, .VoidV, evenClosure, oddClosure,
          .IntegerV n])).res := by
  refine (replStep_no_defines (g + 3) _ (ReplState.init zero) _ _ _ rfl hparse
    (by intro _ _ h; cases h)).trans ?_
  refine congrArg replEvent ?_
  refine (eval_Letrec_res (g + 2)
    [("even?", .Lambda ["n"] (parityBody .True "odd?")),
      ("odd?", .Lambda ["n"] (parityBody .False "even?"))] (.Apply (.Var q) [.Fixnum n]) []
    (cellsOnly zero [.VoidV, .VoidV, .VoidV, .VoidV]) parityEnv
    (cellsOnly zero [.VoidV, .VoidV, .VoidV, .VoidV, evenClosure, oddClosure]) rfl).trans ?_
  have hrator : eval (g + 1) (.Var q) parityEnv
      (cellsOnly zero [.VoidV, .VoidV, .VoidV, .VoidV, evenClosure, oddClosure]) =
      ⟨.ok (.ProcedureV ["n"] qbody parityEnv), parityEnv,
        cellsOnly zero [.VoidV, .VoidV, .VoidV, .VoidV, evenClosure, oddClosure]⟩ := by
    rw [eval_Var_bound g q _ _ hq (by rw [bound, hbound, hqclos]; rfl), hbound, hqclos]
  exact eval_Apply_res (g + 1) (.Var q) [.Fixnum n] parityEnv
    (cellsOnly zero [.VoidV, .VoidV, .VoidV, .VoidV, evenClosure, oddClosure]) ["n"] qbody
    parityEnv [.IntegerV n] parityEnv parityEnv
    (cellsOnly zero [.VoidV, .VoidV, .VoidV, .VoidV, evenClosure, oddClosure])
    (cellsOnly zero [.VoidV, .VoidV, .VoidV, .VoidV, evenClosure, oddClosure]) hrator rfl rfl

end Scheme


namespace Scheme

/-! ## Quoted data: structure and memory -/

theorem State.grown_refl (s : State) : s.grown s :=
  ⟨⟨[], by simp⟩, rfl, rfl, rfl, rfl⟩

theorem State.grown_trans {s s1 s2 : State} (h1 : s.grown s1) (h2 : s1.grown s2) :
    s.grown s2 := by
  obtain ⟨⟨f1, hf1⟩, hc1, hp1, hz1, ho1⟩ := h1
  obtain ⟨⟨f2, hf2⟩, hc2, hp2, hz2, ho2⟩ := h2
  exact ⟨⟨f1 ++ f2, by rw [hf2, hf1, List.append_assoc]⟩, hc2.trans hc1, hp2.trans hp1,
    hz2.trans hz1, ho2.trans ho1⟩

theorem grown_allocPair (x y : Value) (s : State) : s.grown (allocPair x y s).2 :=
  ⟨⟨[(x, y)], rfl⟩, rfl, rfl, rfl, rfl⟩

theorem get?_of_grown {s s1 : State} (h : s.grown s1) {c : Nat} {p : Value × Value}
    (hp : s.pairs.get? c = some p) : s1.pairs.get? c = some p := by
  obtain ⟨⟨fresh, hf⟩, -⟩ := h
  have hlt : c < s.pairs.length := by
    rcases Nat.lt_or_ge c s.pairs.length with h1 | h1
    · exact h1
    · rw [List.get?_eq_none.mpr h1] at hp
      cases hp
  rw [hf, List.get?_eq_getElem?, List.getElem?_append_left hlt, ← List.get?_eq_getElem?]
  exact hp

theorem reads_grown {s s1 : State} (h : s.grown s1) :
    ∀ (d : Datum) (v : Value), reads s v d = true → reads s1 v d = true := by
  intro d
  induction d with
  | pair a b iha ihb =>
    intro v hv
    cases v with
    | PairV c =>
      cases hp : s.pairs.get? c with
      | none =>
        simp only [reads, hp] at hv
        cases hv
      | some p =>
        obtain ⟨x, y⟩ := p
        simp only [reads, hp, Bool.and_eq_true] at hv
        simp only [reads, get?_of_grown h hp, Bool.and_eq_true]
        exact ⟨iha x hv.1, ihb y hv.2⟩
    | _ => simp [reads] at hv
  | _ =>
    intro v hv
    cases v <;> exact hv

theorem reads_allocPair {s : State} {x y : Value} {a b : Datum} (hx : reads s x a = true)
    (hy : reads s y b = true) :
    reads (allocPair x y s).2 (allocPair x y s).1 (.pair a b) = true := by
  have hg := grown_allocPair x y s
  have hget : (allocPair x y s).2.pairs.get? s.pairs.length = some (x, y) := by
    show (s.pairs ++ [(x, y)]).get? s.pairs.length = some (x, y)
    simp
  show reads (allocPair x y s).2 (.PairV s.pairs.length) (.pair a b) = true
  simp only [reads, hget, Bool.and_eq_true]
  exact ⟨reads_grown hg a x hx, reads_grown hg b y hy⟩

/-! ## The equations of `Syntaxtransit` -/

theorem Syntaxtransit_List (stxs : List Syntax) (st : State) :
    Syntaxtransit (.List stxs) st =
      if stxs.isEmpty then (.ok .NullV, st) else transitChain stxs st := by
  rw [Syntaxtransit]

theorem transitChain_single_list (l : List Syntax) (st : State) :
    transitChain [.List l] st = Syntaxtransit (.List l) st := by
  rw [transitChain]

theorem transitChain_single_atom (x : Syntax) (h : isListSyntax x = false) (st : State) :
    transitChain [x] st = (.error (.Crash "vector index out of range"), st) := by
  cases x with
  | List l => simp [isListSyntax] at h
  | _ =>
    rw [transitChain]
    intro l hl
    cases hl

theorem transitChain_cons_eq (x y z : Syntax) (rest : List Syntax) (st : State) :
    transitChain (x :: y :: z :: rest) st =
      if isDotMarker x then transitChain (y :: z :: rest) st
      else consStep x (transitChain (y :: z :: rest)) st := by
  rw [transitChain, consStep]
  rcases transitChain (y :: z :: rest) st with ⟨_ | _, _⟩ <;> cases isDotMarker x <;> rfl

theorem transitChain_pair_eq (x last : Syntax) (st : State) :
    transitChain [x, last] st =
      if isDotMarker x then Syntaxtransit last st
      else if isListSyntax last then consStep x (Syntaxtransit last) st
      else consStep x (nullStep (Syntaxtransit last)) st := by
  rw [transitChain, consStep, consStep, nullStep]
  rcases Syntaxtransit last st with ⟨_ | _, _⟩ <;> cases isDotMarker x <;>
    cases isListSyntax last <;> rfl

/-! ## Composition of conversions -/

theorem Yields.consStep {g : State → Except Error Value × State} {x : Syntax}
    {dx dc : Datum} (hc : Yields g dc) (hx : Converts x dx) :
    Yields (consStep x g) (.pair dx dc) := by
  intro st
  obtain ⟨temp, st1, h1, r1, g1⟩ := hc st
  obtain ⟨v, st2, h2, r2, g2⟩ := hx st1
  refine ⟨(allocPair v temp st2).1, (allocPair v temp st2).2, ?_,
    reads_allocPair r2 (reads_grown g2 _ _ r1),
    State.grown_trans (State.grown_trans g1 g2) (grown_allocPair v temp st2)⟩
  simp only [Scheme.consStep, h1, h2]

theorem Yields.nullStep {g : State → Except Error Value × State} {d : Datum}
    (hg : Yields g d) : Yields (nullStep g) (.pair d .null) := by
  intro st
  obtain ⟨v, st1, h1, r1, g1⟩ := hg st
  refine ⟨(allocPair v .NullV st1).1, (allocPair v .NullV st1).2, ?_,
    reads_allocPair r1 rfl, State.grown_trans g1 (grown_allocPair v .NullV st1)⟩
  simp only [Scheme.nullStep, h1]

theorem Stops.consStep_left {g : State → Except Error Value × State} {e : Error}
    (hg : Stops g e) (x : Syntax) : Stops (consStep x g) e := by
  intro st
  have h := hg st
  unfold Scheme.consStep
  rcases hgs : g st with ⟨_ | _, _⟩
  · rw [hgs] at h
    exact h
  · rw [hgs] at h
    cases h

theorem Stops.consStep_right {g : State → Except Error Value × State} {d : Datum}
    {x : Syntax} {e : Error} (hg : Yields g d) (hx : Stops (Syntaxtransit x) e) :
    Stops (consStep x g) e := by
  intro st
  obtain ⟨temp, st1, h1, -, -⟩ := hg st
  have h := hx st1
  simp only [Scheme.consStep, h1]
  rcases hxs : Syntaxtransit x st1 with ⟨_ | _, _⟩
  · rw [hxs] at h
    exact h
  · rw [hxs] at h
    cases h

theorem Stops.null_stops {g : State → Except Error Value × State} {e : Error}
    (hg : Stops g e) : Stops (nullStep g) e := by
  intro st
  have h := hg st
  unfold Scheme.nullStep
  rcases hgs : g st with ⟨_ | _, _⟩
  · rw [hgs] at h
    exact h
  · rw [hgs] at h
    cases h

theorem Decided.cons_decided {g : State → Except Error Value × State} {x : Syntax}
    (hg : Decided g) (hx : Decided (Syntaxtransit x)) : Decided (consStep x g) := by
  rcases hg with ⟨dc, hc⟩ | ⟨e, he⟩
  · rcases hx with ⟨dx, hdx⟩ | ⟨e, he⟩
    · exact Or.inl ⟨_, hc.consStep hdx⟩
    · exact Or.inr ⟨e, Stops.consStep_right hc he⟩
  · exact Or.inr ⟨e, he.consStep_left x⟩

theorem Decided.null_decided {g : State → Except Error Value × State} (hg : Decided g) :
    Decided (nullStep g) := by
  rcases hg with ⟨d, hd⟩ | ⟨e, he⟩
  · exact Or.inl ⟨_, hd.nullStep⟩
  · exact Or.inr ⟨e, he.null_stops⟩

theorem transitChain_cons_fun (x y z : Syntax) (rest : List Syntax) :
    transitChain (x :: y :: z :: rest) =
      if isDotMarker x then transitChain (y :: z :: rest)
      else consStep x (transitChain (y :: z :: rest)) := by
  funext st
  rw [transitChain_cons_eq]
  cases isDotMarker x <;> rfl

theorem transitChain_pair_fun (x last : Syntax) :
    transitChain [x, last] =
      if isDotMarker x then Syntaxtransit last
      else if isListSyntax last then consStep x (Syntaxtransit last)
      else consStep x (nullStep (Syntaxtransit last)) := by
  funext st
  rw [transitChain_pair_eq]
  cases isDotMarker x <;> cases isListSyntax last <;> rfl

theorem Syntaxtransit_List_fun (x : Syntax) (rest : List Syntax) :
    Syntaxtransit (.List (x :: rest)) = transitChain (x :: rest) := by
  funext st
  rw [Syntaxtransit_List]
  rfl

/-- The chain of a non-empty vector has a memory-independent outcome when the conversion
of each of its elements has one. -/
theorem transitChain_decided :
    ∀ stxs : List Syntax, stxs ≠ [] → (∀ x ∈ stxs, Decided (Syntaxtransit x)) →
      Decided (transitChain stxs)
  | [], h, _ => absurd rfl h
  | [x], _, ih => by
    cases hx : isListSyntax x with
    | true =>
      cases x with
      | List l =>
        have : transitChain [Syntax.List l] = Syntaxtransit (.List l) := by
          funext st
          exact transitChain_single_list l st
        rw [this]
        exact ih _ (List.mem_singleton.mpr rfl)
      | _ => simp [isListSyntax] at hx
    | false =>
      refine Or.inr ⟨.Crash "vector index out of range", ?_⟩
      intro st
      rw [transitChain_single_atom x hx st]
  | [x, last], _, ih => by
    have hx := ih x (by simp)
    have hl := ih last (by simp)
    rw [transitChain_pair_fun]
    cases isDotMarker x <;> cases isListSyntax last <;>
      simp only [if_true, if_false, Bool.false_eq_true]
    · exact hl.null_decided.cons_decided hx
    · exact hl.cons_decided hx
    · exact hl
    · exact hl
  | x :: y :: z :: rest, _, ih => by
    have hx := ih x (by simp)
    have hc := transitChain_decided (y :: z :: rest) (by simp)
      (fun w hw => ih w (List.mem_cons_of_mem _ hw))
    rw [transitChain_cons_fun]
    cases isDotMarker x <;> simp only [if_true, if_false, Bool.false_eq_true]
    · exact hc.cons_decided hx
    · exact hc

/-- The conversion of a syntax tree has a memory-independent outcome. -/
theorem Syntaxtransit_decided : ∀ (n : Nat) (stx : Syntax), sizeOf stx ≤ n →
    Decided (Syntaxtransit stx)
  | 0, stx, h => by
    cases stx <;> simp at h
  | n + 1, stx, h => by
    cases stx with
    | List stxs =>
      cases stxs with
      | nil => exact Or.inl ⟨.null, fun st => ⟨.NullV, st, rfl, rfl, st.grown_refl⟩⟩
      | cons x rest =>
        rw [Syntaxtransit_List_fun]
        refine transitChain_decided (x :: rest) (by simp) ?_
        intro w hw
        refine Syntaxtransit_decided n w ?_
        have h1 := List.sizeOf_lt_of_mem hw
        simp only [Syntax.List.sizeOf_spec] at h
        omega
    | Number k => exact Or.inl ⟨.int k, fun st => ⟨_, st, rfl, by simp [reads], st.grown_refl⟩⟩
    | RationalSyntax a b =>
      exact Or.inl ⟨.rat a b, fun st => ⟨_, st, rfl, by simp [reads], st.grown_refl⟩⟩
    | StringSyntax x =>
      exact Or.inl ⟨.str x, fun st => ⟨_, st, rfl, by simp [reads], st.grown_refl⟩⟩
    | TrueSyntax => exact Or.inl ⟨.bool true, fun st => ⟨_, st, rfl, rfl, st.grown_refl⟩⟩
    | FalseSyntax => exact Or.inl ⟨.bool false, fun st => ⟨_, st, rfl, rfl, st.grown_refl⟩⟩
    | SymbolSyntax x =>
      exact Or.inl ⟨.sym x, fun st => ⟨_, st, rfl, by simp [reads], st.grown_refl⟩⟩

theorem append_two_shape (xs : List Syntax) (a b : Syntax) :
    ∃ y z rest, xs ++ [a, b] = y :: z :: rest := by
  cases xs with
  | nil => exact ⟨a, b, [], rfl⟩
  | cons x xs =>
    cases xs with
    | nil => exact ⟨x, a, [b], rfl⟩
    | cons x1 xs => exact ⟨x, x1, xs ++ [a, b], rfl⟩

/-- The chain of a vector that ends in the `.` marker and a last element puts the
conversions of the elements before the marker in front of the conversion of the last
element. -/
theorem transitChain_dotted (t : Syntax) (dt : Datum) (ht : Converts t dt) :
    ∀ (ss : List Syntax) (ds : List Datum), List.Forall₂ Converts ss ds →
      (∀ x ∈ ss, isDotMarker x = false) →
      Yields (transitChain (ss ++ [dot, t])) (ds.foldr Datum.pair dt)
  | [], [], .nil, _ => by
    rw [List.nil_append, transitChain_pair_fun]
    exact ht
  | x :: xs, _ :: ds, .cons hx hxs, hdots => by
    obtain ⟨y, z, rest, hshape⟩ := append_two_shape xs dot t
    have ih := transitChain_dotted t dt ht xs ds hxs
      (fun w hw => hdots w (List.mem_cons_of_mem _ hw))
    rw [List.cons_append, hshape, transitChain_cons_fun, hdots x (List.mem_cons_self _ _)]
    rw [hshape] at ih
    exact ih.consStep hx

end Scheme


namespace Scheme

/-! ## Exactness of arithmetic on small operands -/

theorem Arith.Exact.andThen {α β : Type} {x : Arith α} {f : α → Arith β} {P : α → Prop}
    {Q : β → Prop} (hx : x.Exact P) (hf : ∀ a, P a → (f a).Exact Q) : (x >>= f).Exact Q := by
  obtain ⟨hxe, hxv⟩ := hx
  show (Arith.bind x f).Exact Q
  unfold Arith.bind
  cases hv : x.val with
  | error e => exact ⟨hxe, fun a ha => by cases ha⟩
  | ok a =>
    obtain ⟨hfe, hfv⟩ := hf a (hxv a hv)
    exact ⟨by simp [hxe, hfe], hfv⟩

theorem Arith.Exact.ret {α : Type} {P : α → Prop} (a : α) (h : P a) :
    (Pure.pure a : Arith α).Exact P :=
  ⟨rfl, fun b hb => by cases hb; exact h⟩

theorem Arith.Exact.failed {α : Type} {P : α → Prop} (e : Error) :
    (Arith.fail e : Arith α).Exact P :=
  ⟨rfl, fun b hb => by cases hb⟩

theorem Arith.Exact.weaken {α : Type} {x : Arith α} {P Q : α → Prop} (hx : x.Exact P)
    (h : ∀ a, P a → Q a) : x.Exact Q :=
  ⟨hx.1, fun a ha => h a (hx.2 a ha)⟩

theorem negFits_fits {x : Int} (h : negFits x) : fits32 x = true := by
  rw [fits32_iff]
  unfold negFits at h
  omega

theorem negFits_neg {x : Int} (h : negFits x) : negFits (-x) := by
  unfold negFits at *
  omega

theorem negFits_of_natAbs_le {x y : Int} (h : x.natAbs ≤ y.natAbs) (hy : negFits y) :
    negFits x := by
  unfold negFits at *
  omega

theorem negFits_tdiv {a : Int} (b : Int) (ha : negFits a) : negFits (Int.tdiv a b) := by
  refine negFits_of_natAbs_le ?_ ha
  rw [Int.natAbs_tdiv]
  exact Nat.div_le_self _ _

theorem negFits_tmod {a b : Int} (hb : negFits b) (hb0 : b ≠ 0) : negFits (Int.tmod a b) := by
  refine negFits_of_natAbs_le ?_ hb
  rw [natAbs_tmod]
  exact Nat.le_of_lt (Nat.mod_lt _ (Int.natAbs_pos.mpr hb0))

theorem Exact_iop {x : Int} (h : negFits x) : (iop x).Exact (fun r => r = x) :=
  ⟨negFits_fits h, fun a ha => by
    have : wrap32 x = a := by
      cases ha
      rfl
    rw [← this, wrap32_of_fits (negFits_fits h)]⟩

theorem Exact_idiv {a : Int} (b : Int) (ha : negFits a) :
    (idiv a b).Exact (fun r => negFits r ∧ r = Int.tdiv a b) := by
  unfold idiv
  by_cases hb : b = 0
  · rw [if_pos hb]
    exact Arith.Exact.failed _
  · rw [if_neg hb]
    exact (Exact_iop (negFits_tdiv b ha)).weaken (fun r hr => by rw [hr]; exact ⟨negFits_tdiv b ha, rfl⟩)

theorem Exact_imod {a b : Int} (ha : negFits a) (hb : negFits b) :
    (imod a b).Exact (fun r => negFits r) := by
  unfold imod
  by_cases hb0 : b = 0
  · rw [if_pos hb0]
    exact Arith.Exact.failed _
  · rw [if_neg hb0]
    refine ⟨negFits_fits (negFits_tdiv b ha), ?_⟩
    intro r hr
    cases hr
    exact negFits_tmod hb hb0

theorem Exact_gcd_loop : ∀ (fuel : Nat) (m n : Int), negFits m → negFits n →
    (gcd_loop fuel m n).Exact (fun _ => True)
  | 0, m, n, _, _ => by
    unfold gcd_loop
    by_cases hn : n = 0
    · rw [if_pos hn]
      exact Arith.Exact.ret _ trivial
    · rw [if_neg hn]
      exact Arith.Exact.failed _
  | fuel + 1, m, n, hm, hn => by
    unfold gcd_loop
    by_cases hn0 : n = 0
    · rw [if_pos hn0]
      exact Arith.Exact.ret _ trivial
    · rw [if_neg hn0]
      exact (Exact_imod hm hn).andThen (fun t ht => Exact_gcd_loop fuel n t hn ht)

theorem Exact_distribute {den num : Int} (hd : negFits den) (hn : negFits num) :
    (distribute ⟨den, num⟩).exact = true := by
  have h : (distribute ⟨den, num⟩).Exact (fun _ => True) := by
    unfold distribute
    refine (Exact_gcd_loop _ den num hd hn).andThen ?_
    intro temp _
    refine (Exact_idiv temp hd).andThen ?_
    intro d hdd
    refine (Exact_idiv temp hn).andThen ?_
    intro n hnn
    refine Arith.Exact.andThen (show Arith.Exact _ (fun _ => True) from ?_) ?_
    · by_cases hneg : d < 0
      · rw [if_pos hneg]
        refine (Exact_iop (negFits_neg hdd.1)).andThen ?_
        intro d1 _
        refine (Exact_iop (negFits_neg hnn.1)).andThen ?_
        intro n1 _
        exact Arith.Exact.ret _ trivial
      · rw [if_neg hneg]
        exact Arith.Exact.ret _ trivial
    · intro r _
      by_cases h0 : r.denominator = 0
      · rw [if_pos h0]
        exact Arith.Exact.failed _
      · rw [if_neg h0]
        by_cases h1 : r.denominator = 1
        · rw [if_pos h1]
          exact Arith.Exact.ret _ trivial
        · rw [if_neg h1]
          exact Arith.Exact.ret _ trivial
  exact h.1

/-! ## Uniqueness of the normal form -/

theorem normalNumber_unique {v w : Value} (hv : normalNumber v) (hw : normalNumber w)
    (h : denote v = denote w) : v = w := by
  have key : ∀ (n d : Int), 1 < d → Int.gcd n d = 1 →
      ((n : ℚ) / (d : ℚ)).num = n ∧ (((n : ℚ) / (d : ℚ)).den : Int) = d := by
    intro n d hd hg
    have hc : Nat.Coprime n.natAbs d.natAbs := hg
    exact ⟨Rat.num_div_eq_of_coprime (by omega) hc, Rat.den_div_eq_of_coprime (by omega) hc⟩
  cases v <;> simp only [normalNumber] at hv <;> cases w <;> simp only [normalNumber] at hw
  · simp only [denote] at h
    rw [Int.cast_inj.mp h]
  · rename_i a n d
    simp only [denote] at h
    have hden := congrArg (fun q : ℚ => (q.den : Int)) h
    simp only [Rat.intCast_den, (key n d hw.1 hw.2).2] at hden
    omega
  · rename_i n d a
    simp only [denote] at h
    have hden := congrArg (fun q : ℚ => (q.den : Int)) h
    simp only [Rat.intCast_den, (key n d hv.1 hv.2).2] at hden
    omega
  · rename_i n1 d1 n2 d2
    simp only [denote] at h
    have hnum := congrArg Rat.num h
    have hden := congrArg (fun q : ℚ => (q.den : Int)) h
    simp only [(key n1 d1 hv.1 hv.2).1, (key n2 d2 hw.1 hw.2).1] at hnum
    simp only [(key n1 d1 hv.1 hv.2).2, (key n2 d2 hw.1 hw.2).2] at hden
    rw [hnum, hden]

/-! ## Negation through `Mult` -/

theorem Mult_neg_one_exact (x : Value) (hx : negatable x) :
    (Mult_evalRator (.IntegerV (-1)) x).exact = true := by
  cases x <;> simp only [negatable] at hx
  · rename_i n
    have h : (Mult_evalRator (.IntegerV (-1)) (.IntegerV n)).Exact (fun _ => True) := by
      unfold Mult_evalRator
      simp only [IS_DIGIT_both, IS_DIGIT, loadFirst, Arith.pure_bind, if_true, imul]
      refine (Exact_iop (show negFits (-1 * n) by unfold negFits at *; omega)).andThen ?_
      intro num hnum
      subst hnum
      exact ⟨Exact_distribute (by unfold negFits; omega) (by unfold negFits at *; omega),
        fun _ _ => trivial⟩
    exact h.1
  · rename_i n d
    have h : (Mult_evalRator (.IntegerV (-1)) (.RationalV n d)).Exact (fun _ => True) := by
      unfold Mult_evalRator
      simp only [IS_DIGIT_both, IS_DIGIT, loadFirst, Arith.pure_bind, if_true, imul]
      refine (Exact_iop (show negFits (-1 * n) by unfold negFits at *; omega)).andThen ?_
      intro num hnum
      subst hnum
      refine (Exact_iop (show negFits (1 * d) by unfold negFits at *; omega)).andThen ?_
      intro den hden
      subst hden
      exact ⟨Exact_distribute (by unfold negFits at *; omega) (by unfold negFits at *; omega),
        fun _ _ => trivial⟩
    exact h.1

theorem negatable_numeric {x : Value} (hx : negatable x) : numericOperand x := by
  cases x <;> simp only [negatable, numericOperand] at hx ⊢
  exact hx.2.1

/-! ## Analysis of a form whose head is a primitive -/

theorem parse_primitive_head (op : String) (t : ExprType) (rest : List Syntax) (env : Assoc)
    (s : State) (parameters : List Expr) (env1 : Assoc) (s1 : State)
    (r : Except Error Expr) (hfree : (find op env s).isNull = true)
    (hprim : s.primitives.lookup op = some t)
    (hps : parseSeq rest env s = ⟨.ok parameters, env1, s1⟩)
    (hnode : primitiveNode t parameters = some r) :
    parse (.List (.SymbolSyntax op :: rest)) env s = ⟨r, env1, s1⟩ := by
  rw [parse]
  simp only [listHead, hfree, Bool.not_true, Bool.false_eq_true, if_false, hprim, parseRest,
    hps, hnode]
  cases r <;> rfl

theorem parseSeq_single (stx : Syntax) (env : Assoc) (s : State) (e : Expr) (env1 : Assoc)
    (s1 : State) (h : parse stx env s = ⟨.ok e, env1, s1⟩) :
    parseSeq [stx] env s = ⟨.ok [e], env1, s1⟩ := by
  rw [parseSeq]
  simp only [h]
  rw [parseSeq]
  rfl

theorem parseSeq_nil (env : Assoc) (s : State) : parseSeq [] env s = ⟨.ok [], env, s⟩ := by
  rw [parseSeq]
  rfl

end Scheme


namespace Scheme

/-! ## Comparison by cross-multiplication -/

theorem threeWay_cases (l r : Int) :
    (threeWay l r = -1 ↔ l < r) ∧ (threeWay l r = 0 ↔ l = r) ∧ (threeWay l r = 1 ↔ l > r) := by
  rcases lt_trichotomy l r with h | h | h
  · have e : threeWay l r = -1 := by simp [threeWay, h]
    rw [e]
    refine ⟨?_, ?_, ?_⟩ <;> constructor <;> intro c <;> omega
  · have e : threeWay l r = 0 := by simp [threeWay, h]
    rw [e]
    refine ⟨?_, ?_, ?_⟩ <;> constructor <;> intro c <;> omega
  · have e : threeWay l r = 1 := by
      unfold threeWay
      rw [if_neg (by omega), if_pos h]
    rw [e]
    refine ⟨?_, ?_, ?_⟩ <;> constructor <;> intro c <;> omega

theorem cross_lt {n1 d1 n2 d2 : Int} (hd1 : 0 < d1) (hd2 : 0 < d2) :
    (n1 : ℚ) / d1 < n2 / d2 ↔ n1 * d2 < n2 * d1 := by
  have h1 : (0 : ℚ) < d1 := by exact_mod_cast hd1
  have h2 : (0 : ℚ) < d2 := by exact_mod_cast hd2
  rw [div_lt_div_iff₀ h1 h2]
  exact_mod_cast Iff.rfl

theorem cross_eq {n1 d1 n2 d2 : Int} (hd1 : 0 < d1) (hd2 : 0 < d2) :
    (n1 : ℚ) / d1 = n2 / d2 ↔ n1 * d2 = n2 * d1 := by
  have h1 : (d1 : ℚ) ≠ 0 := by exact_mod_cast hd1.ne'
  have h2 : (d2 : ℚ) ≠ 0 := by exact_mod_cast hd2.ne'
  rw [div_eq_div_iff h1 h2]
  exact_mod_cast Iff.rfl

/-- What the three-way result of a cross-multiplied comparison says about the two
fractions. -/
theorem threeWay_cross (n1 d1 n2 d2 : Int) (hd1 : 0 < d1) (hd2 : 0 < d2) :
    (threeWay (n1 * d2) (n2 * d1) = -1 ↔ (n1 : ℚ) / d1 < n2 / d2) ∧
      (threeWay (n1 * d2) (n2 * d1) = 0 ↔ (n1 : ℚ) / d1 = n2 / d2) ∧
      (threeWay (n1 * d2) (n2 * d1) = 1 ↔ (n1 : ℚ) / d1 > n2 / d2) := by
  obtain ⟨h1, h2, h3⟩ := threeWay_cases (n1 * d2) (n2 * d1)
  refine ⟨h1.trans (cross_lt hd1 hd2).symm, h2.trans (cross_eq hd1 hd2).symm, h3.trans ?_⟩
  exact (cross_lt hd2 hd1).symm

theorem Good_compareNumericValues (a b : Value) (ha : numericOperand a)
    (hb : numericOperand b) :
    (compareNumericValues a b).Good (fun c =>
      (c = -1 ↔ denote a < denote b) ∧ (c = 0 ↔ denote a = denote b) ∧
        (c = 1 ↔ denote a > denote b)) := by
  cases a <;> simp only [numericOperand] at ha <;> cases b <;> simp only [numericOperand] at hb
  · rename_i n1 n2
    have h := threeWay_cross n1 1 n2 1 (by decide) (by decide)
    simp only [mul_one, Int.cast_one, div_one] at h
    exact Arith.Good.pure _ (by simpa [denote] using h)
  · rename_i n1 n2 d2
    have h := threeWay_cross n1 1 n2 d2 (by decide) hb
    simp only [mul_one, Int.cast_one, div_one] at h
    unfold compareNumericValues
    refine (Good_imul n1 d2).bind ?_
    intro left hl
    subst hl
    exact Arith.Good.pure _ (by simpa [denote] using h)
  · rename_i n1 d1 n2
    have h := threeWay_cross n1 d1 n2 1 ha (by decide)
    simp only [mul_one, Int.cast_one, div_one] at h
    unfold compareNumericValues
    refine (Good_imul n2 d1).bind ?_
    intro right hr
    subst hr
    exact Arith.Good.pure _ (by simpa [denote] using h)
  · rename_i n1 d1 n2 d2
    have h := threeWay_cross n1 d1 n2 d2 ha hb
    unfold compareNumericValues
    refine (Good_imul n1 d2).bind ?_
    intro left hl
    subst hl
    refine (Good_imul n2 d1).bind ?_
    intro right hr
    subst hr
    exact Arith.Good.pure _ (by simpa [denote] using h)

theorem IS_DIGIT_both_numeric {a b : Value} (ha : numericOperand a) (hb : numericOperand b) :
    IS_DIGIT_both a b = (pure true : Arith Bool) := by
  cases a <;> simp only [numericOperand] at ha <;> cases b <;>
    simp only [numericOperand] at hb <;> rfl

theorem compare_evalRator_val (test : Int → Bool) {a b : Value} (ha : numericOperand a)
    (hb : numericOperand b) {c : Int} (hc : (compareNumericValues a b).val = .ok c) :
    (compare_evalRator test a b).val = .ok (.BooleanV (test c)) := by
  unfold compare_evalRator
  rw [IS_DIGIT_both_numeric ha hb]
  rw [Arith.pure_bind]
  simp only [if_true]
  rw [Arith.bind_val, hc]
  rfl

/-! ## Operands that are not numbers -/

theorem IS_DIGIT_value {v : Value} (hv : v.isNull = false) :
    IS_DIGIT v = (pure (isNumeric v) : Arith Bool) := by
  cases v <;> first | rfl | cases hv

theorem IS_DIGIT_both_false {a b : Value} (ha : a.isNull = false) (hb : b.isNull = false)
    (h : (isNumeric a && isNumeric b) = false) :
    IS_DIGIT_both a b = (pure false : Arith Bool) := by
  unfold IS_DIGIT_both
  rw [IS_DIGIT_value ha, IS_DIGIT_value hb, Arith.pure_bind]
  cases h1 : isNumeric a
  · rfl
  · rw [h1] at h
    simp only [Bool.true_and] at h
    rw [h]
    rfl

theorem bothInt_none {a b : Value} (ha : a.isNull = false) (hb : b.isNull = false)
    (h : (isNumeric a && isNumeric b) = false) :
    bothInt a b = (pure none : Arith (Option (Int × Int))) := by
  cases a with
  | nullptr => cases ha
  | IntegerV n =>
    cases b with
    | nullptr => cases hb
    | IntegerV m => simp [isNumeric] at h
    | _ => rfl
  | _ => rfl

theorem allDigits_false : ∀ (args : List Value), (∀ a ∈ args, a.isNull = false) →
    (∃ a ∈ args, isNumeric a = false) → allDigits args = (pure false : Arith Bool)
  | [], _, h => by
    obtain ⟨a, ha, -⟩ := h
    cases ha
  | v :: vs, hnn, h => by
    unfold allDigits
    rw [IS_DIGIT_value (hnn v (List.mem_cons_self _ _)), Arith.pure_bind]
    cases hv : isNumeric v
    · rfl
    · simp only [if_true]
      refine allDigits_false vs (fun a ha => hnn a (List.mem_cons_of_mem _ ha)) ?_
      obtain ⟨a, ha, hna⟩ := h
      rcases List.mem_cons.mp ha with rfl | hmem
      · rw [hv] at hna
        cases hna
      · exact ⟨a, hmem, hna⟩

/-! ## Square and multiply -/

theorem wrap32_fits (x : Int) : ¬ (wrap32 x > 2147483647 ∨ wrap32 x < -2147483648) := by
  unfold wrap32
  omega

theorem Expt_loop_done (fuel : Nat) (result b : Int) :
    (Expt_loop fuel result b 0).val = .ok result := by
  cases fuel <;> simp [Expt_loop] <;> rfl

theorem pow_split (b : Int) (e : Nat) : b ^ e = b ^ (e % 2) * (b * b) ^ (e / 2) := by
  conv_lhs => rw [← Nat.mod_add_div e 2]
  rw [pow_add, pow_mul, sq]

/-- A factor of a product that is an `int` is an `int` when the other factor is positive. -/
theorem fits32_of_mul_pos {x y : Int} (hy : 0 < y) (h : fits32 (x * y) = true) :
    fits32 x = true := by
  rw [fits32_iff] at h ⊢
  constructor
  · by_contra hx
    have : x * y ≤ x := by nlinarith
    omega
  · by_contra hx
    have : x ≤ x * y := by nlinarith
    omega

/-- A square that divides a non-zero `int` is an `int`: no square is `2^31`. -/
theorem fits32_sq_of_mul {r b : Int} {k : Nat} (hr : r ≠ 0) (hb : b ≠ 0) (hk : 1 ≤ k)
    (h : fits32 (r * (b * b) ^ k) = true) : fits32 (b * b) = true := by
  have hsq : 0 < b * b := mul_self_pos.mpr hb
  have hp : 0 < (b * b) ^ (k - 1) := pow_pos hsq _
  have hk1 : (b * b) ^ k = (b * b) * (b * b) ^ (k - 1) := by
    conv_lhs => rw [show k = (k - 1) + 1 by omega]
    rw [pow_succ, mul_comm]
  rw [fits32_iff] at h ⊢
  have hle : b * b ≤ 2147483648 := by
    by_contra hc
    have h1 : b * b ≤ (b * b) * (b * b) ^ (k - 1) := by nlinarith
    rw [hk1] at h
    rcases lt_or_gt_of_ne hr with hneg | hpos
    · have : r * ((b * b) * (b * b) ^ (k - 1)) ≤ -((b * b) * (b * b) ^ (k - 1)) := by
        nlinarith [mul_pos hsq hp]
      omega
    · have : (b * b) * (b * b) ^ (k - 1) ≤ r * ((b * b) * (b * b) ^ (k - 1)) := by
        nlinarith [mul_pos hsq hp]
      omega
  have hne : b * b ≠ 2147483648 := by
    intro he
    rcases le_or_lt (b * b) (46340 * 46340) with h1 | h1
    · omega
    · have h2 : 46341 ≤ b ∨ b ≤ -46341 := by
        by_contra hc
        push_neg at hc
        nlinarith
      rcases h2 with h2 | h2 <;> nlinarith
  omega

/-- The loop of `Expt::evalRator` computes `result * b ^ e` whenever that number is an
`int`: every product it uses is then an `int` as well, and the squaring that may wrap, in
the last round, is not used. -/
theorem Expt_loop_correct : ∀ (fuel e : Nat) (result b : Int), e ≤ fuel →
    (b = 0 ∨ result ≠ 0) → fits32 (result * b ^ e) = true →
    (Expt_loop fuel result b (e : Int)).val = .ok (result * b ^ e)
  | fuel, 0, result, b, _, _, _ => by
    rw [pow_zero, mul_one]
    exact Expt_loop_done fuel result b
  | 0, e + 1, _, _, h, _, _ => by omega
  | fuel + 1, e + 1, result, b, hle, hinv, hfit => by
    have hpos : ((e + 1 : Nat) : Int) > 0 := by omega
    have hmod : Int.tmod ((e + 1 : Nat) : Int) 2 = (((e + 1) % 2 : Nat) : Int) := by
      rw [Int.tmod_eq_emod (by omega) (by omega)]
      omega
    have hdiv : Int.tdiv ((e + 1 : Nat) : Int) 2 = (((e + 1) / 2 : Nat) : Int) := by
      rw [Int.tdiv_eq_ediv (by omega) (by omega)]
      omega
    have hsplit := pow_split b (e + 1)
    have hle2 : (e + 1) / 2 ≤ fuel := by omega
    unfold Expt_loop
    rw [if_pos hpos, hmod, hdiv]
    rcases Nat.mod_two_eq_zero_or_one (e + 1) with hpar | hpar
    · -- even exponent: at least 2, the square is used
      have hk : 1 ≤ (e + 1) / 2 := by omega
      rw [hpar, pow_zero, one_mul] at hsplit
      rw [hpar]
      simp only [Nat.cast_zero, zero_ne_one, if_false, false_and, Arith.pure_bind, imul]
      have hbb : fits32 (b * b) = true := by
        rcases hinv with hb0 | hr
        · rw [hb0]
          rfl
        · by_cases hb0 : b = 0
          · rw [hb0]
            rfl
          · rw [hsplit] at hfit
            exact fits32_sq_of_mul hr hb0 hk hfit
      rw [iop_bind_val, wrap32_of_fits hbb]
      have hnot : ¬ ((b * b > 2147483647 ∨ b * b < -2147483648) ∧
          ((e + 1 : Nat) : Int) > 1) := by
        rw [fits32_iff] at hbb
        omega
      rw [if_neg hnot, hsplit]
      refine Expt_loop_correct fuel ((e + 1) / 2) result (b * b) hle2 ?_ (by rw [← hsplit]; exact hfit)
      rcases hinv with hb0 | hr
      · exact Or.inl (by rw [hb0]; rfl)
      · exact Or.inr hr
    · -- odd exponent
      rw [hpar, pow_one] at hsplit
      rw [hpar]
      simp only [Nat.cast_one, if_true, true_and, imul]
      have hrb : fits32 (result * b) = true := by
        by_cases hb0 : b = 0
        · rw [hb0, mul_zero]
          rfl
        · have hp : 0 < (b * b) ^ ((e + 1) / 2) := pow_pos (mul_self_pos.mpr hb0) _
          rw [hsplit, ← mul_assoc] at hfit
          exact fits32_of_mul_pos hp hfit
      rw [iop_bind_val, wrap32_of_fits hrb]
      have hnot1 : ¬ (result * b > 2147483647 ∨ result * b < -2147483648) := by
        rw [fits32_iff] at hrb
        omega
      rw [if_neg hnot1, iop_bind_val]
      have hnot2 : ¬ ((wrap32 (b * b) > 2147483647 ∨ wrap32 (b * b) < -2147483648) ∧
          ((e + 1 : Nat) : Int) > 1) := fun h => wrap32_fits _ h.1
      rw [if_neg hnot2]
      by_cases hk : (e + 1) / 2 = 0
      · rw [hk, Nat.cast_zero, Expt_loop_done, hsplit, hk, pow_zero, mul_one]
      · have hbb : fits32 (b * b) = true := by
          by_cases hb0 : b = 0
          · rw [hb0]
            rfl
          · rcases hinv with hb | hr
            · exact absurd hb hb0
            · have hrb0 : result * b ≠ 0 := mul_ne_zero hr hb0
              rw [hsplit, ← mul_assoc] at hfit
              exact fits32_sq_of_mul hrb0 hb0 (by omega) hfit
        rw [wrap32_of_fits hbb, hsplit, ← mul_assoc]
        refine Expt_loop_correct fuel ((e + 1) / 2) (result * b) (b * b) hle2 ?_
          (by rw [mul_assoc, ← hsplit]; exact hfit)
        rcases hinv with hb0 | hr
        · exact Or.inl (by rw [hb0]; rfl)
        · by_cases hb0 : b = 0
          · exact Or.inl (by rw [hb0]; rfl)
          · exact Or.inr (mul_ne_zero hr hb0)

/-! ## Analysis of a form whose head is a reserved word -/

theorem parse_set_head (rest : List Syntax) (env : Assoc) (s : State)
    (hfree : (find "set!" env s).isNull = true) (hprim : s.primitives.lookup "set!" = none) :
    parse (.List (.SymbolSyntax "set!" :: rest)) env s =
      parseSet (.SymbolSyntax "set!" :: rest) env s := by
  rw [parse]
  simp only [listHead, hfree, Bool.not_true, Bool.false_eq_true, if_false, hprim]
  rfl

theorem parse_if_head (rest : List Syntax) (env : Assoc) (s : State)
    (hfree : (find "if" env s).isNull = true) (hprim : s.primitives.lookup "if" = none) :
    parse (.List (.SymbolSyntax "if" :: rest)) env s =
      parseIf (.SymbolSyntax "if" :: rest) env s := by
  rw [parse]
  simp only [listHead, hfree, Bool.not_true, Bool.false_eq_true, if_false, hprim]
  rfl

end Scheme


namespace Scheme

/-! ## C1-C3: the rational invariant, exact addition, division by zero -/

theorem Good_Plus (a b : Value) (ha : numericOperand a) (hb : numericOperand b) :
    (Plus_evalRator a b).Good (fun v => normalNumber v ∧ denote v = denote a + denote b) := by
  cases a <;> simp only [numericOperand] at ha <;> cases b <;> simp only [numericOperand] at hb
  · rw [Plus_first_int]
    exact (Good_Plus_rat_int _ 1 _ one_ne_zero).mono (by simp [denote])
  · rw [Plus_first_int]
    exact (Good_Plus_rat_rat _ 1 _ _ one_ne_zero (by omega)).mono (by simp [denote])
  · exact (Good_Plus_rat_int _ _ _ (by omega)).mono (by simp [denote])
  · exact (Good_Plus_rat_rat _ _ _ _ (by omega) (by omega)).mono (by simp [denote])

theorem Good_Minus (a b : Value) (ha : numericOperand a) (hb : numericOperand b) :
    (Minus_evalRator a b).Good (fun v => normalNumber v ∧ denote v = denote a - denote b) := by
  cases a <;> simp only [numericOperand] at ha <;> cases b <;> simp only [numericOperand] at hb
  · rw [Minus_first_int]
    exact (Good_Minus_rat_int _ 1 _ one_ne_zero).mono (by simp [denote])
  · rw [Minus_first_int]
    exact (Good_Minus_rat_rat _ 1 _ _ one_ne_zero (by omega)).mono (by simp [denote])
  · exact (Good_Minus_rat_int _ _ _ (by omega)).mono (by simp [denote])
  · exact (Good_Minus_rat_rat _ _ _ _ (by omega) (by omega)).mono (by simp [denote])

theorem Good_Mult (a b : Value) (ha : numericOperand a) (hb : numericOperand b) :
    (Mult_evalRator a b).Good (fun v => normalNumber v ∧ denote v = denote a * denote b) := by
  cases a <;> simp only [numericOperand] at ha <;> cases b <;> simp only [numericOperand] at hb
  · rw [Mult_first_int]
    exact (Good_Mult_rat_int _ 1 _ one_ne_zero).mono (by simp [denote])
  · rw [Mult_first_int]
    exact (Good_Mult_rat_rat _ 1 _ _ one_ne_zero (by omega)).mono (by simp [denote])
  · exact (Good_Mult_rat_int _ _ _ (by omega)).mono (by simp [denote])
  · exact (Good_Mult_rat_rat _ _ _ _ (by omega) (by omega)).mono (by simp [denote])

theorem Good_Div (a b : Value) (ha : numericOperand a) (hb : numericOperand b)
    (hz : ¬ denotesZero b) :
    (Div_evalRator a b).Good (fun v => normalNumber v ∧ denote v = denote a / denote b) := by
  cases a <;> simp only [numericOperand] at ha <;> cases b <;>
    simp only [numericOperand] at hb <;> simp only [denotesZero] at hz
  · rw [Div_first_int]
    exact (Good_Div_rat_int _ 1 _ one_ne_zero hz).mono (by simp [denote])
  · rw [Div_first_int]
    exact (Good_Div_rat_rat _ 1 _ _ one_ne_zero (by omega) hz).mono (by simp [denote])
  · exact (Good_Div_rat_int _ _ _ (by omega) hz).mono (by simp [denote])
  · exact (Good_Div_rat_rat _ _ _ _ (by omega) (by omega) hz).mono (by simp [denote])

/-- A divisor that denotes zero makes `Div::evalRator` throw "Division by zero" before any
arithmetic is done. -/
theorem Div_zero_divisor (a b : Value) (ha : numericOperand a) (hb : numericOperand b)
    (hz : denotesZero b) :
    Div_evalRator a b = Arith.fail (.RuntimeError "Division by zero") := by
  cases a <;> simp only [numericOperand] at ha <;> cases b <;>
    simp only [numericOperand] at hb <;> simp only [denotesZero] at hz <;> subst hz <;>
    simp [Div_evalRator, IS_DIGIT_both, IS_DIGIT, Arith.pure_bind]

/-- C1. For numeric operands (an `Integer`, or a `Rational` with positive denominator) and
each of `Plus`, `Minus`, `Mult`, `Div`: when no signed operation overflows and `evalRator`
returns a value, the value is an `Integer`, or a `Rational` in lowest terms whose
denominator is greater than 1. -/
theorem arith_evalRator_normal_form (f : Value → Value → Arith Value)
    (hf : f = Plus_evalRator ∨ f = Minus_evalRator ∨ f = Mult_evalRator ∨ f = Div_evalRator)
    (a b v : Value) (ha : numericOperand a) (hb : numericOperand b)
    (hexact : (f a b).exact = true) (hv : (f a b).val = .ok v) : normalNumber v := by
  have fin : ∀ {P : Value → Prop}, (f a b).Good (fun w => normalNumber w ∧ P w) →
      normalNumber v := by
    intro P hG
    obtain ⟨w, hw, hn, -⟩ := hG hexact
    rw [hv] at hw
    cases hw
    exact hn
  rcases hf with rfl | rfl | rfl | rfl
  · exact fin (Good_Plus a b ha hb)
  · exact fin (Good_Minus a b ha hb)
  · exact fin (Good_Mult a b ha hb)
  · by_cases hz : denotesZero b
    · rw [Div_zero_divisor a b ha hb hz] at hv
      cases hv
    · exact fin (Good_Div a b ha hb hz)

/-- Witness for C1: `1/2 + 1/3` is computed exactly and returns `5/6`. -/
theorem arith_evalRator_normal_form_witness :
    (Plus_evalRator (.RationalV 1 2) (.RationalV 1 3)).val = .ok (.RationalV 5 6) ∧
      normalNumber (.RationalV 5 6) :=
  ⟨rfl, arith_evalRator_normal_form Plus_evalRator (Or.inl rfl) (.RationalV 1 2)
    (.RationalV 1 3) (.RationalV 5 6) (by simp [numericOperand]) (by simp [numericOperand])
    rfl rfl⟩

/-- C2, as stated, fails: adding `Integer 2147483647` and `Integer 1` computes one product,
`1 * 1`, which does not overflow, yet the sum wraps and the value returned is
`Integer -2147483648`, which does not denote `2147483647 + 1`. -/
theorem Plus_sum_overflow_wraps :
    numericOperand (.IntegerV 2147483647) ∧ numericOperand (.IntegerV 1) ∧
      (imul 1 1).exact = true ∧
      (Plus_evalRator (.IntegerV 2147483647) (.IntegerV 1)).val =
        .ok (.IntegerV (-2147483648)) ∧
      denote (.IntegerV (-2147483648)) ≠ denote (.IntegerV 2147483647) + denote (.IntegerV 1) := by
  refine ⟨trivial, trivial, rfl, rfl, ?_⟩
  simp only [denote]
  norm_num

/-- C2, amended. For numeric operands `a` and `b`, when no signed operation of the
computation (product, sum, quotient, remainder or negation) overflows 32 bits,
`Plus::evalRator(a, b)` returns a value, and that value denotes exactly the rational
number `a + b`. -/
theorem Plus_evalRator_exact_sum (a b : Value) (ha : numericOperand a)
    (hb : numericOperand b) (hexact : (Plus_evalRator a b).exact = true) :
    ∃ v, (Plus_evalRator a b).val = .ok v ∧ denote v = denote a + denote b := by
  obtain ⟨v, hv, -, hd⟩ := Good_Plus a b ha hb hexact
  exact ⟨v, hv, hd⟩

/-- Witness for the amended C2: `3/4 + 5` is computed without overflow. -/
theorem Plus_evalRator_exact_sum_witness :
    ∃ v, (Plus_evalRator (.RationalV 3 4) (.IntegerV 5)).val = .ok v ∧
      denote v = denote (.RationalV 3 4) + denote (.IntegerV 5) :=
  Plus_evalRator_exact_sum (.RationalV 3 4) (.IntegerV 5) (by simp [numericOperand])
    (by simp [numericOperand]) rfl

/-- C3, as stated, fails: the divisor `65536` is not zero, yet dividing `1/65536` by it
raises a `RuntimeError`, because the denominator product `65536 * 65536` wraps to 0 and
`distribute` then throws "Unknown Error". -/
theorem Div_overflow_raises_for_nonzero_divisor :
    ¬ (∀ a b : Value, numericOperand a → numericOperand b →
        ((∃ msg, (Div_evalRator a b).val = .error (.RuntimeError msg)) ↔ denotesZero b)) := by
  intro h
  have h1 := h (.RationalV 1 65536) (.IntegerV 65536) (by simp [numericOperand])
    (by simp [numericOperand])
  have h2 : denotesZero (.IntegerV 65536) := h1.mp ⟨"Unknown Error", rfl⟩
  simp [denotesZero] at h2

/-- C3, amended. For numeric operands `a` and `b` on which no signed operation of
`Div::evalRator` overflows 32 bits, the call raises a `RuntimeError` if and only if `b`
denotes zero (`Integer 0` or a `Rational` with numerator 0); `(/ 0 1)` returns `Integer 0`
and `(/ 1 0)` raises. -/
theorem Div_evalRator_raises_iff_zero :
    (∀ a b : Value, numericOperand a → numericOperand b →
      (Div_evalRator a b).exact = true →
      ((∃ msg, (Div_evalRator a b).val = .error (.RuntimeError msg)) ↔ denotesZero b)) ∧
    (Div_evalRator (.IntegerV 0) (.IntegerV 1)).val = .ok (.IntegerV 0) ∧
    (Div_evalRator (.IntegerV 1) (.IntegerV 0)).val = .error (.RuntimeError "Division by zero") := by
  refine ⟨?_, rfl, rfl⟩
  intro a b ha hb hexact
  constructor
  · rintro ⟨msg, hmsg⟩
    by_contra hz
    obtain ⟨v, hv, -⟩ := Good_Div a b ha hb hz hexact
    rw [hv] at hmsg
    cases hmsg
  · intro hz
    exact ⟨"Division by zero", by rw [Div_zero_divisor a b ha hb hz]; rfl⟩

/-- Witness for the amended C3: `1/2` divided by `0/3` raises, and the divisor denotes zero. -/
theorem Div_evalRator_raises_iff_zero_witness :
    (∃ msg, (Div_evalRator (.RationalV 1 2) (.RationalV 0 3)).val =
      .error (.RuntimeError msg)) ↔ denotesZero (.RationalV 0 3) :=
  Div_evalRator_raises_iff_zero.1 (.RationalV 1 2) (.RationalV 0 3)
    (by simp [numericOperand]) (by simp [numericOperand]) rfl

end Scheme


namespace Scheme

/-! ## The binding loop of `Let::eval` -/

theorem letBind_cons_ok (ev : Expr → Assoc → State → Out Value) (x : String) (rhs : Expr)
    (rest : List (String × Expr)) (penv env : Assoc) (s : State) (v : Value) (env1 : Assoc)
    (s1 : State) (h : ev rhs env s = ⟨.ok v, env1, s1⟩) :
    letBind ev ((x, rhs) :: rest) penv env s =
      letBind ev rest (extend x v penv s1).1 env1 (extend x v penv s1).2 := by
  rw [letBind]
  simp only [h]

theorem letBind_cons_error (ev : Expr → Assoc → State → Out Value) (x : String) (rhs : Expr)
    (rest : List (String × Expr)) (penv env : Assoc) (s : State) (err : Error) (env1 : Assoc)
    (s1 : State) (h : ev rhs env s = ⟨.error err, env1, s1⟩) :
    letBind ev ((x, rhs) :: rest) penv env s = Out.fail err env1 s1 := by
  rw [letBind]
  simp only [h]

/-- The environment in which the body of a `let` runs is the one the loop started from with
one binding per name of the `let` in front, the last name innermost. -/
theorem letBind_names (ev : Expr → Assoc → State → Out Value) :
    ∀ (bind : List (String × Expr)) (penv env : Assoc) (s : State) (penv1 env1 : Assoc)
      (s1 : State), letBind ev bind penv env s = ⟨.ok penv1, env1, s1⟩ →
      ∃ addrs : List Nat, addrs.length = bind.length ∧
        penv1 = ((bind.map Prod.fst).zip addrs).reverse ++ penv
  | [], penv, env, s, penv1, env1, s1, h => by
    rw [letBind] at h
    cases h
    exact ⟨[], rfl, rfl⟩
  | (x, rhs) :: rest, penv, env, s, penv1, env1, s1, h => by
    rcases hev : ev rhs env s with ⟨_ | v, e2, s2⟩
    · rw [letBind_cons_error ev x rhs rest penv env s _ e2 s2 hev] at h
      cases h
    · rw [letBind_cons_ok ev x rhs rest penv env s v e2 s2 hev] at h
      obtain ⟨addrs, hlen, hp⟩ := letBind_names ev rest _ _ _ _ _ _ h
      refine ⟨s2.cells.length :: addrs, by simp [hlen], ?_⟩
      rw [hp]
      simp [extend, List.reverse_cons]

theorem State.withCells_append (s : State) (c d : List Value) :
    (s.withCells c).withCells d = s.withCells (c ++ d) := by
  simp [State.withCells, List.append_assoc]

theorem State.withCells_nil (s : State) : s.withCells [] = s := by
  simp [State.withCells]

/-- With right-hand sides that evaluate to the values `vals` without touching environment
or memory, the loop binds the names to these values exactly as `Apply::eval` binds
parameters to arguments. -/
theorem letBind_pure (ev : Expr → Assoc → State → Out Value) (env : Assoc) (s : State) :
    ∀ (bind : List (String × Expr)) (vals : List Value) (penv : Assoc) (c : List Value),
      List.Forall₂ (fun (b : String × Expr) v =>
        ∀ c, ev b.2 env (s.withCells c) = ⟨.ok v, env, s.withCells c⟩) bind vals →
      letBind ev bind penv env (s.withCells c) =
        ⟨.ok (bindArgs (bind.map Prod.fst) vals penv (s.withCells c)).1, env,
          (bindArgs (bind.map Prod.fst) vals penv (s.withCells c)).2⟩
  | [], [], penv, c, .nil => by
    rw [letBind]
    rfl
  | (x, rhs) :: rest, v :: vals, penv, c, .cons hv hrest => by
    rw [letBind_cons_ok ev x rhs rest penv env (s.withCells c) v env (s.withCells c) (hv c)]
    have e1 : (extend x v penv (s.withCells c)).2 = s.withCells (c ++ [v]) := by
      simp [extend, State.withCells, List.append_assoc]
    have ih := letBind_pure ev env s rest vals (extend x v penv (s.withCells c)).1 (c ++ [v])
      hrest
    rw [e1, ih]
    simp only [List.map_cons, bindArgs, e1]

end Scheme


namespace Scheme

/-! ## C4: a lexically bound head is a generic application -/

/-- C4. For every list form whose head is a symbol `op` bound in the analysis environment,
`List::parse` analyses the remaining elements and returns `Apply(Var(op), operands)` (or
passes on the error of an operand), whatever `op` is in the primitive and reserved-word
tables; and `(let ((+ 10)) (+ 1 2))`, typed at a fresh prompt, does not evaluate to 3 but
raises the RuntimeError "Attempt to apply a non-procedure". -/
theorem parse_bound_head_is_Apply (op : String) (rest : List Syntax) (env : Assoc)
    (s : State) (hb : bound op env s) :
    parse (.List (.SymbolSyntax op :: rest)) env s =
      (match parseSeq rest env s with
        | ⟨.ok parameters, env1, s1⟩ => Out.ok (.Apply (.Var op) parameters) env1 s1
        | ⟨.error e, env1, s1⟩ => Out.fail e env1 s1) ∧
    ∀ (fuel : Nat) (zero : ExprType),
      (replStep (fuel + 3) shadowedPlusForm (ReplState.init zero)).1 =
        .runtimeError "Attempt to apply a non-procedure" := by
  constructor
  · unfold bound at hb
    rw [parse]
    simp only [listHead, hb, Bool.not_false, if_true, parseRest]
    rcases parseSeq rest env s with ⟨_ | _, _, _⟩ <;> rfl
  · intro fuel zero
    rfl

/-- Witness for C4: with `+` bound to a cell holding 10, `(+ 1 2)` is analysed to
`Apply(Var(+), [1, 2])`. -/
theorem parse_bound_head_is_Apply_witness :
    parse (.List [.SymbolSyntax "+", .Number 1, .Number 2]) [("+", 0)]
        { State.init .E_PLUS with cells := [.IntegerV 10] } =
      Out.ok (.Apply (.Var "+") [.Fixnum 1, .Fixnum 2]) [("+", 0)]
        { State.init .E_PLUS with cells := [.IntegerV 10] } :=
  (parse_bound_head_is_Apply "+" [.Number 1, .Number 2] [("+", 0)]
    { State.init .E_PLUS with cells := [.IntegerV 10] } rfl).1

/-! ## C5: closures capture their defining environment -/

theorem eval_Binary_vars (f : Nat) (op : BinaryOp) (x y : String) (env : Assoc) (s : State)
    (hx : validVariableName x = true) (hy : validVariableName y = true)
    (hbx : bound x env s) (hby : bound y env s) :
    eval (f + 2) (.Binary op (.Var x) (.Var y)) env s =
      ⟨(Binary_evalRator op (find x env s) (find y env s) s).1, env,
        (Binary_evalRator op (find x env s) (find y env s) s).2⟩ :=
  eval_Binary_of (f + 1) op (.Var x) (.Var y) env s _ _ _ _ _ _
    (eval_Var_bound f x env s hx hbx) (eval_Var_bound f y env s hy hby)

/-- C5. For all integer literals `a` and `b` whose sum fits in 32 bits, starting from the
empty environment and following the driver's deferred-define protocol, the form
`(define (make-adder n) (lambda (x) (+ x n)))` is deferred and the next form
`((make-adder a) b)` evaluates to `Integer (a + b)`. -/
theorem make_adder_adds (a b : Int) (hab : fits32 (a + b) = true) (fuel : Nat)
    (zero : ExprType) :
    (replStep (fuel + 4) makeAdderDefine (ReplState.init zero)).1 = .deferred ∧
    (replStep (fuel + 4) (makeAdderCall a b)
        (replStep (fuel + 4) makeAdderDefine (ReplState.init zero)).2).1 =
      .value (.IntegerV (a + b)) := by
  refine ⟨rfl, ?_⟩
  have hba : fits32 (b + a) = true := by rw [add_comm]; exact hab
  -- the global environment and the memory once the deferred define has been flushed
  let env2 : Assoc := [("make-adder", 3), ("n", 1), ("make-adder", 0)]
  let adder : Value :=
    .ProcedureV ["n"] (.Lambda ["x"] (.Binary .Plus (.Var "x") (.Var "n"))) env2
  refine (replStep_flush (fuel + 4) (makeAdderCall a b)
    (replStep (fuel + 4) makeAdderDefine (ReplState.init zero)).2
    (.Apply (.Apply (.Var "make-adder") [.Fixnum a]) [.Fixnum b])
    [("n", 1), ("make-adder", 0)] env2
    (cellsOnly zero [.VoidV, .VoidV, .VoidV])
    (cellsOnly zero [.VoidV, .VoidV, .VoidV, adder]) _ _
    rfl rfl (by intro _ _ h; cases h) rfl).trans ?_
  -- `(make-adder a)` returns the inner closure, whose environment binds `n` to `a`
  refine (congrArg replEvent (eval_Apply_res (fuel + 3)
    (.Apply (.Var "make-adder") [.Fixnum a]) [.Fixnum b] env2
    (cellsOnly zero [.VoidV, .VoidV, .VoidV, adder]) ["x"]
    (.Binary .Plus (.Var "x") (.Var "n")) (("n", 4) :: env2) [.IntegerV b] env2 env2
    (cellsOnly zero [.VoidV, .VoidV, .VoidV, adder, .IntegerV a])
    (cellsOnly zero [.VoidV, .VoidV, .VoidV, adder, .IntegerV a]) rfl rfl rfl)).trans ?_
  refine (congrArg replEvent (congrArg Out.res (eval_Binary_vars (fuel + 1) .Plus "x" "n"
    (("x", 5) :: ("n", 4) :: env2)
    (cellsOnly zero [.VoidV, .VoidV, .VoidV, adder, .IntegerV a, .IntegerV b])
    rfl rfl rfl rfl))).trans ?_
  show replEvent (Plus_evalRator (.IntegerV b) (.IntegerV a)).val = _
  rw [Plus_int_int_val b a hba, add_comm]
  rfl

/-- Witness for C5: `((make-adder 5) 3)` is 8. -/
theorem make_adder_adds_witness :
    (replStep 4 (makeAdderCall 5 3)
        (replStep 4 makeAdderDefine (ReplState.init .E_PLUS)).2).1 = .value (.IntegerV 8) :=
  (make_adder_adds 5 3 rfl 0 .E_PLUS).2

/-! ## C6: `set!` after capture is seen by the closure -/

/-- C6. For all integer literals `v0` and `v1`, the form
`(let ((x v0)) (let ((f (lambda () x))) (begin (set! x v1) (f))))`, typed at a fresh prompt,
analyses and evaluates to `Integer v1`: the closure sees the later `set!`. -/
theorem set_after_capture_visible (v0 v1 : Int) (fuel : Nat) (zero : ExprType) :
    (replStep (fuel + 5) (setAfterCaptureForm v0 v1) (ReplState.init zero)).1 =
      .value (.IntegerV v1) := rfl

/-! ## C7: mutual recursion through `letrec` -/

/-- C7. For every natural number `n` that is an `int` literal, and every recursion budget
of at least `2 * n + 5` nested `eval` calls, the form
`(letrec ((even? ...) (odd? ...)) (even? n))` typed at a fresh prompt evaluates to the
Boolean that is `#t` exactly when `n` is even, and the same form ending in `(odd? n)`
evaluates to the Boolean that is `#t` exactly when `n` is odd. -/
theorem even_odd_letrec (n : Nat) (hn : (n : Int) ≤ 2147483647) (zero : ExprType)
    (fuel : Nat) (hfuel : 2 * n + 5 ≤ fuel) :
    (replStep fuel (evenOddForm "even?" n) (ReplState.init zero)).1 =
        .value (.BooleanV (decide (n % 2 = 0))) ∧
      (replStep fuel (evenOddForm "odd?" n) (ReplState.init zero)).1 =
        .value (.BooleanV (decide (n % 2 = 1))) := by
  obtain ⟨g, rfl⟩ : ∃ g, fuel = (g + 2 * n + 2) + 3 := ⟨fuel - (2 * n + 5), by omega⟩
  have hinv : parityInv (cellsOnly zero
      [.VoidV, .VoidV, .VoidV, .VoidV, evenClosure, oddClosure, .IntegerV (n : Int)]) :=
    ⟨Nat.le_succ 6, rfl, rfl⟩
  obtain ⟨hE, hO⟩ := parity_rec n hn g 6 _ hinv rfl
  constructor
  · rw [evenOdd_run "even?" rfl evenClosure (parityBody .True "odd?") rfl n _ zero rfl rfl, hE]
    rfl
  · rw [evenOdd_run "odd?" rfl oddClosure (parityBody .False "even?") rfl n _ zero rfl rfl, hO]
    rfl

/-- Witness for C7: `(even? 10)` and `(odd? 7)` are `#t`. -/
theorem even_odd_letrec_witness :
    (replStep 25 (evenOddForm "even?" 10) (ReplState.init .E_PLUS)).1 =
        .value (.BooleanV true) ∧
      (replStep 19 (evenOddForm "odd?" 7) (ReplState.init .E_PLUS)).1 =
        .value (.BooleanV true) :=
  ⟨(even_odd_letrec 10 (by decide) .E_PLUS 25 (by decide)).1,
    (even_odd_letrec 7 (by decide) .E_PLUS 19 (by decide)).2⟩

/-! ## C8: application binds the parameters in the captured environment -/

/-- C8. When the operator of an `Apply` evaluates to a procedure with parameters `p1..pk`
and body `body`, captured environment `clos_env`, and exactly `k` argument values are
supplied, the result is the result of `body` evaluated in `clos_env` extended, in order,
by one binding per parameter: the i-th new binding is `pi`, its cell is the i-th newly
allocated one and holds the i-th argument value. Any other name resolves in the extended
environment as it does in the captured one, so the caller's environment plays no role
(lexical scoping). -/
theorem Apply_binds_parameters_in_captured_env (f : Nat) (rator : Expr) (rand : List Expr)
    (env : Assoc) (s : State) (parameters : List String) (body : Expr) (clos_env : Assoc)
    (args : List Value) (env1 env2 : Assoc) (s1 s2 : State)
    (h1 : eval f rator env s = ⟨.ok (.ProcedureV parameters body clos_env), env1, s1⟩)
    (h2 : evalSeq (eval f) rand env1 s1 = ⟨.ok args, env2, s2⟩)
    (hlen : args.length = parameters.length) :
    (eval (f + 1) (.Apply rator rand) env s).res =
        (eval f body (bindArgs parameters args clos_env s2).1
          (bindArgs parameters args clos_env s2).2).res ∧
      (bindArgs parameters args clos_env s2).1 =
        (parameters.zip (List.range' s2.cells.length parameters.length)).reverse ++ clos_env ∧
      (bindArgs parameters args clos_env s2).2.cells = s2.cells ++ args ∧
      ∀ y, y ∉ parameters → (∀ p ∈ clos_env, p.2 < s2.cells.length) →
        find y (bindArgs parameters args clos_env s2).1 (bindArgs parameters args clos_env s2).2 =
          find y clos_env s2 := by
  obtain ⟨hst, henv⟩ := bindArgs_cells parameters args clos_env s2 hlen.symm
  refine ⟨eval_Apply_res f rator rand env s parameters body clos_env args env1 env2 s1 s2 h1 h2
    hlen, henv, ?_, ?_⟩
  · rw [hst]
  · intro y hy hwf
    exact find_bindArgs_other y parameters args clos_env s2 hlen.symm hy hwf

/-- Witness for C8: `((lambda (x) x) 7)` evaluates its body with `x` bound to 7. -/
theorem Apply_binds_parameters_in_captured_env_witness :
    (eval 2 (.Apply (.Lambda ["x"] (.Var "x")) [.Fixnum 7]) [] (State.init .E_PLUS)).res =
      .ok (.IntegerV 7) :=
  (Apply_binds_parameters_in_captured_env 1 (.Lambda ["x"] (.Var "x")) [.Fixnum 7] []
    (State.init .E_PLUS) ["x"] (.Var "x") [] [.IntegerV 7] [] [] (State.init .E_PLUS)
    (State.init .E_PLUS) rfl rfl rfl).1.trans rfl

/-! ## C9 and C10: arity mismatch and unbound variables -/

/-- C9 (the code at the failing input). `((lambda (x) (+ x 1)) 1 2)` applies a one-parameter
lambda to two arguments; `Apply::eval` finds the sizes different, finds that the body is a
`Binary` node and calls `Plus::evalRator(1, 2)`: the form evaluates to 3 and no
`RuntimeError` is raised. -/
theorem arity_mismatch_calls_body_operator (fuel : Nat) (zero : ExprType) :
    (replStep (fuel + 2) arityMismatchForm (ReplState.init zero)).1 = .value (.IntegerV 3) :=
  rfl

/-- C10 (the code at the failing input). `foo` is a valid variable name, unbound in the
empty environment and in neither table; `Var::eval` raises nothing and returns the null
handle, and at the prompt the driver then reads through that handle. -/
theorem unbound_variable_returns_null (fuel : Nat) (zero : ExprType) :
    validVariableName "foo" = true ∧
      primitives_init.lookup "foo" = none ∧ reserved_words.lookup "foo" = none ∧
      Var_eval "foo" empty (State.init zero) = (.ok .nullptr, State.init zero) ∧
      (replStep (fuel + 1) (sym "foo") (ReplState.init zero)).1 = .abort nullDeref :=
  ⟨rfl, rfl, rfl, rfl, rfl⟩

end Scheme


namespace Scheme

/-! ## Number-like tokens -/

theorem isDigit_ne_sign {c : Char} (h : c.isDigit = true) : c ≠ '+' ∧ c ≠ '-' := by
  constructor <;> rintro rfl <;> exact absurd h (by decide)

theorem try_parse_loop_digits : ∀ (cs : List Char) (i : Nat),
    (∀ c ∈ cs, c.isDigit = true) → try_parse_loop i cs = true
  | [], _, _ => rfl
  | c :: cs, i, h => by
    have ih := try_parse_loop_digits cs (i + 1) (fun d hd => h d (List.mem_cons_of_mem _ hd))
    unfold try_parse_loop
    split
    · exact ih
    · rw [if_pos (h c (List.mem_cons_self _ _))]
      exact ih

/-! ## Positions read by `Syntaxtransit` -/

theorem sizeMinus_of_le {size k : Nat} (hk : k ≤ size) (hs : size < 18446744073709551616) :
    sizeMinus size k = size - k := by
  unfold sizeMinus
  omega

theorem sizeMinus_one_one : sizeMinus 1 1 = 0 := by
  unfold sizeMinus
  omega

theorem sizeMinus_one_two : sizeMinus 1 2 = 18446744073709551615 := by
  unfold sizeMinus
  omega

theorem transitReads_single (x : Syntax) (hx : isListSyntax x = false) :
    transitReads [x] = [sizeMinus 1 1, sizeMinus 1 2] := by
  have h0 : [x].get? (sizeMinus 1 1) = some x := by
    rw [sizeMinus_one_one]
    rfl
  have hnone : [x].get? (sizeMinus 1 2) = none := by
    rw [List.get?_eq_none, sizeMinus_one_two]
    exact Nat.le_of_ble_eq_true rfl
  unfold transitReads
  rw [List.length_singleton, h0, hnone]
  cases x with
  | List l => cases hx
  | _ => rfl

theorem transitReads_single_list (l : List Syntax) : transitReads [Syntax.List l] = [0] := by
  have h0 : [Syntax.List l].get? (sizeMinus 1 1) = some (Syntax.List l) := by
    rw [sizeMinus_one_one]
    rfl
  unfold transitReads
  rw [List.length_singleton, h0, sizeMinus_one_one]
  rfl

theorem mem_downFrom {first : Int} {i : Nat} (h : i ∈ downFrom first) : (i : Int) ≤ first := by
  unfold downFrom at h
  rw [List.mem_reverse, List.mem_range] at h
  omega

end Scheme


namespace Scheme

/-! ## C11: names of the primitive table as variables -/

/-- C11 (the code at the failing input). `car`, `cons`, `<` and `list` are names of the
primitive table, unbound in the empty environment; the table `primitive_map` of `Var::eval`
has no entry for their enumerators, so `Var::eval` returns the null handle and no
`Procedure`; typed at the prompt, `car` makes the driver read through the null handle. -/
theorem Var_eval_car_returns_null (fuel : Nat) (zero : ExprType) :
    primitives_init.lookup "car" = some .E_CAR ∧
      Var_eval "car" empty (State.init zero) = (.ok .nullptr, State.init zero) ∧
      Var_eval "cons" empty (State.init zero) = (.ok .nullptr, State.init zero) ∧
      Var_eval "<" empty (State.init zero) = (.ok .nullptr, State.init zero) ∧
      Var_eval "list" empty (State.init zero) = (.ok .nullptr, State.init zero) ∧
      (replStep (fuel + 1) (sym "car") (ReplState.init zero)).1 = .abort nullDeref :=
  ⟨rfl, rfl, rfl, rfl, rfl, rfl⟩

/-! ## C12-C14: quoted data -/

/-- C12 (the code at the failing input). `(quote (1 (2 3)))` evaluates to a value with the
structure of the three-element list `(1 2 3)`: the last element, being a list, is used as
the tail of the chain instead of being its last car. It does not have the structure of the
two-element list `(1 (2 3))`. -/
theorem quote_last_list_is_spliced (fuel : Nat) (zero : ExprType) :
    (replStep (fuel + 1) quoteNestedForm (ReplState.init zero)).1 = .value (.PairV 2) ∧
      reads (replStep (fuel + 1) quoteNestedForm (ReplState.init zero)).2.st (.PairV 2)
        (Datum.list [.int 1, .int 2, .int 3]) = true ∧
      reads (replStep (fuel + 1) quoteNestedForm (ReplState.init zero)).2.st (.PairV 2)
        (Datum.list [.int 1, Datum.list [.int 2, .int 3]]) = false :=
  ⟨rfl, rfl, rfl⟩

/-- C13. For every list syntax `[s1, ..., sn, ., t]` in which no `si` is the `.` marker,
when the conversion of each `si` yields the structure `di` and the conversion of `t` yields
`dt`, the conversion of the list yields `Pair(d1, ... Pair(dn, dt))`: from every memory it
returns a value of that structure, whose chain ends in the converted `t` itself, not
followed by `Null`. -/
theorem Syntaxtransit_dotted (ss : List Syntax) (ds : List Datum) (t : Syntax) (dt : Datum)
    (hs : List.Forall₂ Converts ss ds) (ht : Converts t dt)
    (hdots : ∀ x ∈ ss, isDotMarker x = false) :
    Converts (.List (ss ++ [dot, t])) (ds.foldr Datum.pair dt) := by
  obtain ⟨y, z, rest, hshape⟩ := append_two_shape ss dot t
  have h := transitChain_dotted t dt ht ss ds hs hdots
  unfold Converts
  rw [hshape, Syntaxtransit_List_fun, ← hshape]
  exact h

/-- Witness for C13: `(quote (1 . 2))` is `Pair(1, 2)` and `(quote (1 2 . 3))` is
`Pair(1, Pair(2, 3))`. -/
theorem Syntaxtransit_dotted_witness :
    Converts (.List [.Number 1, dot, .Number 2]) (.pair (.int 1) (.int 2)) ∧
      Converts (.List [.Number 1, .Number 2, dot, .Number 3])
        (.pair (.int 1) (.pair (.int 2) (.int 3))) :=
  ⟨Syntaxtransit_dotted [.Number 1] [.int 1] (.Number 2) (.int 2)
      (.cons (fun st => ⟨_, st, rfl, rfl, st.grown_refl⟩) .nil)
      (fun st => ⟨_, st, rfl, rfl, st.grown_refl⟩) (by simp [isDotMarker]),
    Syntaxtransit_dotted [.Number 1, .Number 2] [.int 1, .int 2] (.Number 3) (.int 3)
      (.cons (fun st => ⟨_, st, rfl, rfl, st.grown_refl⟩)
        (.cons (fun st => ⟨_, st, rfl, rfl, st.grown_refl⟩) .nil))
      (fun st => ⟨_, st, rfl, rfl, st.grown_refl⟩) (by simp [isDotMarker])⟩

/-- Evaluating a `Quote` node that returns a value depends neither on the environment nor on
the memory: an evaluation in any other environment and memory returns a value too, and the
two values have one and the same structure; each evaluation leaves its environment handle
as it was and the memory as it was but for the pair cells it has allocated (no environment
cell changes). -/
theorem Quote_eval_deterministic (s : Syntax) (f1 f2 : Nat) (env1 env2 : Assoc)
    (st1 st2 : State) (v1 : Value)
    (h1 : (eval (f1 + 1) (.Quote s) env1 st1).res = .ok v1) :
    ∃ v2 d, (eval (f2 + 1) (.Quote s) env2 st2).res = .ok v2 ∧
      reads (eval (f1 + 1) (.Quote s) env1 st1).st v1 d = true ∧
      reads (eval (f2 + 1) (.Quote s) env2 st2).st v2 d = true ∧
      (eval (f1 + 1) (.Quote s) env1 st1).env = env1 ∧
      (eval (f2 + 1) (.Quote s) env2 st2).env = env2 ∧
      st1.grown (eval (f1 + 1) (.Quote s) env1 st1).st ∧
      st2.grown (eval (f2 + 1) (.Quote s) env2 st2).st := by
  have e1 : eval (f1 + 1) (.Quote s) env1 st1 =
      ⟨(Syntaxtransit s st1).1, env1, (Syntaxtransit s st1).2⟩ := rfl
  have e2 : eval (f2 + 1) (.Quote s) env2 st2 =
      ⟨(Syntaxtransit s st2).1, env2, (Syntaxtransit s st2).2⟩ := rfl
  rw [e1] at h1
  rw [e1, e2]
  change (Syntaxtransit s st1).1 = .ok v1 at h1
  rcases Syntaxtransit_decided (sizeOf s) s (Nat.le_refl _) with ⟨d, hd⟩ | ⟨e, he⟩
  · obtain ⟨w1, t1, hw1, r1, g1⟩ := hd st1
    obtain ⟨w2, t2, hw2, r2, g2⟩ := hd st2
    rw [hw1] at h1
    cases h1
    refine ⟨w2, d, ?_, ?_, ?_, rfl, rfl, ?_, ?_⟩
    · show (Syntaxtransit s st2).1 = .ok w2
      rw [hw2]
    · show reads (Syntaxtransit s st1).2 v1 d = true
      rw [hw1]
      exact r1
    · show reads (Syntaxtransit s st2).2 w2 d = true
      rw [hw2]
      exact r2
    · show st1.grown (Syntaxtransit s st1).2
      rw [hw1]
      exact g1
    · show st2.grown (Syntaxtransit s st2).2
      rw [hw2]
      exact g2
  · rw [he st1] at h1
    cases h1

/-- An instance: `(quote (1 2))`, evaluated in the empty environment and in an environment
that binds `x`, gives two values with the structure of the list `(1 2)`. -/
theorem Quote_eval_deterministic_witness :
    ∃ v2 d, (eval 1 (.Quote (.List [.Number 1, .Number 2])) [("x", 0)]
        { State.init .E_PLUS with cells := [.IntegerV 7] }).res = .ok v2 ∧
      reads (eval 1 (.Quote (.List [.Number 1, .Number 2])) [] (State.init .E_PLUS)).st
        (.PairV 1) d = true ∧
      reads (eval 1 (.Quote (.List [.Number 1, .Number 2])) [("x", 0)]
        { State.init .E_PLUS with cells := [.IntegerV 7] }).st v2 d = true :=
  have h := Quote_eval_deterministic (.List [.Number 1, .Number 2]) 0 0 [] [("x", 0)]
    (State.init .E_PLUS) { State.init .E_PLUS with cells := [.IntegerV 7] } (.PairV 1) rfl
  ⟨h.choose, h.choose_spec.choose, h.choose_spec.choose_spec.1,
    h.choose_spec.choose_spec.2.1, h.choose_spec.choose_spec.2.2.1⟩

end Scheme


namespace Scheme

/-! ## Variable-arity comparisons -/

theorem IS_DIGIT_numeric {v : Value} (hv : numericOperand v) :
    IS_DIGIT v = (pure true : Arith Bool) := by
  cases v <;> first | rfl | cases hv

theorem allDigits_numeric : ∀ (args : List Value), (∀ a ∈ args, numericOperand a) →
    allDigits args = (pure true : Arith Bool)
  | [], _ => rfl
  | v :: vs, h => by
    unfold allDigits
    rw [IS_DIGIT_numeric (h v (List.mem_cons_self _ _)), Arith.pure_bind]
    simp only [if_true]
    exact allDigits_numeric vs (fun a ha => h a (List.mem_cons_of_mem _ ha))

/-- The loop of a variadic comparison decides the chain of its relation, when the test `bad`
on the three-way result is the negation of the relation and the cross products are exact. -/
theorem compareVar_loop_val (bad : Int → Bool) (R : ℚ → ℚ → Prop)
    (hbad : ∀ (x y : ℚ) (c : Int), (c = -1 ↔ x < y) → (c = 0 ↔ x = y) → (c = 1 ↔ x > y) →
      (bad c = false ↔ R x y)) :
    ∀ (rest : List Value) (prev : Value), numericOperand prev →
      (∀ a ∈ rest, numericOperand a) →
      List.Chain (fun a b => (compareNumericValues a b).exact = true) prev rest →
      ∃ r, (compareVar_loop bad prev rest).val = .ok r ∧
        (r = true ↔ List.Chain (fun a b => R (denote a) (denote b)) prev rest)
  | [], _, _, _, _ => ⟨true, rfl, by simp⟩
  | v :: rest, prev, hp, hr, hch => by
    rw [List.chain_cons] at hch
    have hv := hr v (List.mem_cons_self _ _)
    obtain ⟨c, hc, h1, h2, h3⟩ := Good_compareNumericValues prev v hp hv hch.1
    have hb := hbad (denote prev) (denote v) c h1 h2 h3
    obtain ⟨r, hr1, hr2⟩ := compareVar_loop_val bad R hbad rest v hv
      (fun a ha => hr a (List.mem_cons_of_mem _ ha)) hch.2
    unfold compareVar_loop
    rw [Arith.bind_val, hc]
    dsimp only
    cases hbc : bad c
    · simp only [Bool.false_eq_true, if_false]
      refine ⟨r, hr1, ?_⟩
      rw [List.chain_cons, hr2]
      exact ⟨fun h => ⟨hb.mp hbc, h⟩, fun h => h.2⟩
    · simp only [if_true]
      refine ⟨false, rfl, ?_⟩
      rw [List.chain_cons]
      constructor
      · intro h
        cases h
      · intro h
        have := hb.mpr h.1
        rw [hbc] at this
        cases this

/-- A variadic comparison node on numeric arguments with exact cross products. -/
theorem compareVar_evalRator_val (bad : Int → Bool) (R : ℚ → ℚ → Prop)
    (hbad : ∀ (x y : ℚ) (c : Int), (c = -1 ↔ x < y) → (c = 0 ↔ x = y) → (c = 1 ↔ x > y) →
      (bad c = false ↔ R x y))
    (args : List Value) (hne : args ≠ []) (hnum : ∀ a ∈ args, numericOperand a)
    (hexact : List.Chain' (fun a b => (compareNumericValues a b).exact = true) args) :
    ∃ r, (compareVar_evalRator bad args).val = .ok (.BooleanV r) ∧
      (r = true ↔ List.Chain' (fun a b => R (denote a) (denote b)) args) := by
  cases args with
  | nil => exact absurd rfl hne
  | cons a0 rest =>
    obtain ⟨r, hr1, hr2⟩ := compareVar_loop_val bad R hbad rest a0
      (hnum a0 (List.mem_cons_self _ _)) (fun a ha => hnum a (List.mem_cons_of_mem _ ha))
      hexact
    refine ⟨r, ?_, hr2⟩
    unfold compareVar_evalRator
    dsimp only
    rw [allDigits_numeric _ hnum, Arith.pure_bind]
    simp only [if_true]
    rw [Arith.bind_val, hr1]
    rfl

/-- On two operands a variadic comparison node and the binary node with the complementary
test agree, whatever the operands are. -/
theorem compareVar_pair (bad test : Int → Bool) (h : ∀ c, test c = !bad c) (a b : Value) :
    (compareVar_evalRator bad [a, b]).val = (compare_evalRator test a b).val := by
  have key : ∀ x : Arith Int,
      ((x >>= fun c => if bad c = true then (pure false : Arith Bool)
          else compareVar_loop bad b []) >>= fun r => (pure (Value.BooleanV r) : Arith Value)).val
        = (x >>= fun c => (pure (Value.BooleanV (test c)) : Arith Value)).val := by
    intro x
    rw [Arith.bind_val, Arith.bind_val, Arith.bind_val]
    cases x.val with
    | error e => rfl
    | ok c =>
      simp only [h c]
      cases bad c <;> rfl
  cases a with
  | IntegerV n =>
    cases b with
    | IntegerV m => exact key _
    | RationalV m e => exact key _
    | _ => rfl
  | RationalV n d =>
    cases b with
    | IntegerV m => exact key _
    | RationalV m e => exact key _
    | _ => rfl
  | _ => rfl

end Scheme


namespace Scheme

/-! ## C15 and C16: `if` and `cond` -/

/-- C15. For every `If` node whose condition evaluates to a value `c` without changing the
environment handle or the memory: when `c` is Boolean false, evaluating the node is
evaluating the alternative, from the same environment and memory, and nothing else; for
every other value `c` (Boolean true, or any non-Boolean value such as `Integer 0` or
`Null`) it is evaluating the consequent and nothing else. -/
theorem If_eval_selects (f : Nat) (cond conseq alter : Expr) (env : Assoc) (s : State)
    (c : Value) (hc : eval f cond env s = ⟨.ok c, env, s⟩) (hval : c ≠ .nullptr) :
    eval (f + 1) (.If cond conseq alter) env s =
      (match c with
        | .BooleanV false => eval f alter env s
        | _ => eval f conseq env s) := by
  cases c with
  | nullptr => exact absurd rfl hval
  | BooleanV b =>
    simp only [eval, hc]
    cases b <;> rfl
  | _ => simp only [eval, hc]

/-- Witness for C15: `(if 0 1 2)` is 1, `(if #f 1 2)` is 2 and `(if (quote ()) 1 2)` is 1. -/
theorem If_eval_selects_witness :
    eval 2 (.If (.Fixnum 0) (.Fixnum 1) (.Fixnum 2)) [] (State.init .E_PLUS) =
        Out.ok (.IntegerV 1) [] (State.init .E_PLUS) ∧
      eval 2 (.If .False (.Fixnum 1) (.Fixnum 2)) [] (State.init .E_PLUS) =
        Out.ok (.IntegerV 2) [] (State.init .E_PLUS) ∧
      eval 2 (.If (.Quote (.List [])) (.Fixnum 1) (.Fixnum 2)) [] (State.init .E_PLUS) =
        Out.ok (.IntegerV 1) [] (State.init .E_PLUS) :=
  ⟨If_eval_selects 1 (.Fixnum 0) (.Fixnum 1) (.Fixnum 2) [] (State.init .E_PLUS)
      (.IntegerV 0) rfl (by simp),
    If_eval_selects 1 .False (.Fixnum 1) (.Fixnum 2) [] (State.init .E_PLUS)
      (.BooleanV false) rfl (by simp),
    If_eval_selects 1 (.Quote (.List [])) (.Fixnum 1) (.Fixnum 2) [] (State.init .E_PLUS)
      .NullV rfl (by simp)⟩

/-- C16 (the code at the failing input). In `(let ((x 0)) (cond (#t (set! x 5) x)))` the
selected clause has the body forms `(set! x 5)` and `x`. `Cond::eval` does not evaluate
the non-final body form: its loop evaluates the test again instead, and the form
evaluates to 0. The same body under `begin` evaluates to 5. -/
theorem cond_skips_body_forms (fuel : Nat) (zero : ExprType) :
    (replStep (fuel + 4) condBodyForm (ReplState.init zero)).1 = .value (.IntegerV 0) ∧
      (replStep (fuel + 4) beginBodyForm (ReplState.init zero)).1 = .value (.IntegerV 5) :=
  ⟨rfl, rfl⟩

end Scheme


namespace Scheme

/-! ## What analysis does to the environment handle -/

theorem EnvKept.same (free : Prop) (env : Assoc) : EnvKept free env env :=
  ⟨⟨[], rfl⟩, fun _ => rfl⟩

theorem EnvKept.step {free : Prop} {env env1 env2 : Assoc} (h1 : EnvKept free env env1)
    (h2 : EnvKept free env1 env2) : EnvKept free env env2 := by
  obtain ⟨⟨e1, rfl⟩, f1⟩ := h1
  obtain ⟨⟨e2, rfl⟩, f2⟩ := h2
  refine ⟨⟨e2 ++ e1, (List.append_assoc _ _ _).symm⟩, fun hf => ?_⟩
  rw [f2 hf, f1 hf]

theorem EnvKept.of_imp {free free1 : Prop} {env env1 : Assoc} (h : EnvKept free env env1)
    (himp : free1 → free) : EnvKept free1 env env1 :=
  ⟨h.1, fun hf => h.2 (himp hf)⟩

theorem defineFreeList_cons (x : Syntax) (xs : List Syntax) :
    defineFreeList (x :: xs) = true ↔ defineFree x = true ∧ defineFreeList xs = true := by
  rw [defineFreeList, Bool.and_eq_true]

theorem parseSeq_keeps (N : Nat) (ih : ParseKeeps N) : ∀ (stxs : List Syntax),
    sizeOf stxs < N → ∀ (env : Assoc) (s : State),
    EnvKept (defineFreeList stxs = true) env (parseSeq stxs env s).env
  | [], _, env, s => by
    rw [parseSeq]
    exact EnvKept.same _ _
  | stx :: rest, hN, env, s => by
    have hs : sizeOf stx < N := by
      simp only [List.cons.sizeOf_spec] at hN
      omega
    have hr : sizeOf rest < N := by
      simp only [List.cons.sizeOf_spec] at hN
      omega
    have h1 := (ih stx hs env s).of_imp (fun h => ((defineFreeList_cons stx rest).mp h).1)
    rw [parseSeq]
    split
    · rename_i e env1 s1 heq
      rw [heq] at h1
      exact h1
    · rename_i e env1 s1 heq
      rw [heq] at h1
      have h2 := (parseSeq_keeps N ih rest hr env1 s1).of_imp
        (fun h => ((defineFreeList_cons stx rest).mp h).2)
      split
      · rename_i err env2 s2 heq2
        rw [heq2] at h2
        exact h1.step h2
      · rename_i es env2 s2 heq2
        rw [heq2] at h2
        exact h1.step h2

theorem parseRest_keeps (N : Nat) (ih : ParseKeeps N) (stxs : List Syntax)
    (hN : sizeOf stxs < N) (env : Assoc) (s : State) :
    EnvKept (defineFreeList stxs = true) env (parseRest stxs env s).env := by
  cases stxs with
  | nil =>
    rw [parseRest]
    exact EnvKept.same _ _
  | cons x rest =>
    rw [parseRest]
    have hr : sizeOf rest < N := by
      simp only [List.cons.sizeOf_spec] at hN
      omega
    exact (parseSeq_keeps N ih rest hr env s).of_imp
      (fun h => ((defineFreeList_cons x rest).mp h).2)

theorem parseApplication_keeps (N : Nat) (ih : ParseKeeps N) (stxs : List Syntax)
    (hN : sizeOf stxs < N) (env : Assoc) (s : State) :
    EnvKept (defineFreeList stxs = true) env (parseApplication stxs env s).env := by
  cases stxs with
  | nil =>
    rw [parseApplication]
    exact EnvKept.same _ _
  | cons x rest =>
    have hx : sizeOf x < N := by
      simp only [List.cons.sizeOf_spec] at hN
      omega
    have hr : sizeOf rest < N := by
      simp only [List.cons.sizeOf_spec] at hN
      omega
    have h1 := (ih x hx env s).of_imp (fun h => ((defineFreeList_cons x rest).mp h).1)
    rw [parseApplication]
    split
    · rename_i e env1 s1 heq
      rw [heq] at h1
      exact h1
    · rename_i e env1 s1 heq
      rw [heq] at h1
      have h2 := (parseSeq_keeps N ih rest hr env1 s1).of_imp
        (fun h => ((defineFreeList_cons x rest).mp h).2)
      split
      · rename_i err env2 s2 heq2
        rw [heq2] at h2
        exact h1.step h2
      · rename_i es env2 s2 heq2
        rw [heq2] at h2
        exact h1.step h2

theorem parseQuote_keeps (free : Prop) (stxs : List Syntax) (env : Assoc) (s : State) :
    EnvKept free env (parseQuote stxs env s).env := by
  unfold parseQuote
  split <;> exact EnvKept.same _ _

theorem parseIf_keeps (N : Nat) (ih : ParseKeeps N) (stxs : List Syntax)
    (hN : sizeOf stxs < N) (env : Assoc) (s : State) :
    EnvKept (defineFreeList stxs = true) env (parseIf stxs env s).env := by
  unfold parseIf
  split
  · rename_i h a b c
    simp only [List.cons.sizeOf_spec] at hN
    have h1 := (ih a (by omega) env s).of_imp (fun hf : defineFreeList [h, a, b, c] = true => by
      simp only [defineFreeList_cons] at hf
      exact hf.2.1)
    split
    · rename_i e env1 s1 heq
      rw [heq] at h1
      exact h1
    · rename_i ea env1 s1 heq
      rw [heq] at h1
      have h2 := (ih b (by omega) env1 s1).of_imp
        (fun hf : defineFreeList [h, a, b, c] = true => by
          simp only [defineFreeList_cons] at hf
          exact hf.2.2.1)
      split
      · rename_i e env2 s2 heq2
        rw [heq2] at h2
        exact h1.step h2
      · rename_i eb env2 s2 heq2
        rw [heq2] at h2
        have h3 := (ih c (by omega) env2 s2).of_imp
          (fun hf : defineFreeList [h, a, b, c] = true => by
            simp only [defineFreeList_cons] at hf
            exact hf.2.2.2.1)
        split
        · rename_i e env3 s3 heq3
          rw [heq3] at h3
          exact (h1.step h2).step h3
        · rename_i ec env3 s3 heq3
          rw [heq3] at h3
          exact (h1.step h2).step h3
  · exact EnvKept.same _ _

theorem parseSet_keeps (N : Nat) (ih : ParseKeeps N) (stxs : List Syntax)
    (hN : sizeOf stxs < N) (env : Assoc) (s : State) :
    EnvKept (defineFreeList stxs = true) env (parseSet stxs env s).env := by
  unfold parseSet
  split
  · rename_i h name e
    simp only [List.cons.sizeOf_spec] at hN
    have h1 := (ih e (by omega) env s).of_imp
      (fun hf : defineFreeList [h, .SymbolSyntax name, e] = true => by
        simp only [defineFreeList_cons] at hf
        exact hf.2.2.1)
    split
    · split
      · rename_i err env1 s1 heq
        rw [heq] at h1
        exact h1
      · rename_i ex env1 s1 heq
        rw [heq] at h1
        exact h1
    · exact EnvKept.same _ _
  · exact EnvKept.same _ _
  · exact EnvKept.same _ _

theorem parseLambda_keeps (free : Prop) (stxs : List Syntax) (env : Assoc) (s : State) :
    EnvKept free env (parseLambda stxs env s).env := by
  unfold parseLambda
  repeat' split
  all_goals exact EnvKept.same _ _

theorem parseLetrec_keeps (free : Prop) (stxs : List Syntax) (env : Assoc) (s : State) :
    EnvKept free env (parseLetrec stxs env s).env := by
  unfold parseLetrec
  repeat' split
  all_goals exact EnvKept.same _ _

theorem clause_keeps {free : Prop} {env : Assoc} (o : Out Expr) (body rest : List Syntax)
    (h1 : EnvKept free env o.env)
    (hbody : ∀ env1 s1, EnvKept free env1 (parseSeq body env1 s1).env)
    (hrest : ∀ env1 s1, EnvKept free env1 (parseClauses rest env1 s1).env) :
    EnvKept free env
      (match o with
        | ⟨.error e, env1, s1⟩ => Out.fail e env1 s1
        | ⟨.ok t, env1, s1⟩ =>
          match parseSeq body env1 s1 with
          | ⟨.error e, env2, s2⟩ => Out.fail e env2 s2
          | ⟨.ok tep, env2, s2⟩ =>
            match parseClauses rest env2 s2 with
            | ⟨.error e, env3, s3⟩ => Out.fail e env3 s3
            | ⟨.ok temp, env3, s3⟩ =>
              (Out.ok ((t :: tep) :: temp) env3 s3 : Out (List (List Expr)))).env := by
  split
  · exact h1
  · rename_i t env1 s1
    have h2 := hbody env1 s1
    split
    · rename_i e env2 s2 heq2
      rw [heq2] at h2
      exact h1.step h2
    · rename_i tep env2 s2 heq2
      rw [heq2] at h2
      have h3 := hrest env2 s2
      split
      · rename_i e env3 s3 heq3
        rw [heq3] at h3
        exact (h1.step h2).step h3
      · rename_i temp env3 s3 heq3
        rw [heq3] at h3
        exact (h1.step h2).step h3

theorem parseClauses_keeps (N : Nat) (ih : ParseKeeps N) : ∀ (stxs : List Syntax),
    sizeOf stxs < N → ∀ (env : Assoc) (s : State),
    EnvKept (defineFreeList stxs = true) env (parseClauses stxs env s).env
  | [], _, env, s => by
    rw [parseClauses]
    exact EnvKept.same _ _
  | x :: rest, hN, env, s => by
    simp only [List.cons.sizeOf_spec] at hN
    have hrest := fun env1 s1 => (parseClauses_keeps N ih rest (by omega) env1 s1).of_imp
      (fun hf : defineFreeList (x :: rest) = true => ((defineFreeList_cons x rest).mp hf).2)
    cases x with
    | List l =>
      cases l with
      | nil =>
        rw [parseClauses]
        exact EnvKept.same _ _
      | cons test body =>
        simp only [Syntax.List.sizeOf_spec, List.cons.sizeOf_spec] at hN
        have hfree : defineFreeList (Syntax.List (test :: body) :: rest) = true →
            defineFree test = true ∧ defineFreeList body = true := by
          intro hf
          have h1 := ((defineFreeList_cons _ _).mp hf).1
          rw [defineFree, Bool.and_eq_true] at h1
          exact (defineFreeList_cons _ _).mp h1.2
        have hp := (ih test (by omega) env s).of_imp (fun hf => (hfree hf).1)
        have hbody := fun env1 s1 => (parseSeq_keeps N ih body (by omega) env1 s1).of_imp
          (fun hf => (hfree hf).2)
        cases test with
        | SymbolSyntax x =>
          rw [parseClauses]
          refine clause_keeps _ body rest ?_ hbody hrest
          split
          · exact EnvKept.same _ _
          · exact hp
        | _ =>
          rw [parseClauses]
          · exact clause_keeps _ body rest hp hbody hrest
          all_goals
            intros
            simp_all
    | _ =>
      rw [parseClauses]
      · exact EnvKept.same _ _
      all_goals
        intros
        simp_all

theorem parseCond_keeps (N : Nat) (ih : ParseKeeps N) (stxs : List Syntax)
    (hN : sizeOf stxs < N) (env : Assoc) (s : State) :
    EnvKept (defineFreeList stxs = true) env (parseCond stxs env s).env := by
  cases stxs with
  | nil =>
    rw [parseCond]
    exact EnvKept.same _ _
  | cons x rest =>
    simp only [List.cons.sizeOf_spec] at hN
    have h1 := (parseClauses_keeps N ih rest (by omega) env s).of_imp
      (fun hf : defineFreeList (x :: rest) = true => ((defineFreeList_cons x rest).mp hf).2)
    rw [parseCond]
    split
    · rename_i e env1 s1 heq
      rw [heq] at h1
      exact h1
    · rename_i temp env1 s1 heq
      rw [heq] at h1
      exact h1

theorem parseLetBinds_keeps (N : Nat) (ih : ParseKeeps N) : ∀ (stxs : List Syntax),
    sizeOf stxs < N → ∀ (temp_env env : Assoc) (s : State),
    EnvKept (defineFreeList stxs = true) env (parseLetBinds stxs temp_env env s).2.2.1
  | [], _, temp_env, env, s => by
    rw [parseLetBinds]
    exact EnvKept.same _ _
  | x :: rest, hN, temp_env, env, s => by
    simp only [List.cons.sizeOf_spec] at hN
    have hrest := fun t1 env1 s1 =>
      (parseLetBinds_keeps N ih rest (by omega) t1 env1 s1).of_imp
        (fun hf : defineFreeList (x :: rest) = true => ((defineFreeList_cons x rest).mp hf).2)
    unfold parseLetBinds
    split
    · exact EnvKept.same _ _
    · rename_i name rhs rest1 hx
      injection hx with hx1 hx2
      subst hx1
      subst hx2
      simp only [Syntax.List.sizeOf_spec, List.cons.sizeOf_spec] at hN
      have h1 := (ih rhs (by omega) env s).of_imp
        (fun hf : defineFreeList (Syntax.List [.SymbolSyntax name, rhs] :: rest) = true => by
          have h1 := ((defineFreeList_cons _ _).mp hf).1
          rw [defineFree, Bool.and_eq_true] at h1
          simp only [defineFreeList_cons] at h1
          exact h1.2.2.1)
      split
      · rename_i e env1 s1 heq
        rw [heq] at h1
        exact h1
      · rename_i e env1 s1 heq
        rw [heq] at h1
        have h2 := hrest (extend name .VoidV temp_env s1).1 env1 (extend name .VoidV temp_env s1).2
        split
        · rename_i err t2 env2 s2 heq2
          rw [heq2] at h2
          exact h1.step h2
        · rename_i ps t2 env2 s2 heq2
          rw [heq2] at h2
          exact h1.step h2
    · exact EnvKept.same _ _
    · exact EnvKept.same _ _

theorem parseLet_keeps (N : Nat) (ih : ParseKeeps N) (stxs : List Syntax)
    (hN : sizeOf stxs < N) (env : Assoc) (s : State) :
    EnvKept (defineFreeList stxs = true) env (parseLet stxs env s).env := by
  unfold parseLet
  split
  · rename_i h binds b bs
    simp only [Syntax.List.sizeOf_spec, List.cons.sizeOf_spec] at hN
    have h1 := (parseLetBinds_keeps N ih binds (by omega) env env s).of_imp
      (fun hf : defineFreeList (h :: Syntax.List binds :: b :: bs) = true => by
        simp only [defineFreeList_cons] at hf
        have h1 := hf.2.1
        rw [defineFree, Bool.and_eq_true] at h1
        exact h1.2)
    split
    · rename_i e t1 env1 s1 heq
      rw [heq] at h1
      exact h1
    · rename_i ps t1 env1 s1 heq
      rw [heq] at h1
      repeat' split
      all_goals exact h1
  · exact EnvKept.same _ _
  · exact EnvKept.same _ _

theorem bindPlaceholders_keeps (message : String) : ∀ (ps : List Syntax)
    (parameters : List String) (env : Assoc) (s : State),
    EnvKept False env (bindPlaceholders message ps parameters env s).2.1
  | [], _, env, s => by
    rw [bindPlaceholders]
    exact EnvKept.same _ _
  | x :: rest, parameters, env, s => by
    cases x with
    | SymbolSyntax name =>
      rw [bindPlaceholders]
      have h1 : EnvKept False env (extend name .VoidV env s).1 :=
        ⟨⟨[(name, s.cells.length)], rfl⟩, False.elim⟩
      exact h1.step (bindPlaceholders_keeps message rest _ _ _)
    | _ =>
      rw [bindPlaceholders]
      · exact EnvKept.same _ _
      all_goals
        intros
        simp_all

theorem parseDefine_keeps (N : Nat) (ih : ParseKeeps N) (stxs : List Syntax)
    (hN : sizeOf stxs < N) (env : Assoc) (s : State) :
    EnvKept False env (parseDefine stxs env s).env := by
  unfold parseDefine
  split
  · rename_i h name b bs
    simp only [List.cons.sizeOf_spec] at hN
    have h0 : EnvKept False env (extend name .VoidV env s).1 :=
      ⟨⟨[(name, s.cells.length)], rfl⟩, False.elim⟩
    have h1 := (ih b (by omega) (extend name .VoidV env s).1
      (extend name .VoidV env s).2).of_imp (False.elim : False → _)
    split
    · rename_i e env1 s1 heq
      rw [heq] at h1
      exact h0.step h1
    · rename_i ex env1 s1 heq
      rw [heq] at h1
      split
      · exact h0.step h1
      · exact h0.step h1
  · exact EnvKept.same _ _
  · rename_i h name ps b bs
    simp only [List.cons.sizeOf_spec] at hN
    have h0 : EnvKept False env (extend name .VoidV env s).1 :=
      ⟨⟨[(name, s.cells.length)], rfl⟩, False.elim⟩
    have h1 := bindPlaceholders_keeps "Wrong in Define a Procedure" ps []
      (extend name .VoidV env s).1 (extend name .VoidV env s).2
    split
    · rename_i e env1 s1 heq
      rw [heq] at h1
      exact h0.step h1
    · rename_i parameters env1 s1 heq
      rw [heq] at h1
      split
      · have h2 := (ih b (by omega) env1 s1).of_imp (False.elim : False → _)
        split
        · rename_i e env2 s2 heq2
          rw [heq2] at h2
          exact (h0.step h1).step h2
        · rename_i e env2 s2 heq2
          rw [heq2] at h2
          exact (h0.step h1).step h2
      · rename_i _ hd tl
        have h2 := (parseSeq_keeps N ih (b :: hd :: tl) (by
          simp only [List.cons.sizeOf_spec] at hN ⊢
          omega) env1 s1).of_imp (False.elim : False → _)
        split
        · rename_i e env2 s2 heq2
          rw [heq2] at h2
          exact (h0.step h1).step h2
        · rename_i e env2 s2 heq2
          rw [heq2] at h2
          exact (h0.step h1).step h2
  · exact EnvKept.same _ _
  · exact EnvKept.same _ _
  · exact EnvKept.same _ _

theorem reserved_define {op : String} (h : reserved_words.lookup op = some .E_DEFINE) :
    op = "define" := by
  simp only [reserved_words, List.lookup] at h
  repeat' split at h
  all_goals first | exact eq_of_beq (by assumption) | cases h

theorem defineFree_list {stxs : List Syntax} (h : defineFree (.List stxs) = true) :
    defineFreeList stxs = true ∧ listHead stxs ≠ some (some "define") := by
  rw [defineFree, Bool.and_eq_true] at h
  refine ⟨h.2, ?_⟩
  intro hh
  rw [hh] at h
  simp at h

theorem primitiveTier_keeps {free : Prop} (op : String) (stxs : List Syntax) (env : Assoc)
    (s : State) (hrest : EnvKept free env (parseRest stxs env s).env)
    (o : Option (Out Expr)) (e1 : Assoc) (t1 : State)
    (h : (match s.primitives.lookup op with
        | some op_type =>
          match parseRest stxs env s with
          | ⟨.error e, env1, s1⟩ => (some (Out.fail e env1 s1), env1, s1)
          | ⟨.ok parameters, env1, s1⟩ =>
            match primitiveNode op_type parameters with
            | some (.ok e) => (some (Out.ok e env1 s1), env1, s1)
            | some (.error err) => (some (Out.fail err env1 s1), env1, s1)
            | none => (none, env1, s1)
        | none => ((none : Option (Out Expr)), env, s)) = (o, e1, t1)) :
    EnvKept free env e1 ∧ ∀ out, o = some out → out.env = e1 := by
  split at h
  · split at h
    · rename_i e env1 s1 heq
      rw [heq] at hrest
      cases h
      exact ⟨hrest, fun out ho => by cases ho; rfl⟩
    · rename_i ps env1 s1 heq
      rw [heq] at hrest
      split at h <;> cases h
      · exact ⟨hrest, fun out ho => by cases ho; rfl⟩
      · exact ⟨hrest, fun out ho => by cases ho; rfl⟩
      · exact ⟨hrest, fun out ho => by cases ho⟩
  · cases h
    exact ⟨EnvKept.same _ _, fun out ho => by cases ho⟩

theorem parse_keeps_succ (N : Nat) (ih : ParseKeeps N) : ParseKeeps (N + 1) := by
  intro x hx env s
  cases x with
  | List stxs =>
    simp only [Syntax.List.sizeOf_spec] at hx
    have hN : sizeOf stxs < N := by omega
    have hfl : defineFree (.List stxs) = true → defineFreeList stxs = true :=
      fun h => (defineFree_list h).1
    rw [parse]
    split
    · exact EnvKept.same _ _
    · exact (parseApplication_keeps N ih stxs hN env s).of_imp hfl
    · rename_i op hop
      have hrest := fun env1 s1 => (parseRest_keeps N ih stxs hN env1 s1).of_imp hfl
      split
      · have h1 := hrest env s
        split
        · rename_i e env1 s1 heq
          rw [heq] at h1
          exact h1
        · rename_i e env1 s1 heq
          rw [heq] at h1
          exact h1
      · split
        · rename_i out fst snd heq
          obtain ⟨h1, h2⟩ := primitiveTier_keeps op stxs env s (hrest env s) _ _ _ heq
          rw [h2 out rfl]
          exact h1
        · rename_i env1 s1 heq
          obtain ⟨h1, -⟩ := primitiveTier_keeps op stxs env s (hrest env s) _ _ _ heq
          split
          · exact h1.step (parseQuote_keeps _ stxs env1 s1)
          · have h2 := hrest env1 s1
            split
            · rename_i e env2 s2 heq2
              rw [heq2] at h2
              exact h1.step h2
            · rename_i e env2 s2 heq2
              rw [heq2] at h2
              exact h1.step h2
          · exact h1.step ((parseIf_keeps N ih stxs hN env1 s1).of_imp hfl)
          · exact h1.step ((parseCond_keeps N ih stxs hN env1 s1).of_imp hfl)
          · exact h1.step (parseLambda_keeps _ stxs env1 s1)
          · rename_i hdef
            refine h1.step ((parseDefine_keeps N ih stxs hN env1 s1).of_imp ?_)
            intro hf
            refine (defineFree_list hf).2 ?_
            rw [hop, reserved_define hdef]
          · exact h1.step ((parseLet_keeps N ih stxs hN env1 s1).of_imp hfl)
          · exact h1.step (parseLetrec_keeps _ stxs env1 s1)
          · exact h1.step ((parseSet_keeps N ih stxs hN env1 s1).of_imp hfl)
          · exact h1
          · have h2 := hrest env1 s1
            split
            · rename_i e env2 s2 heq2
              rw [heq2] at h2
              exact h1.step h2
            · rename_i e env2 s2 heq2
              rw [heq2] at h2
              exact h1.step h2
  | _ =>
    rw [parse]
    exact EnvKept.same _ _

theorem parse_keeps (x : Syntax) (env : Assoc) (s : State) :
    EnvKept (defineFree x = true) env (parse x env s).env := by
  have h : ∀ N, ParseKeeps N := by
    intro N
    induction N with
    | zero =>
      intro x hx
      exact absurd hx (Nat.not_lt_zero _)
    | succ N ih => exact parse_keeps_succ N ih
  exact h (sizeOf x + 1) x (Nat.lt_succ_self _) env s
end Scheme


namespace Scheme

/-! ## C17-C20: arity specialisation of the arithmetic primitives -/

/-- C17 (the code at the failing input). For `(- 1/2 2/3 0)` the loop of
`MinusVar::evalRator` takes the numerator of the first argument, 1, for the numerator of
the second, and returns `1/6`, with no overflow; folding `Minus::evalRator` from the left
gives `-1/6`. When the first argument is an `Integer` and a later one a `Rational`, as in
`(- 5 2 1/2)`, the same read goes through a null pointer. -/
theorem MinusVar_reads_first_numerator (fuel : Nat) (zero : ExprType) :
    MinusVar_evalRator [.RationalV 1 2, .RationalV 2 3, .IntegerV 0] =
        ⟨.ok (.RationalV 1 6), true⟩ ∧
      Minus_evalRator (.RationalV 1 2) (.RationalV 2 3) = ⟨.ok (.RationalV (-1) 6), true⟩ ∧
      Minus_evalRator (.RationalV (-1) 6) (.IntegerV 0) = ⟨.ok (.RationalV (-1) 6), true⟩ ∧
      (MinusVar_evalRator [.IntegerV 5, .IntegerV 2, .RationalV 1 2]).val = .error nullDeref ∧
      (replStep (fuel + 2) minusVarForm (ReplState.init zero)).1 = .value (.RationalV 1 6) :=
  ⟨rfl, rfl, rfl, rfl, rfl⟩

/-- C18, as stated, fails: `(- -2147483648)` multiplies `-1` by `INT_MIN`, which wraps, and
evaluates to `Integer -2147483648`, which does not denote the negation of its operand. -/
theorem unary_minus_int_min_wraps :
    (replStep 2 (negateForm (-2147483648)) (ReplState.init .E_PLUS)).1 =
        .value (.IntegerV (-2147483648)) ∧
      denote (.IntegerV (-2147483648)) ≠ -denote (.IntegerV (-2147483648)) := by
  refine ⟨rfl, ?_⟩
  simp only [denote]
  norm_num

/-- C18, amended. When `-` is not lexically bound, `(- e)` with exactly one operand is
analysed to `Mult(Fixnum(-1), e)`; and whenever the analysed operand evaluates to a numeric
value `x` held in `int` fields whose `Integer`, or numerator, is not -2147483648,
evaluating that node returns the value denoting `-x`, in normal form: `Integer n` gives
`Integer -n` and a reduced `Rational n/d` gives `Rational -n/d`. -/
theorem unary_minus_negates (stx : Syntax) (env : Assoc) (s : State) (e : Expr)
    (env1 : Assoc) (s1 : State) (hfree : (find "-" env s).isNull = true)
    (hprim : s.primitives.lookup "-" = some .E_MINUS)
    (hparse : parse stx env s = ⟨.ok e, env1, s1⟩) :
    parse (.List [sym "-", stx]) env s = Out.ok (.Binary .Mult (.Fixnum (-1)) e) env1 s1 ∧
      ∀ (f : Nat) (env2 env3 : Assoc) (s2 s3 : State) (x : Value),
        eval (f + 1) e env2 s2 = ⟨.ok x, env3, s3⟩ → negatable x →
        ∃ v, eval (f + 2) (.Binary .Mult (.Fixnum (-1)) e) env2 s2 = ⟨.ok v, env3, s3⟩ ∧
          denote v = -denote x ∧ normalNumber v ∧
          (∀ n, x = .IntegerV n → v = .IntegerV (-n)) ∧
          (∀ n d, x = .RationalV n d → normalNumber x → v = .RationalV (-n) d) := by
  constructor
  · exact parse_primitive_head "-" .E_MINUS [stx] env s [e] env1 s1 _ hfree hprim
      (parseSeq_single stx env s e env1 s1 hparse) rfl
  · intro f env2 env3 s2 s3 x hx hneg
    obtain ⟨v, hv, hnorm, hden⟩ := Good_Mult (.IntegerV (-1)) x trivial
      (negatable_numeric hneg) (Mult_neg_one_exact x hneg)
    have hval : denote v = -denote x := by
      rw [hden]
      simp [denote]
    refine ⟨v, ?_, hval, hnorm, ?_, ?_⟩
    · rw [eval_Binary_of (f + 1) .Mult (.Fixnum (-1)) e env2 s2 (.IntegerV (-1)) x env2 env3
        s2 s3 rfl hx]
      show (⟨(Mult_evalRator (.IntegerV (-1)) x).val, env3, s3⟩ : Out Value) = _
      rw [hv]
    · intro n hn
      subst hn
      refine normalNumber_unique hnorm trivial ?_
      rw [hval]
      simp [denote]
    · intro n d hn hxn
      subst hn
      simp only [normalNumber] at hxn
      refine normalNumber_unique hnorm ⟨hxn.1, ?_⟩ ?_
      · rw [Int.neg_gcd]
        exact hxn.2
      · rw [hval]
        simp only [denote, Int.cast_neg]
        ring

/-- Witness for the amended C18: `(- 5)` is analysed to `(* -1 5)` and evaluates to -5. -/
theorem unary_minus_negates_witness :
    parse (negateForm 5) empty (State.init .E_PLUS) =
        Out.ok (.Binary .Mult (.Fixnum (-1)) (.Fixnum 5)) empty (State.init .E_PLUS) ∧
      (replStep 2 (negateForm 5) (ReplState.init .E_PLUS)).1 = .value (.IntegerV (-5)) :=
  ⟨(unary_minus_negates (.Number 5) empty (State.init .E_PLUS) (.Fixnum 5) empty
      (State.init .E_PLUS) rfl rfl rfl).1, rfl⟩

/-- C19. In every environment and memory where `+` and `*` are not lexically bound (and
name the enumerators `E_PLUS` and `E_MUL` in the primitive table): `(+)` is analysed to
`Plus(0, 0)`, which evaluates to `Integer 0`, and `(*)` to `Mult(1, 1)`, which evaluates to
`Integer 1`; with exactly two operands `+` and `*` are analysed to the two-operand nodes
`Plus` and `Mult` on the analysed operands; with three or more operands, to the
variable-arity nodes `PlusVar` and `MultVar` holding the analysed operands in order. -/
theorem plus_times_arity (env : Assoc) (s : State)
    (hplus : (find "+" env s).isNull = true) (htimes : (find "*" env s).isNull = true)
    (hp : s.primitives.lookup "+" = some .E_PLUS)
    (ht : s.primitives.lookup "*" = some .E_MUL) :
    (parse (.List [sym "+"]) env s = Out.ok (.Binary .Plus (.Fixnum 0) (.Fixnum 0)) env s ∧
      ∀ (f : Nat) (env1 : Assoc) (s1 : State),
        eval (f + 2) (.Binary .Plus (.Fixnum 0) (.Fixnum 0)) env1 s1 =
          Out.ok (.IntegerV 0) env1 s1) ∧
    (parse (.List [sym "*"]) env s = Out.ok (.Binary .Mult (.Fixnum 1) (.Fixnum 1)) env s ∧
      ∀ (f : Nat) (env1 : Assoc) (s1 : State),
        eval (f + 2) (.Binary .Mult (.Fixnum 1) (.Fixnum 1)) env1 s1 =
          Out.ok (.IntegerV 1) env1 s1) ∧
    (∀ (rest : List Syntax) (a b : Expr) (env1 : Assoc) (s1 : State),
      parseSeq rest env s = ⟨.ok [a, b], env1, s1⟩ →
        parse (.List (sym "+" :: rest)) env s = Out.ok (.Binary .Plus a b) env1 s1 ∧
        parse (.List (sym "*" :: rest)) env s = Out.ok (.Binary .Mult a b) env1 s1) ∧
    (∀ (rest : List Syntax) (a b c : Expr) (more : List Expr) (env1 : Assoc) (s1 : State),
      parseSeq rest env s = ⟨.ok (a :: b :: c :: more), env1, s1⟩ →
        parse (.List (sym "+" :: rest)) env s =
          Out.ok (.Variadic .PlusVar (a :: b :: c :: more)) env1 s1 ∧
        parse (.List (sym "*" :: rest)) env s =
          Out.ok (.Variadic .MultVar (a :: b :: c :: more)) env1 s1) := by
  refine ⟨⟨?_, fun _ _ _ => rfl⟩, ⟨?_, fun _ _ _ => rfl⟩, ?_, ?_⟩
  · exact parse_primitive_head "+" .E_PLUS [] env s [] env s _ hplus hp (parseSeq_nil env s) rfl
  · exact parse_primitive_head "*" .E_MUL [] env s [] env s _ htimes ht (parseSeq_nil env s) rfl
  · intro rest a b env1 s1 h
    exact ⟨parse_primitive_head "+" .E_PLUS rest env s [a, b] env1 s1 _ hplus hp h rfl,
      parse_primitive_head "*" .E_MUL rest env s [a, b] env1 s1 _ htimes ht h rfl⟩
  · intro rest a b c more env1 s1 h
    exact ⟨parse_primitive_head "+" .E_PLUS rest env s (a :: b :: c :: more) env1 s1 _ hplus
        hp h rfl,
      parse_primitive_head "*" .E_MUL rest env s (a :: b :: c :: more) env1 s1 _ htimes ht
        h rfl⟩

/-- Witness for C19: at a fresh prompt `(+ 1 2)` is analysed to `Plus(1, 2)` and
`(* 1 2 3)` to `MultVar[1, 2, 3]`. -/
theorem plus_times_arity_witness :
    parse (.List [sym "+", .Number 1, .Number 2]) empty (State.init .E_PLUS) =
        Out.ok (.Binary .Plus (.Fixnum 1) (.Fixnum 2)) empty (State.init .E_PLUS) ∧
      parse (.List [sym "*", .Number 1, .Number 2, .Number 3]) empty (State.init .E_PLUS) =
        Out.ok (.Variadic .MultVar [.Fixnum 1, .Fixnum 2, .Fixnum 3]) empty
          (State.init .E_PLUS) :=
  ⟨((plus_times_arity empty (State.init .E_PLUS) rfl rfl rfl rfl).2.2.1
      [.Number 1, .Number 2] (.Fixnum 1) (.Fixnum 2) empty (State.init .E_PLUS) rfl).1,
    ((plus_times_arity empty (State.init .E_PLUS) rfl rfl rfl rfl).2.2.2
      [.Number 1, .Number 2, .Number 3] (.Fixnum 1) (.Fixnum 2) (.Fixnum 3) [] empty
      (State.init .E_PLUS) rfl).2⟩

/-- C20 (the code at the failing input). `<` is a primitive name, unbound at a fresh
prompt. For `(< 1)` and `(<)` the primitive tier of `List::parse` neither returns nor
throws: control leaves the `if` chain and reaches the generic application, which returns
`Apply(Var(<), operands)`; no arity error is raised by the analysis, and evaluating
`(< 1)` then raises "Attempt to apply a non-procedure". The chain has no branch for `expt`
either, so `(expt 2 3)` is analysed to a generic `Apply` as well. -/
theorem comparison_arity_falls_to_Apply (fuel : Nat) (zero : ExprType) :
    primitives_init.lookup "<" = some .E_LT ∧
      parse (.List [sym "<", .Number 1]) empty (State.init zero) =
        Out.ok (.Apply (.Var "<") [.Fixnum 1]) empty (State.init zero) ∧
      parse (.List [sym "<"]) empty (State.init zero) =
        Out.ok (.Apply (.Var "<") []) empty (State.init zero) ∧
      parse (.List [sym "expt", .Number 2, .Number 3]) empty (State.init zero) =
        Out.ok (.Apply (.Var "expt") [.Fixnum 2, .Fixnum 3]) empty (State.init zero) ∧
      (replStep (fuel + 2) (.List [sym "<", .Number 1]) (ReplState.init zero)).1 =
        .runtimeError "Attempt to apply a non-procedure" :=
  ⟨rfl, rfl, rfl, rfl, rfl⟩

end Scheme


namespace Scheme

/-! ## Addresses reachable from an environment and a memory -/

theorem envWithin_mono {P Q : Nat → Prop} (h : ∀ a, P a → Q a) {env : Assoc}
    (he : envWithin P env) : envWithin Q env :=
  fun p hp => h _ (he p hp)

theorem valueWithin_mono {P Q : Nat → Prop} (h : ∀ a, P a → Q a) {v : Value}
    (hv : valueWithin P v) : valueWithin Q v := by
  cases v with
  | ProcedureV ps b env => exact envWithin_mono h hv
  | _ => trivial

theorem grownBy_join_le {P : Nat → Prop} {n m k a : Nat} (hnm : n ≤ m) (hmk : m ≤ k)
    (h : grownBy (grownBy P n m) m k a) : grownBy P n k a := by
  rcases h with (h | ⟨h1, h2⟩) | ⟨h1, h2⟩
  · exact Or.inl h
  · exact Or.inr ⟨h1, Nat.lt_of_lt_of_le h2 hmk⟩
  · exact Or.inr ⟨Nat.le_trans hnm h1, h2⟩

theorem Arith.Plain.int (n : Int) : (pure (Value.IntegerV n) : Arith Value).Plain := by
  intro P v hv
  cases hv
  trivial

theorem Arith.Plain.rat (n d : Int) : (pure (Value.RationalV n d) : Arith Value).Plain := by
  intro P v hv
  cases hv
  trivial

theorem Arith.Plain.bool (b : Bool) : (pure (Value.BooleanV b) : Arith Value).Plain := by
  intro P v hv
  cases hv
  trivial

theorem PrimOk.error {P : Nat → Prop} {s : State} (hs : stateWithin P s) (e : Error) :
    PrimOk P s (.error e, s) :=
  ⟨rfl, hs, fun v hv => by cases hv⟩

theorem PrimOk.value {P : Nat → Prop} {s : State} (hs : stateWithin P s) {v : Value}
    (hv : valueWithin P v) : PrimOk P s (.ok v, s) :=
  ⟨rfl, hs, fun w hw => by cases hw; exact hv⟩

theorem allocPair_ok {P : Nat → Prop} {s : State} (hs : stateWithin P s) {a b : Value}
    (ha : valueWithin P a) (hb : valueWithin P b) :
    PrimOk P s (.ok (allocPair a b s).1, (allocPair a b s).2) := by
  refine ⟨rfl, ⟨hs.1, ?_⟩, fun v hv => by cases hv; trivial⟩
  intro p hp
  have hp' : p ∈ s.pairs ++ [(a, b)] := hp
  rcases List.mem_append.mp hp' with h | h
  · exact hs.2 p h
  · rw [List.mem_singleton] at h
    rw [h]
    exact ⟨ha, hb⟩

theorem StepOk.cons_ok {g : State → Except Error Value × State} {x : Syntax}
    (hg : StepOk g) (hx : StepOk (Syntaxtransit x)) : StepOk (consStep x g) := by
  intro P st hst
  have h1 := hg P st hst
  unfold Scheme.consStep
  split
  · rename_i e st1 heq
    rw [heq] at h1
    exact ⟨h1.1, h1.2.1, fun v hv => by cases hv⟩
  · rename_i temp st1 heq
    rw [heq] at h1
    have h2 := hx P st1 h1.2.1
    split
    · rename_i e st2 heq2
      rw [heq2] at h2
      exact ⟨h2.1.trans h1.1, h2.2.1, fun v hv => by cases hv⟩
    · rename_i v st2 heq2
      rw [heq2] at h2
      have h3 := allocPair_ok h2.2.1 (h2.2.2 v rfl)
        (valueWithin_mono (fun _ h => h) (h1.2.2 temp rfl))
      exact ⟨(h3.1.trans h2.1).trans h1.1, h3.2.1, h3.2.2⟩

theorem StepOk.null_ok {g : State → Except Error Value × State} (hg : StepOk g) :
    StepOk (nullStep g) := by
  intro P st hst
  have h1 := hg P st hst
  unfold Scheme.nullStep
  split
  · rename_i e st1 heq
    rw [heq] at h1
    exact ⟨h1.1, h1.2.1, fun v hv => by cases hv⟩
  · rename_i v st1 heq
    rw [heq] at h1
    have h3 := allocPair_ok h1.2.1 (h1.2.2 v rfl) (show valueWithin P Value.NullV from trivial)
    exact ⟨h3.1.trans h1.1, h3.2.1, h3.2.2⟩

theorem transitChain_stepOk :
    ∀ stxs : List Syntax, stxs ≠ [] → (∀ x ∈ stxs, StepOk (Syntaxtransit x)) →
      StepOk (transitChain stxs)
  | [], h, _ => absurd rfl h
  | [x], _, ih => by
    cases hx : isListSyntax x with
    | true =>
      cases x with
      | List l =>
        have : transitChain [Syntax.List l] = Syntaxtransit (.List l) := by
          funext st
          exact transitChain_single_list l st
        rw [this]
        exact ih _ (List.mem_singleton.mpr rfl)
      | _ => simp [isListSyntax] at hx
    | false =>
      intro P st hst
      rw [transitChain_single_atom x hx st]
      exact PrimOk.error hst _
  | [x, last], _, ih => by
    have hx := ih x (by simp)
    have hl := ih last (by simp)
    rw [transitChain_pair_fun]
    cases isDotMarker x <;> cases isListSyntax last <;>
      simp only [if_true, if_false, Bool.false_eq_true]
    · exact hl.null_ok.cons_ok hx
    · exact hl.cons_ok hx
    · exact hl
    · exact hl
  | x :: y :: z :: rest, _, ih => by
    have hx := ih x (by simp)
    have hc := transitChain_stepOk (y :: z :: rest) (by simp)
      (fun w hw => ih w (List.mem_cons_of_mem _ hw))
    rw [transitChain_cons_fun]
    cases isDotMarker x <;> simp only [if_true, if_false, Bool.false_eq_true]
    · exact hc.cons_ok hx
    · exact hc

theorem Syntaxtransit_stepOk : ∀ (n : Nat) (stx : Syntax), sizeOf stx ≤ n →
    StepOk (Syntaxtransit stx)
  | 0, stx, h => by
    cases stx <;> simp at h
  | n + 1, stx, h => by
    cases stx with
    | List stxs =>
      cases stxs with
      | nil => exact fun P st hst => PrimOk.value hst trivial
      | cons x rest =>
        rw [Syntaxtransit_List_fun]
        refine transitChain_stepOk (x :: rest) (by simp) ?_
        intro w hw
        refine Syntaxtransit_stepOk n w ?_
        have h1 := List.sizeOf_lt_of_mem hw
        simp only [Syntax.List.sizeOf_spec] at h
        omega
    | _ => exact fun P st hst => PrimOk.value hst trivial

theorem Syntaxtransit_ok {P : Nat → Prop} {s : State} (hs : stateWithin P s) (stx : Syntax) :
    PrimOk P s (Syntaxtransit stx s) :=
  Syntaxtransit_stepOk (sizeOf stx) stx (Nat.le_refl _) P s hs

end Scheme


namespace Scheme

/-! ## C21-C23: division, remainder and power at their edges -/

/-- C21 (the code at the failing input). `DivVar::evalRator` has no test for a zero divisor.
On the arguments 0, 5, 0 the accumulator is `0/0` when it reaches `distribute`, where
`std::__gcd(0, 0)` is 0 and `ans.denominator /= temp` divides by zero: an integer
division trap, not a `RuntimeError`. (With a non-zero numerator, as for 1, 5, 0, the test
of `distribute` for a zero denominator throws "Unknown Error".) -/
theorem DivVar_zero_over_zero_traps (fuel : Nat) (zero : ExprType) :
    (DivVar_evalRator [.IntegerV 0, .IntegerV 5, .IntegerV 0]).val =
        .error (.Crash "integer division by zero") ∧
      (replStep (fuel + 2) divVarZeroForm (ReplState.init zero)).1 =
        .abort (.Crash "integer division by zero") ∧
      (DivVar_evalRator [.IntegerV 1, .IntegerV 5, .IntegerV 0]).val =
        .error (.RuntimeError "Unknown Error") ∧
      (Div_evalRator (.IntegerV 0) (.IntegerV 0)).val =
        .error (.RuntimeError "Division by zero") :=
  ⟨rfl, rfl, rfl, rfl⟩

/-- C22. For all `Integer` operands `a` and `b`, `Modulo::evalRator(a, b)` raises a
`RuntimeError` if and only if `b` is 0; and whenever one of two operand values is not an
`Integer` (a `Rational` included), it raises a `RuntimeError`. -/
theorem Modulo_raises_iff_zero (a b : Int) :
    ((∃ msg, (Modulo_evalRator (.IntegerV a) (.IntegerV b)).val =
        .error (.RuntimeError msg)) ↔ b = 0) ∧
      ∀ v w : Value, v.isNull = false → w.isNull = false →
        (∀ n, v ≠ .IntegerV n) ∨ (∀ n, w ≠ .IntegerV n) →
        ∃ msg, (Modulo_evalRator v w).val = .error (.RuntimeError msg) := by
  constructor
  · by_cases hb : b = 0
    · subst hb
      exact ⟨fun _ => rfl, fun _ => ⟨"Division by zero", rfl⟩⟩
    · have h : (Modulo_evalRator (.IntegerV a) (.IntegerV b)).val =
          .ok (.IntegerV (Int.tmod a b)) := by
        simp [Modulo_evalRator, bothInt, Arith.pure_bind, hb, imod, Arith.bind_val]
        rfl
      constructor
      · rintro ⟨msg, hmsg⟩
        rw [h] at hmsg
        cases hmsg
      · intro h0
        exact absurd h0 hb
  · intro v w hv hw hor
    refine ⟨"modulo is only defined for integers", ?_⟩
    cases v with
    | nullptr => cases hv
    | IntegerV n =>
      cases w with
      | nullptr => cases hw
      | IntegerV m =>
        rcases hor with h | h
        · exact absurd rfl (h n)
        · exact absurd rfl (h m)
      | _ => rfl
    | _ => rfl

/-- Witness for C22: `(modulo 5 0)` raises, `(modulo -7 2)` is -1, and `(modulo 5 1/2)`
raises. -/
theorem Modulo_raises_iff_zero_witness :
    (Modulo_evalRator (.IntegerV 5) (.IntegerV 0)).val =
        .error (.RuntimeError "Division by zero") ∧
      (Modulo_evalRator (.IntegerV (-7)) (.IntegerV 2)).val = .ok (.IntegerV (-1)) ∧
      ∃ msg, (Modulo_evalRator (.IntegerV 5) (.RationalV 1 2)).val =
        .error (.RuntimeError msg) :=
  ⟨rfl, rfl, (Modulo_raises_iff_zero 5 0).2 (.IntegerV 5) (.RationalV 1 2) rfl rfl
    (Or.inr (fun n h => by cases h))⟩

/-- C23 (the code at the failing input). `2^31` lies outside the signed 32-bit range, yet
`(expt 2 31)` raises nothing and evaluates to `Integer -2147483648`: the tests
`result > INT_MAX || result < INT_MIN` are made on the `int` after the multiplication has
wrapped, so they never hold. Likewise `(expt 2 32)` evaluates to 0. -/
theorem Expt_overflow_wraps (fuel : Nat) (zero : ExprType) :
    (Expt_evalRator (.IntegerV 2) (.IntegerV 31)).val = .ok (.IntegerV (-2147483648)) ∧
      (Expt_evalRator (.IntegerV 2) (.IntegerV 32)).val = .ok (.IntegerV 0) ∧
      (replStep (fuel + 3) (exptForm 2 31) (ReplState.init zero)).1 =
        .value (.IntegerV (-2147483648)) :=
  ⟨rfl, rfl, rfl⟩

/-! ## C24: square and multiply -/

/-- C24. For all `Integer` operands `base` and `exponent >= 0`, not both zero, such that
`base ^ exponent` fits in the signed 32-bit range, `Expt::evalRator` returns (its loop
ends, within the `exponent` rounds the embedding allows it) `Integer base ^ exponent`;
and for every negative exponent it raises a `RuntimeError`. -/
theorem Expt_evalRator_correct (base exponent : Int) (hexp : 0 ≤ exponent)
    (hnz : ¬ (base = 0 ∧ exponent = 0)) (hfit : fits32 (base ^ exponent.toNat) = true) :
    (Expt_evalRator (.IntegerV base) (.IntegerV exponent)).val =
        .ok (.IntegerV (base ^ exponent.toNat)) ∧
      ∀ b e : Int, e < 0 →
        (Expt_evalRator (.IntegerV b) (.IntegerV e)).val =
          .error (.RuntimeError "Negative exponent not supported for integers") := by
  constructor
  · have hloop := Expt_loop_correct exponent.toNat exponent.toNat 1 base (Nat.le_refl _)
      (Or.inr one_ne_zero) (by rw [one_mul]; exact hfit)
    rw [Int.toNat_of_nonneg hexp, one_mul] at hloop
    unfold Expt_evalRator
    simp only [bothInt, Arith.pure_bind, not_lt.mpr hexp, if_false, hnz]
    rw [Arith.bind_val, hloop]
    rfl
  · intro b e he
    unfold Expt_evalRator
    simp only [bothInt, Arith.pure_bind, he, if_true]
    rfl

/-- Witness for C24: `(expt 2 30)` is 1073741824 and `(expt -2 31)` is -2147483648. -/
theorem Expt_evalRator_correct_witness :
    (Expt_evalRator (.IntegerV 2) (.IntegerV 30)).val = .ok (.IntegerV 1073741824) ∧
      (Expt_evalRator (.IntegerV (-2)) (.IntegerV 31)).val = .ok (.IntegerV (-2147483648)) :=
  ⟨(Expt_evalRator_correct 2 30 (by decide) (by decide) (by decide)).1,
    (Expt_evalRator_correct (-2) 31 (by decide) (by decide) (by decide)).1⟩

/-! ## C25: exact comparison -/

/-- C25. For numeric operands `a` and `b` (an `Integer`, or a `Rational` with positive
denominator) whose cross products do not overflow 32 bits, `compareNumericValues(a, b)`
returns -1 exactly when `a < b`, 0 exactly when `a = b` and 1 exactly when `a > b` as
rational numbers; and `Less`, `LessEq`, `Equal`, `GreaterEq` and `Greater` return the
Boolean of the exact comparison `<`, `<=`, `=`, `>=`, `>`. -/
theorem compareNumericValues_exact (a b : Value) (ha : numericOperand a)
    (hb : numericOperand b) (hexact : (compareNumericValues a b).exact = true) (s : State) :
    (∃ c, (compareNumericValues a b).val = .ok c ∧ (c = -1 ∨ c = 0 ∨ c = 1) ∧
        (c = -1 ↔ denote a < denote b) ∧ (c = 0 ↔ denote a = denote b) ∧
        (c = 1 ↔ denote a > denote b)) ∧
      (Binary_evalRator .Less a b s).1 = .ok (.BooleanV (decide (denote a < denote b))) ∧
      (Binary_evalRator .LessEq a b s).1 = .ok (.BooleanV (decide (denote a ≤ denote b))) ∧
      (Binary_evalRator .Equal a b s).1 = .ok (.BooleanV (decide (denote a = denote b))) ∧
      (Binary_evalRator .GreaterEq a b s).1 =
        .ok (.BooleanV (decide (denote a ≥ denote b))) ∧
      (Binary_evalRator .Greater a b s).1 = .ok (.BooleanV (decide (denote a > denote b))) := by
  obtain ⟨c, hc, h1, h2, h3⟩ := Good_compareNumericValues a b ha hb hexact
  have htri : c = -1 ∨ c = 0 ∨ c = 1 := by
    rcases lt_trichotomy (denote a) (denote b) with h | h | h
    · exact Or.inl (h1.mpr h)
    · exact Or.inr (Or.inl (h2.mpr h))
    · exact Or.inr (Or.inr (h3.mpr h))
  refine ⟨⟨c, hc, htri, h1, h2, h3⟩, ?_, ?_, ?_, ?_, ?_⟩
  · show (compare_evalRator _ a b).val = _
    rw [compare_evalRator_val _ ha hb hc]
    congr 2
    rw [Bool.eq_iff_iff]
    simp only [beq_iff_eq, decide_eq_true_eq]
    exact h1
  · show (compare_evalRator _ a b).val = _
    rw [compare_evalRator_val _ ha hb hc]
    congr 2
    rw [Bool.eq_iff_iff]
    simp only [bne_iff_ne, ne_eq, decide_eq_true_eq, h3, not_lt]
  · show (compare_evalRator _ a b).val = _
    rw [compare_evalRator_val _ ha hb hc]
    congr 2
    rw [Bool.eq_iff_iff]
    simp only [beq_iff_eq, decide_eq_true_eq]
    exact h2
  · show (compare_evalRator _ a b).val = _
    rw [compare_evalRator_val _ ha hb hc]
    congr 2
    rw [Bool.eq_iff_iff]
    simp only [bne_iff_ne, ne_eq, decide_eq_true_eq, h1, not_lt, ge_iff_le]
  · show (compare_evalRator _ a b).val = _
    rw [compare_evalRator_val _ ha hb hc]
    congr 2
    rw [Bool.eq_iff_iff]
    simp only [beq_iff_eq, decide_eq_true_eq]
    exact h3

/-- Witness for C25: `1/2 < 2/3`. -/
theorem compareNumericValues_exact_witness :
    (compareNumericValues (.RationalV 1 2) (.RationalV 2 3)).val = .ok (-1) ∧
      (Binary_evalRator .Less (.RationalV 1 2) (.RationalV 2 3) (State.init .E_PLUS)).1 =
        .ok (.BooleanV (decide (denote (.RationalV 1 2) < denote (.RationalV 2 3)))) :=
  ⟨rfl, (compareNumericValues_exact (.RationalV 1 2) (.RationalV 2 3)
    (by simp [numericOperand]) (by simp [numericOperand]) rfl (State.init .E_PLUS)).2.1⟩

/-! ## C26: operands that are not numbers -/

/-- C26. For each two-operand numeric primitive node (`+ - * /`, `modulo`, `expt` and the
five comparisons): when the two operands are values and one of them is neither an
`Integer` nor a `Rational`, `evalRator` raises a `RuntimeError`. For each variable-arity
numeric primitive node (`+ - * /` and the five comparisons): when the arguments are values
and one of them is neither an `Integer` nor a `Rational`, `evalRator` raises a
`RuntimeError`. -/
theorem numeric_primitives_reject_non_numbers (s : State) :
    (∀ (op : BinaryOp) (a b : Value), op ∈ numericBinary → a.isNull = false →
        b.isNull = false → (isNumeric a && isNumeric b) = false →
        ∃ msg, (Binary_evalRator op a b s).1 = .error (.RuntimeError msg)) ∧
      (∀ (op : VariadicOp) (args : List Value), op ∈ numericVariadic →
        (∀ a ∈ args, a.isNull = false) → (∃ a ∈ args, isNumeric a = false) →
        ∃ msg, (Variadic_evalRator op args s).1 = .error (.RuntimeError msg)) := by
  constructor
  · intro op a b hop ha hb h
    have hd := IS_DIGIT_both_false ha hb h
    have hi := bothInt_none ha hb h
    simp only [numericBinary, List.mem_cons, List.mem_singleton, List.not_mem_nil,
      or_false] at hop
    rcases hop with rfl | rfl | rfl | rfl | rfl | rfl | rfl | rfl | rfl | rfl | rfl
    · exact ⟨"Wrong typename", by
        show (Plus_evalRator a b).val = _
        rw [Plus_evalRator, hd, Arith.pure_bind]
        rfl⟩
    · exact ⟨"Wrong typename", by
        show (Minus_evalRator a b).val = _
        rw [Minus_evalRator, hd, Arith.pure_bind]
        rfl⟩
    · exact ⟨"Wrong typename", by
        show (Mult_evalRator a b).val = _
        rw [Mult_evalRator, hd, Arith.pure_bind]
        rfl⟩
    · exact ⟨"Wrong typename", by
        show (Div_evalRator a b).val = _
        rw [Div_evalRator, hd, Arith.pure_bind]
        rfl⟩
    · exact ⟨"modulo is only defined for integers", by
        show (Modulo_evalRator a b).val = _
        rw [Modulo_evalRator, hi, Arith.pure_bind]
        rfl⟩
    · exact ⟨"Wrong typename", by
        show (Expt_evalRator a b).val = _
        rw [Expt_evalRator, hi, Arith.pure_bind]
        rfl⟩
    all_goals
      exact ⟨"Wrong typename", by
        show (compare_evalRator _ a b).val = _
        rw [compare_evalRator, hd, Arith.pure_bind]
        rfl⟩
  · intro op args hop hnn h
    have hd := allDigits_false args hnn h
    obtain ⟨args0, rest, rfl⟩ : ∃ args0 rest, args = args0 :: rest := by
      obtain ⟨a, ha, -⟩ := h
      cases args with
      | nil => cases ha
      | cons x xs => exact ⟨x, xs, rfl⟩
    simp only [numericVariadic, List.mem_cons, List.mem_singleton, List.not_mem_nil,
      or_false] at hop
    rcases hop with rfl | rfl | rfl | rfl | rfl | rfl | rfl | rfl | rfl
    · exact ⟨"Wrong typename", by
        show (PlusVar_evalRator _).val = _
        rw [PlusVar_evalRator, hd, Arith.pure_bind]
        rfl⟩
    · exact ⟨"Wrong typename", by
        show (MinusVar_evalRator _).val = _
        rw [MinusVar_evalRator, hd, Arith.pure_bind]
        rfl⟩
    · exact ⟨"Wrong typename", by
        show (MultVar_evalRator _).val = _
        rw [MultVar_evalRator, hd, Arith.pure_bind]
        rfl⟩
    · exact ⟨"Wrong typename", by
        show (DivVar_evalRator _).val = _
        rw [DivVar_evalRator, hd, Arith.pure_bind]
        rfl⟩
    all_goals
      exact ⟨"Wrong typename", by
        show (compareVar_evalRator _ _).val = _
        rw [compareVar_evalRator, hd, Arith.pure_bind]
        rfl⟩

/-- Witness for C26: `(+ 1 #t)` and `(< 1 2 (quote a))` raise "Wrong typename". -/
theorem numeric_primitives_reject_non_numbers_witness :
    (∃ msg, (Binary_evalRator .Plus (.IntegerV 1) (.BooleanV true) (State.init .E_PLUS)).1 =
        .error (.RuntimeError msg)) ∧
      ∃ msg, (Variadic_evalRator .LessVar [.IntegerV 1, .IntegerV 2, .SymbolV "a"]
        (State.init .E_PLUS)).1 = .error (.RuntimeError msg) :=
  ⟨(numeric_primitives_reject_non_numbers (State.init .E_PLUS)).1 .Plus (.IntegerV 1)
      (.BooleanV true) (by simp [numericBinary]) rfl rfl rfl,
    (numeric_primitives_reject_non_numbers (State.init .E_PLUS)).2 .LessVar
      [.IntegerV 1, .IntegerV 2, .SymbolV "a"] (by simp [numericVariadic])
      (by simp [Value.isNull]) ⟨.SymbolV "a", by simp, rfl⟩⟩

end Scheme


namespace Scheme

/-! ## The frame property of the evaluator -/

theorem FrameTo.join_env {P : Nat → Prop} {s s1 s2 : State} {env1 env2 : Assoc} {e : Assoc}
    (h1 : FrameTo P s env1 s1)
    (h2 : FrameTo (grownBy P s.cells.length s1.cells.length) s1 env2 s2)
    (he : envWithin (grownBy (grownBy P s.cells.length s1.cells.length) s1.cells.length
      s2.cells.length) e) :
    envWithin (grownBy P s.cells.length s2.cells.length) e :=
  envWithin_mono (fun _ => grownBy_join_le h1.1 h2.1) he

theorem valuesWithin_widen (Q R : Nat → Prop) (vs : List Value) (h : ∀ x, Q x → R x)
    (hv : valuesWithin Q vs) : valuesWithin R vs :=
  fun v hm => valueWithin_mono h (hv v hm)

theorem Framed.result {α : Type} {ok : (Nat → Prop) → α → Prop} {P : Nat → Prop}
    {s s1 : State} {env1 : Assoc} {a : α} (h : Framed ok P s ⟨.ok a, env1, s1⟩) :
    ok (grownBy P s.cells.length s1.cells.length) a := h.2 a rfl

end Scheme


namespace Scheme

/-! ## C27 and C28: `set!` and `if` at analysis time -/

/-- The `case E_SET` of `List::parse` when it is reached. For every analysis environment and
memory in which `set!` is not lexically bound and is no key of the primitive table (as at
start), and every form `(set! x e)` with `x` a symbol: when `x` is not bound in the
environment, `List::parse` raises the `RuntimeError` "Undefined var" and produces no node,
without analysing `e`; when `x` is bound, it analyses `e` and returns `Set(x, analysed e)`
(or passes on the error of `e`). -/
theorem set_target_checked_at_analysis (x : String) (e : Syntax) (env : Assoc) (s : State)
    (hfree : (find "set!" env s).isNull = true)
    (hprim : s.primitives.lookup "set!" = none) :
    ((find x env s).isNull = true →
        parse (setForm x e) env s = Out.fail (.RuntimeError "Undefined var") env s) ∧
      ((find x env s).isNull = false →
        parse (setForm x e) env s =
          (match parse e env s with
            | ⟨.ok ex, env1, s1⟩ => Out.ok (.Set x ex) env1 s1
            | ⟨.error err, env1, s1⟩ => Out.fail err env1 s1)) := by
  have hp : parse (setForm x e) env s =
      parseSet [.SymbolSyntax "set!", .SymbolSyntax x, e] env s :=
    parse_set_head [.SymbolSyntax x, e] env s hfree hprim
  rw [hp, parseSet]
  constructor
  · intro hx
    simp only [hx, Bool.not_true, Bool.false_eq_true, if_false]
  · intro hx
    simp only [hx, Bool.not_false, if_true]
    rcases parse e env s with ⟨_ | _, _, _⟩ <;> rfl

/-- An instance: at a fresh prompt `(set! x 1)` is an analysis error; with `x` bound it is
analysed to `Set(x, 1)`. -/
theorem set_target_checked_at_analysis_witness :
    parse (setForm "x" (.Number 1)) empty (State.init .E_PLUS) =
        Out.fail (.RuntimeError "Undefined var") empty (State.init .E_PLUS) ∧
      parse (setForm "x" (.Number 1)) [("x", 0)] (cellsOnly .E_PLUS [.IntegerV 7]) =
        Out.ok (.Set "x" (.Fixnum 1)) [("x", 0)] (cellsOnly .E_PLUS [.IntegerV 7]) :=
  ⟨(set_target_checked_at_analysis "x" (.Number 1) empty (State.init .E_PLUS) rfl rfl).1 rfl,
    (set_target_checked_at_analysis "x" (.Number 1) [("x", 0)]
      (cellsOnly .E_PLUS [.IntegerV 7]) rfl rfl).2 rfl⟩

/-- C27 (the code at the failing input). The reserved-word branch of `Var::eval` looks up
`reserved_map.find(primitives[x])`, and `primitives[x]` inserts the missing key: once the
bare name `set!` has been evaluated, as by `(begin set! 1)`, `set!` is a key of
`primitives`, and `List::parse` takes a form with the head `set!` through the primitive
tier, which analyses the operands before anything else. From then on `(set! x (if))` with
`x` unbound ends in the string exception of `(if)`, which is no `RuntimeError` and ends
the process; at a fresh prompt the same form raises the `RuntimeError` "Undefined var"
without analysing its operand, as the claim says. Whenever `case E_SET` is reached
(`set!` neither lexically bound nor a key of `primitives`) it does what the claim says: an
unbound target is the `RuntimeError` "Undefined var", a bound one gives
`Set(x, analysed e)`. -/
theorem set_target_check_bypassed (fuel : Nat) (zero : ExprType) :
    (replStep (fuel + 2) (setForm "x" (ifForm [])) (ReplState.init zero)).1 =
        .runtimeError "Undefined var" ∧
      (ReplState.init zero).st.primitives.lookup "set!" = none ∧
      (replStep (fuel + 2) bareSetForm (ReplState.init zero)).1 = .value (.IntegerV 1) ∧
      (replStep (fuel + 2) bareSetForm (ReplState.init zero)).2.st.primitives.lookup "set!" =
        some zero ∧
      (find "x" (replStep (fuel + 2) bareSetForm (ReplState.init zero)).2.global_env
        (replStep (fuel + 2) bareSetForm (ReplState.init zero)).2.st).isNull = true ∧
      (replStep (fuel + 2) (setForm "x" (ifForm []))
        (replStep (fuel + 2) bareSetForm (ReplState.init zero)).2).1 =
          .abort (.OtherException "Wrong in IF") ∧
      ∀ (x : String) (e : Syntax) (env : Assoc) (s : State),
        (find "set!" env s).isNull = true → s.primitives.lookup "set!" = none →
        ((find x env s).isNull = true →
          parse (setForm x e) env s = Out.fail (.RuntimeError "Undefined var") env s) ∧
        ((find x env s).isNull = false →
          parse (setForm x e) env s =
            (match parse e env s with
              | ⟨.ok ex, env1, s1⟩ => Out.ok (.Set x ex) env1 s1
              | ⟨.error err, env1, s1⟩ => Out.fail err env1 s1)) := by
  refine ⟨rfl, rfl, ?_, ?_, ?_, ?_, ?_⟩
  · cases zero <;> rfl
  · cases zero <;> rfl
  · cases zero <;> rfl
  · cases zero <;> rfl
  · intro x e env s hfree hprim
    exact set_target_checked_at_analysis x e env s hfree hprim

/-- C28 (the code at the failing input). For an `if` form whose number of operands is not
3, with `if` not lexically bound (and no key of the primitive table), `List::parse`
executes `throw ("Wrong in IF")`, which throws a string literal and not a
`RuntimeError`. The handler of the driver catches `RuntimeError` only: on `(if 1 2)` the
exception leaves the loop and ends the process. -/
theorem if_arity_throws_string (fuel : Nat) (zero : ExprType) :
    (∀ (operands : List Syntax) (env : Assoc) (s : State),
        (find "if" env s).isNull = true → s.primitives.lookup "if" = none →
        operands.length ≠ 3 →
        parse (ifForm operands) env s = Out.fail (.OtherException "Wrong in IF") env s) ∧
      Error.isRuntimeError (.OtherException "Wrong in IF") = false ∧
      (replStep fuel (ifForm [.Number 1, .Number 2]) (ReplState.init zero)).1 =
        .abort (.OtherException "Wrong in IF") := by
  refine ⟨?_, rfl, rfl⟩
  intro operands env s hfree hprim hlen
  have hp : parse (ifForm operands) env s =
      parseIf (.SymbolSyntax "if" :: operands) env s :=
    parse_if_head operands env s hfree hprim
  rw [hp]
  rcases operands with _ | ⟨a, _ | ⟨b, _ | ⟨c, _ | ⟨d, r⟩⟩⟩⟩
  · rw [parseIf]
    intro _ _ _ _ h
    cases h
  · rw [parseIf]
    intro _ _ _ _ h
    cases h
  · rw [parseIf]
    intro _ _ _ _ h
    cases h
  · exact absurd rfl hlen
  · rw [parseIf]
    intro _ _ _ _ h
    cases h

/-! ## C30: the `define` shorthand -/

/-- C30 (the code at the failing input). `(define (f car) 1)` and
`(define f (lambda (car) 1))`, analysed at a fresh prompt, give the same tree, but not the
same analysis environment: the shorthand binds its parameter `car` in the caller's
environment itself, where it stays, while `lambda` binds it in a copy. After the
shorthand the head of `(car (quote (1 2)))` counts as lexically bound and the form raises
"Attempt to apply a non-procedure"; after the `lambda` form it evaluates to 1. -/
theorem define_shorthand_leaks_parameters (fuel : Nat) (zero : ExprType) :
    parse defineShorthandForm empty (State.init zero) =
        Out.ok (.Define "f" (.Lambda ["car"] (.Fixnum 1))) [("car", 1), ("f", 0)]
          (cellsOnly zero [.VoidV, .VoidV]) ∧
      parse defineLambdaForm empty (State.init zero) =
        Out.ok (.Define "f" (.Lambda ["car"] (.Fixnum 1))) [("f", 0)]
          (cellsOnly zero [.VoidV, .VoidV]) ∧
      (replStep (fuel + 3) carOfListForm
        (replStep (fuel + 3) defineShorthandForm (ReplState.init zero)).2).1 =
          .runtimeError "Attempt to apply a non-procedure" ∧
      (replStep (fuel + 3) carOfListForm
        (replStep (fuel + 3) defineLambdaForm (ReplState.init zero)).2).1 =
          .value (.IntegerV 1) :=
  ⟨rfl, rfl, rfl, rfl⟩

end Scheme


namespace Scheme

/-! ## The cells that the loop of `Let::eval` allocates -/

end Scheme


namespace Scheme

set_option maxHeartbeats 4000000

/-! ## C31: deferred defines after an error -/

/-- C31 (the code at the failing input). `defines.clear()` runs only after every deferred
right-hand side has been evaluated: when one of them raises, the `catch` is reached with
the list still full. After `(define x (car 1))` the form `1` prints "RuntimeError", and so
does the next form `2`, which the claim says evaluates to 2: the define is evaluated
again at every later form. In general, a step whose flush of the deferred defines raises
leaves the list as it was. -/
theorem failed_define_is_evaluated_again (fuel : Nat) (zero : ExprType) :
    (replRun (fuel + 3) [defineCarForm, .Number 1, .Number 2] (ReplState.init zero)).1 =
        [.deferred, .runtimeError "Not a pair for Car",
          .runtimeError "Not a pair for Car"] ∧
      (replRun (fuel + 3) [defineCarForm, .Number 1, .Number 2]
        (ReplState.init zero)).2.defines = [("x", .Unary .Car (.Fixnum 1))] ∧
      (replRun (fuel + 3) [.Number 1, .Number 2] (ReplState.init zero)).1 =
        [.value (.IntegerV 1), .value (.IntegerV 2)] ∧
      ∀ (f : Nat) (n : Int) (r : ReplState) (d : String × Expr) (ds : List (String × Expr))
        (err : Error) (env2 : Assoc) (s2 : State),
        r.defines = d :: ds →
        letrecFill (eval f) (d :: ds) (letrecExtend (d :: ds) r.global_env r.st).1
          (letrecExtend (d :: ds) r.global_env r.st).2 = ⟨.error err, env2, s2⟩ →
        replStep f (.Number n) r = (ReplEvent.ofError err, ⟨env2, d :: ds, s2⟩) := by
  refine ⟨rfl, rfl, rfl, ?_⟩
  intro f n r d ds err env2 s2 hd hfill
  simp only [replStep, parse, Out.ok, hd, hfill]

/-! ## C32: `begin` -/

/-- C32 (the code at the failing input). `Begin::eval` starts from `Value temp = nullptr`
and returns it when there is no sub-expression: `(begin)` is analysed to a `Begin` node
without sub-expressions, its value is the null handle, not `Void`, and the driver, which
reads `val->v_type`, crashes on it. The node `MakeVoid` of `(void)` returns `Void`. For a
`Begin` whose sub-expressions evaluate, in order and each once, to the values `vs`, the
result is the last of `vs`. -/
theorem begin_empty_returns_null (fuel : Nat) (zero : ExprType) :
    parse beginEmptyForm empty (State.init zero) =
        Out.ok (.Begin []) empty (State.init zero) ∧
      (∀ env s, eval (fuel + 1) (.Begin []) env s = Out.ok .nullptr env s) ∧
      (∀ env s, eval (fuel + 1) .MakeVoid env s = Out.ok .VoidV env s) ∧
      (replStep (fuel + 1) beginEmptyForm (ReplState.init zero)).1 = .abort nullDeref ∧
      ∀ (es : List Expr) (env : Assoc) (s : State) (v : Value) (vs : List Value) (env1 : Assoc)
        (s1 : State), evalSeq (eval fuel) es env s = ⟨.ok (vs ++ [v]), env1, s1⟩ →
        eval (fuel + 1) (.Begin es) env s = Out.ok v env1 s1 := by
  refine ⟨rfl, fun _ _ => rfl, fun _ _ => rfl, rfl, ?_⟩
  intro es env s v vs env1 s1 h
  simp only [eval, h, List.getLastD_concat]

/-! ## C33: the tests of `cond` -/

/-- C33 (the code at the failing input). The condition of `Cond::eval` spells out
`clauses[i][0]->eval(env)` three times. With `x` defined as 0, the form
`(cond ((begin (set! x (+ x 1)) #t) x))`, whose test counts its evaluations in `x`,
evaluates to 3, not to 1; with a test whose value is no Boolean the first evaluation
decides and the form evaluates to 1. -/
theorem cond_test_evaluated_three_times (fuel : Nat) (zero : ExprType) :
    (replRun (fuel + 5) [defineNumberForm 0, condBumpForm .TrueSyntax]
        (ReplState.init zero)).1 = [.deferred, .value (.IntegerV 3)] ∧
      (replRun (fuel + 5) [defineNumberForm 0, condBumpForm (.Number 7)]
        (ReplState.init zero)).1 = [.deferred, .value (.IntegerV 1)] ∧
      (replRun (fuel + 5) [defineNumberForm 0, bumpTest .TrueSyntax, sym "x"]
        (ReplState.init zero)).1 =
          [.deferred, .value (.BooleanV true), .value (.IntegerV 1)] :=
  ⟨rfl, rfl, rfl⟩

/-! ## C38: the condition of `if` -/

/-- C38 (the code at the failing input). `If::eval` evaluates `cond->eval(e)` once for the
test of its type and, when the value is a Boolean, once more for the test of its truth.
With `x` defined as 0, the form `(if (begin (set! x (+ x 1)) #t) x x)`, whose condition
counts its evaluations in `x`, evaluates to 2, not to 1, and so does the form with `#f`;
with a condition whose value is no Boolean the form evaluates to 1. -/
theorem if_condition_evaluated_twice (fuel : Nat) (zero : ExprType) :
    (replRun (fuel + 5) [defineNumberForm 0, ifBumpForm .TrueSyntax]
        (ReplState.init zero)).1 = [.deferred, .value (.IntegerV 2)] ∧
      (replRun (fuel + 5) [defineNumberForm 0, ifBumpForm .FalseSyntax]
        (ReplState.init zero)).1 = [.deferred, .value (.IntegerV 2)] ∧
      (replRun (fuel + 5) [defineNumberForm 0, ifBumpForm (.Number 7)]
        (ReplState.init zero)).1 = [.deferred, .value (.IntegerV 1)] :=
  ⟨rfl, rfl, rfl⟩

end Scheme


namespace Scheme

/-! ## The cells that analysis can reach -/

end Scheme


namespace Scheme

/-! ## C34: tokens that look like numbers -/

/-- C34 (the code at the failing input). In `try_parse_as_number` the test
`i == 0 && st[i] == '+' || st[i] == '-'` skips a `-` at every position, not only at the
first: `--` and `-1-2` are recognised as numbers, and `Var::eval` returns 0 and -12 for
them. A token of digits without a sign is recognised too, but `Var::eval` rejects a
leading digit before it asks. The other half of the claimed equivalence holds: an optional
sign followed by one or more digits is recognised, and `+5` and `-12` evaluate to 5
and -12. -/
theorem try_parse_as_number_accepts_inner_minus (fuel : Nat) (zero : ExprType) :
    try_parse_as_number "--" = true ∧ try_parse_as_number "-1-2" = true ∧
      (replStep (fuel + 1) (sym "--") (ReplState.init zero)).1 = .value (.IntegerV 0) ∧
      (replStep (fuel + 1) (sym "-1-2") (ReplState.init zero)).1 = .value (.IntegerV (-12)) ∧
      try_parse_as_number "12" = true ∧
      (replStep (fuel + 1) (sym "12") (ReplState.init zero)).1 =
        .runtimeError "Invalid variable name" ∧
      (replStep (fuel + 1) (sym "+5") (ReplState.init zero)).1 = .value (.IntegerV 5) ∧
      (replStep (fuel + 1) (sym "-12") (ReplState.init zero)).1 = .value (.IntegerV (-12)) ∧
      ∀ sign digits : List Char, sign = [] ∨ sign = ['+'] ∨ sign = ['-'] → digits ≠ [] →
        (∀ c ∈ digits, c.isDigit = true) →
        try_parse_as_number (String.mk (sign ++ digits)) = true := by
  refine ⟨rfl, rfl, rfl, rfl, rfl, rfl, rfl, rfl, ?_⟩
  intro sign digits hsign hne hdig
  obtain ⟨d, ds, rfl⟩ := List.exists_cons_of_ne_nil hne
  have hd := isDigit_ne_sign (hdig d (List.mem_cons_self _ _))
  rcases hsign with rfl | rfl | rfl
  · have hloop := try_parse_loop_digits (d :: ds) 0 hdig
    simp only [try_parse_as_number, List.nil_append, List.head?_cons, hloop]
    simp [hd.1, hd.2]
  · have hloop : try_parse_loop 0 ('+' :: d :: ds) = true := by
      rw [try_parse_loop, if_pos (by decide)]
      exact try_parse_loop_digits (d :: ds) 1 hdig
    simp [try_parse_as_number, hloop]
  · have hloop : try_parse_loop 0 ('-' :: d :: ds) = true := by
      rw [try_parse_loop, if_pos (by decide)]
      exact try_parse_loop_digits (d :: ds) 1 hdig
    simp [try_parse_as_number, hloop]

/-! ## C35: primitives as values -/

/-- C35 (the code at the failing input). The table `primitive_map` of `Var::eval` gives
`eq?` the body `EqualVar`, the numeric `=`, and gives `+` the body `PlusVar` with no
operands and no parameters. Applied to two equal symbols, the procedure synthesised for
`eq?` raises "Wrong typename", while `(eq? (quote a) (quote a))` is `#t`; applied to no
argument, the procedure synthesised for `+` has as many arguments as parameters, so its
body is evaluated and raises "No parameter", while `(+)` is 0. For `modulo` the two ways
agree. -/
theorem synthesized_primitive_differs (fuel : Nat) (zero : ExprType) :
    (Var_eval "eq?" empty (State.init zero)).1 =
        .ok (.ProcedureV [] (.Variadic .EqualVar []) empty) ∧
      (replStep (fuel + 3) (directForm "eq?" [quoteSymbol "a", quoteSymbol "a"])
        (ReplState.init zero)).1 = .value (.BooleanV true) ∧
      (replStep (fuel + 3) (applyNamedForm "eq?" [quoteSymbol "a", quoteSymbol "a"])
        (ReplState.init zero)).1 = .runtimeError "Wrong typename" ∧
      (eval (fuel + 2) (.Apply (.Var "eq?") [.Quote (sym "a"), .Quote (sym "a")]) empty
        (State.init zero)).res = .error (.RuntimeError "Wrong typename") ∧
      (Var_eval "+" empty (State.init zero)).1 =
        .ok (.ProcedureV [] (.Variadic .PlusVar []) empty) ∧
      (replStep (fuel + 3) (directForm "+" []) (ReplState.init zero)).1 =
        .value (.IntegerV 0) ∧
      (replStep (fuel + 3) (applyNamedForm "+" []) (ReplState.init zero)).1 =
        .runtimeError "No parameter" ∧
      (eval (fuel + 2) (.Apply (.Var "+") []) empty (State.init zero)).res =
        .error (.RuntimeError "No parameter") ∧
      (replStep (fuel + 4) (directForm "modulo" [.Number 7, .Number 2])
        (ReplState.init zero)).1 = .value (.IntegerV 1) ∧
      (replStep (fuel + 4) (applyNamedForm "modulo" [.Number 7, .Number 2])
        (ReplState.init zero)).1 = .value (.IntegerV 1) :=
  ⟨rfl, rfl, rfl, rfl, rfl, rfl, rfl, rfl, rfl, rfl⟩

/-! ## C39: `list?` -/

/-- C39 (the code at the failing input). `IsList::evalRator` answers `#t` exactly for a
pair whose car or whose cdr is itself a pair, and looks no further. For the empty list
and for the one-element list `(cons 1 (quote ()))`, both proper lists, it answers `#f`;
for the improper pair `(cons (cons 1 2) 3)` it answers `#t`; for the proper list
`(list 1 2)` it answers `#t` and for `(list 1)` it answers `#f`. -/
theorem list_predicate_misjudges (fuel : Nat) (zero : ExprType) :
    (∀ s, IsList_evalRator .NullV s = .ok (.BooleanV false)) ∧
      (replStep (fuel + 4) (listqForm quoteNilForm) (ReplState.init zero)).1 =
        .value (.BooleanV false) ∧
      (replStep (fuel + 4) (listqForm (consForm (.Number 1) quoteNilForm))
        (ReplState.init zero)).1 = .value (.BooleanV false) ∧
      (replStep (fuel + 4) (listqForm (consForm (consForm (.Number 1) (.Number 2)) (.Number 3)))
        (ReplState.init zero)).1 = .value (.BooleanV true) ∧
      (replStep (fuel + 4) (listqForm (directForm "list" [.Number 1, .Number 2]))
        (ReplState.init zero)).1 = .value (.BooleanV true) ∧
      (replStep (fuel + 4) (listqForm (directForm "list" [.Number 1]))
        (ReplState.init zero)).1 = .value (.BooleanV false) :=
  ⟨fun _ => rfl, rfl, rfl, rfl, rfl, rfl⟩

/-! ## C40: positions read by `Syntaxtransit` -/

/-- C40 (the code at the failing input). When the last element of the list is not itself a
list, `Syntaxtransit` tests `stxs[stxs.size() - 2]` without looking at the size. For the
one-element list of `(quote (a))` the index is `1 - 2` in `size_t` arithmetic, that is
`2^64 - 1`, a position outside the vector, and the read is undefined behaviour. For a list
of two or more elements, and for a one-element list whose element is a list, every
position read lies in `[0, size - 1]`. -/
theorem Syntaxtransit_reads_outside_single (fuel : Nat) (zero : ExprType) :
    transitReads [sym "a"] = [0, 18446744073709551615] ∧
      (∀ st, Syntaxtransit (.List [sym "a"]) st =
        (.error (.Crash "vector index out of range"), st)) ∧
      (replStep (fuel + 1) quoteSingleForm (ReplState.init zero)).1 =
        .abort (.Crash "vector index out of range") ∧
      (∀ x : Syntax, isListSyntax x = false →
        ∃ i ∈ transitReads [x], ¬ i < [x].length) ∧
      ∀ stxs : List Syntax, stxs.length < 18446744073709551616 →
        (2 ≤ stxs.length ∨ ∃ l, stxs = [.List l]) →
        ∀ i ∈ transitReads stxs, i < stxs.length := by
  refine ⟨?_, fun _ => rfl, rfl, ?_, ?_⟩
  · rw [transitReads_single (sym "a") rfl, sizeMinus_one_one, sizeMinus_one_two]
  · intro x hx
    refine ⟨sizeMinus 1 2, ?_, ?_⟩
    · rw [transitReads_single x hx]
      exact List.mem_cons_of_mem _ (List.mem_singleton_self _)
    · rw [sizeMinus_one_two, List.length_singleton, Nat.not_lt]
      exact Nat.le_of_ble_eq_true rfl
  · intro stxs hlt hshape i hi
    rcases hshape with h2 | ⟨l, rfl⟩
    · have hne : stxs.isEmpty = false := by
        cases stxs with
        | nil => simp at h2
        | cons _ _ => rfl
      have h1 : sizeMinus stxs.length 1 = stxs.length - 1 := sizeMinus_of_le (by omega) hlt
      have h2' : sizeMinus stxs.length 2 = stxs.length - 2 := sizeMinus_of_le h2 hlt
      unfold transitReads at hi
      rw [hne, h1, h2'] at hi
      simp only [Bool.false_eq_true, if_false] at hi
      split at hi
      · rcases List.mem_cons.mp hi with rfl | hi
        · omega
        · have := mem_downFrom hi
          omega
      · split at hi
        · simp only [List.mem_cons, List.mem_singleton, List.not_mem_nil, or_false] at hi
          omega
        · split at hi <;>
          · rcases List.mem_append.mp hi with hi | hi
            · simp only [List.mem_cons, List.mem_singleton, List.not_mem_nil,
                or_false] at hi
              omega
            · have := mem_downFrom hi
              omega
    · rw [transitReads_single_list, List.mem_singleton] at hi
      rw [hi, List.length_singleton]
      exact Nat.one_pos

end Scheme


namespace Scheme

/-! ## C36: variable-arity comparisons -/

/-- C36, as stated, fails: the comparisons cross-multiply in `int` and check no overflow.
In `(< (/ 1 65536) 65536 65537)` the arguments are strictly increasing, but the cross
product `65536 * 65536` wraps to 0, the first pair compares as "greater", and `LessVar`
returns `#f`. -/
theorem LessVar_cross_product_wraps :
    (Variadic_evalRator .LessVar [.RationalV 1 65536, .IntegerV 65536, .IntegerV 65537]
        (State.init .E_PLUS)).1 = .ok (.BooleanV false) ∧
      denote (.RationalV 1 65536) < denote (.IntegerV 65536) ∧
      denote (.IntegerV 65536) < denote (.IntegerV 65537) ∧
      (compareNumericValues (.RationalV 1 65536) (.IntegerV 65536)).exact = false ∧
      (replStep 3 lessChainForm (ReplState.init .E_PLUS)).1 = .value (.BooleanV false) := by
  refine ⟨rfl, ?_, ?_, rfl, rfl⟩
  · norm_num [denote]
  · norm_num [denote]

/-- C36, amended. For every non-empty list of numeric values (an `Integer`, or a
`Rational` with positive denominator) in which the cross products of every adjacent pair
do not overflow 32 bits: `LessVar::evalRator` returns a Boolean that is `#t` exactly when
`a_i < a_(i+1)` holds, as rational numbers, for every adjacent pair, and likewise
`LessEqVar`, `EqualVar`, `GreaterEqVar` and `GreaterVar` for `<=`, `=`, `>=` and `>`. On a
list of two values, numeric or not, each variadic node returns what the corresponding
binary node returns. -/
theorem compareVar_evalRator_chain (args : List Value) (hne : args ≠ [])
    (hnum : ∀ a ∈ args, numericOperand a)
    (hexact : List.Chain' (fun a b => (compareNumericValues a b).exact = true) args)
    (s : State) :
    (∃ r, (Variadic_evalRator .LessVar args s).1 = .ok (.BooleanV r) ∧
        (r = true ↔ List.Chain' (fun a b => denote a < denote b) args)) ∧
      (∃ r, (Variadic_evalRator .LessEqVar args s).1 = .ok (.BooleanV r) ∧
        (r = true ↔ List.Chain' (fun a b => denote a ≤ denote b) args)) ∧
      (∃ r, (Variadic_evalRator .EqualVar args s).1 = .ok (.BooleanV r) ∧
        (r = true ↔ List.Chain' (fun a b => denote a = denote b) args)) ∧
      (∃ r, (Variadic_evalRator .GreaterEqVar args s).1 = .ok (.BooleanV r) ∧
        (r = true ↔ List.Chain' (fun a b => denote a ≥ denote b) args)) ∧
      (∃ r, (Variadic_evalRator .GreaterVar args s).1 = .ok (.BooleanV r) ∧
        (r = true ↔ List.Chain' (fun a b => denote a > denote b) args)) ∧
      ∀ a b : Value,
        (Variadic_evalRator .LessVar [a, b] s).1 = (Binary_evalRator .Less a b s).1 ∧
        (Variadic_evalRator .LessEqVar [a, b] s).1 = (Binary_evalRator .LessEq a b s).1 ∧
        (Variadic_evalRator .EqualVar [a, b] s).1 = (Binary_evalRator .Equal a b s).1 ∧
        (Variadic_evalRator .GreaterEqVar [a, b] s).1 =
          (Binary_evalRator .GreaterEq a b s).1 ∧
        (Variadic_evalRator .GreaterVar [a, b] s).1 = (Binary_evalRator .Greater a b s).1 := by
  refine ⟨?_, ?_, ?_, ?_, ?_, ?_⟩
  · refine compareVar_evalRator_val _ (fun x y => x < y) ?_ args hne hnum hexact
    intro x y c h1 _ _
    simp only [bne_eq_false_iff_eq, beq_iff_eq]
    exact h1
  · refine compareVar_evalRator_val _ (fun x y => x ≤ y) ?_ args hne hnum hexact
    intro x y c _ _ h3
    simp only [beq_eq_false_iff_ne, ne_eq, h3, not_lt]
  · refine compareVar_evalRator_val _ (fun x y => x = y) ?_ args hne hnum hexact
    intro x y c _ h2 _
    simp only [bne_eq_false_iff_eq, beq_iff_eq]
    exact h2
  · refine compareVar_evalRator_val _ (fun x y => x ≥ y) ?_ args hne hnum hexact
    intro x y c h1 _ _
    simp only [beq_eq_false_iff_ne, ne_eq, h1, not_lt, ge_iff_le]
  · refine compareVar_evalRator_val _ (fun x y => x > y) ?_ args hne hnum hexact
    intro x y c _ _ h3
    simp only [bne_eq_false_iff_eq, beq_iff_eq]
    exact h3
  · intro a b
    refine ⟨compareVar_pair _ _ ?_ a b, compareVar_pair _ _ ?_ a b, compareVar_pair _ _ ?_ a b,
      compareVar_pair _ _ ?_ a b, compareVar_pair _ _ ?_ a b⟩ <;>
    · intro c
      simp [bne]

/-- Witness for the amended C36: the arguments 1/2, 2/3, 1 of `<`. -/
theorem compareVar_evalRator_chain_witness :
    ∃ r, (Variadic_evalRator .LessVar [.RationalV 1 2, .RationalV 2 3, .IntegerV 1]
        (State.init .E_PLUS)).1 = .ok (.BooleanV r) ∧
      (r = true ↔ List.Chain' (fun a b => denote a < denote b)
        [.RationalV 1 2, .RationalV 2 3, .IntegerV 1]) :=
  (compareVar_evalRator_chain [.RationalV 1 2, .RationalV 2 3, .IntegerV 1]
    (List.cons_ne_nil _ _) (by simp [numericOperand])
    (List.Chain.cons rfl (List.Chain.cons rfl List.Chain.nil)) (State.init .E_PLUS)).1

end Scheme


namespace Scheme

/-! ## C37: the analysis environment after a failed analysis -/

/-- C37, as stated, fails: `case E_DEFINE` binds the name in the caller's environment
before it analyses the right-hand side and before it tests that the form has exactly three
elements. The rejected form `(define x 1 2)`, analysed in the empty environment, raises
and leaves `x` bound; typed next, `x` is a bound name with the placeholder value, while at
a fresh prompt it is unbound. -/
theorem rejected_define_leaves_binding :
    (parse defineExtraForm empty (State.init .E_PLUS)).res =
        .error (.RuntimeError "Couldn't bind several procedures to a VAR identifier") ∧
      (parse defineExtraForm empty (State.init .E_PLUS)).env = [("x", 0)] ∧
      (replRun 1 [defineExtraForm, sym "x"] (ReplState.init .E_PLUS)).1 =
        [.runtimeError "Couldn't bind several procedures to a VAR identifier",
          .value .VoidV] ∧
      (replRun 1 [sym "x"] (ReplState.init .E_PLUS)).1 = [.abort nullDeref] :=
  ⟨rfl, rfl, rfl, rfl⟩

/-- C37, amended. For every syntax tree and analysis environment, `parse`, whether it fails
or returns, leaves the environment handed in by reference as it was with zero or more new
bindings in front: every binding present before the call is still there. When no list
inside the tree has the symbol `define` as its head, the environment is left exactly as it
was. -/
theorem parse_keeps_bindings (stx : Syntax) (env : Assoc) (s : State) :
    (∃ ext : Assoc, (parse stx env s).env = ext ++ env) ∧
      (defineFree stx = true → (parse stx env s).env = env) :=
  parse_keeps stx env s

/-- Witness for the amended C37: the rejected form `(if 1 2)` leaves the environment that
binds `y` as it was. -/
theorem parse_keeps_bindings_witness :
    (∃ e, (parse (ifForm [.Number 1, .Number 2]) [("y", 0)] (State.init .E_PLUS)).res =
        .error e) ∧
      (parse (ifForm [.Number 1, .Number 2]) [("y", 0)] (State.init .E_PLUS)).env =
        [("y", 0)] :=
  ⟨⟨_, rfl⟩, (parse_keeps_bindings (ifForm [.Number 1, .Number 2]) [("y", 0)]
    (State.init .E_PLUS)).2 rfl⟩

end Scheme


namespace Scheme

/-! ## The right-hand sides of a `let` are analysed outside the `let` -/

end Scheme


namespace Scheme

set_option maxHeartbeats 4000000

/-! ## C29: the scope of `let` -/

end Scheme


namespace Scheme

/-! ## C14: `quote` in any two environments -/

theorem valueWithin_top : ∀ v : Value, valueWithin (fun _ => True) v
  | .ProcedureV _ _ _ => fun _ _ => trivial
  | .nullptr => trivial
  | .IntegerV _ => trivial
  | .RationalV _ _ => trivial
  | .BooleanV _ => trivial
  | .StringV _ => trivial
  | .SymbolV _ => trivial
  | .VoidV => trivial
  | .TerminateV => trivial
  | .NullV => trivial
  | .PairV _ => trivial

theorem stateWithin_top (s : State) : stateWithin (fun _ => True) s :=
  ⟨fun v _ => valueWithin_top v, fun p _ => ⟨valueWithin_top p.1, valueWithin_top p.2⟩⟩

/-- C14 (the code at the failing input). For `(quote (a))`, a one-element list whose
element is no list, `Syntaxtransit` reads `stxs[size - 2]` outside the vector (the defect
of C40): the evaluation is undefined behaviour and yields no value, in whatever
environment and memory; so does `(quote (1 (2)))`, whose last element is such a list. The
claim says that every `Quote` node yields structurally equal values in any two
environments. What holds for every `Quote` node: the outcome depends neither on the
environment nor on the memory (either both evaluations return values of one and the same
structure, or both stop with the same error), and each evaluation leaves its environment
as it was, the handle and every environment cell. -/
theorem Quote_eval_single_element_no_value (fuel : Nat) (zero : ExprType) :
    (∀ env st, eval (fuel + 1) (.Quote (.List [sym "a"])) env st =
        Out.fail (.Crash "vector index out of range") env st) ∧
      (∀ env st, (eval (fuel + 1) (.Quote (.List [.Number 1, .List [.Number 2]])) env st).res =
        .error (.Crash "vector index out of range")) ∧
      (replStep (fuel + 1) (.List [sym "quote", .List [.Number 1, .List [.Number 2]]])
        (ReplState.init zero)).1 = .abort (.Crash "vector index out of range") ∧
      ∀ (s : Syntax) (f1 f2 : Nat) (env1 env2 : Assoc) (st1 st2 : State),
        ((∃ v1 v2 d, (eval (f1 + 1) (.Quote s) env1 st1).res = .ok v1 ∧
            (eval (f2 + 1) (.Quote s) env2 st2).res = .ok v2 ∧
            reads (eval (f1 + 1) (.Quote s) env1 st1).st v1 d = true ∧
            reads (eval (f2 + 1) (.Quote s) env2 st2).st v2 d = true) ∨
          ∃ e, (eval (f1 + 1) (.Quote s) env1 st1).res = .error e ∧
            (eval (f2 + 1) (.Quote s) env2 st2).res = .error e) ∧
        (eval (f1 + 1) (.Quote s) env1 st1).env = env1 ∧
        (eval (f2 + 1) (.Quote s) env2 st2).env = env2 ∧
        (eval (f1 + 1) (.Quote s) env1 st1).st.cells = st1.cells ∧
        (eval (f2 + 1) (.Quote s) env2 st2).st.cells = st2.cells := by
  refine ⟨fun _ _ => rfl, fun _ _ => rfl, rfl, ?_⟩
  intro s f1 f2 env1 env2 st1 st2
  have e1 : eval (f1 + 1) (.Quote s) env1 st1 =
      ⟨(Syntaxtransit s st1).1, env1, (Syntaxtransit s st1).2⟩ := rfl
  have e2 : eval (f2 + 1) (.Quote s) env2 st2 =
      ⟨(Syntaxtransit s st2).1, env2, (Syntaxtransit s st2).2⟩ := rfl
  rw [e1, e2]
  refine ⟨?_, rfl, rfl, (Syntaxtransit_ok (stateWithin_top st1) s).1,
    (Syntaxtransit_ok (stateWithin_top st2) s).1⟩
  rcases Syntaxtransit_decided (sizeOf s) s (Nat.le_refl _) with ⟨d, hd⟩ | ⟨e, he⟩
  · obtain ⟨w1, t1, hw1, r1, -⟩ := hd st1
    obtain ⟨w2, t2, hw2, r2, -⟩ := hd st2
    refine Or.inl ⟨w1, w2, d, ?_, ?_, ?_, ?_⟩
    · show (Syntaxtransit s st1).1 = .ok w1
      rw [hw1]
    · show (Syntaxtransit s st2).1 = .ok w2
      rw [hw2]
    · show reads (Syntaxtransit s st1).2 w1 d = true
      rw [hw1]
      exact r1
    · show reads (Syntaxtransit s st2).2 w2 d = true
      rw [hw2]
      exact r2
  · exact Or.inr ⟨e, he st1, he st2⟩

end Scheme
